import Mathlib

/-!
# Learnifyy: enrollment, progress, rating and user-record fetch

A shallow embedding of the request handlers of
`server/controllers/userController.js` and
`server/controllers/educatorController.js`, and of the client routines of
`client/src/context/AppContext.jsx`,
`client/src/pages/student/MyEnrollments.jsx`,
`client/src/pages/student/CourseDetails.jsx` and
`client/src/pages/student/Player.jsx`.

Modelling conventions.

* Document identifiers (user IDs issued by the identity provider, course and
  lecture IDs) are `String`s; `Array.prototype.includes` on an ID list is list
  membership and `push` appends at the end.
* The `User` and `Course` collections are keyed by `_id`, so they are finite
  maps `String → Option _`; `findById` is application and `save` is
  `Function.update` at the document key.  Only the fields the handlers read or
  write are kept.
* The `CourseProgress` collection has no key the handlers rely on, so it is a
  list of records; `findOne` returns the first match, `save` rewrites the
  record at the position found and `create` appends.
* A store operation may throw: `Faults` says, for each operation of a request,
  whether it throws and with which message.  The handler's `try/catch` turns a
  thrown error into the response `⟨false, message⟩`.
* JavaScript numbers are exact rationals extended with `NaN` and the two
  infinities; the sign of zero is not tracked.  A value of a request body may
  also be a boolean, a string, an object or an array; `ToNumber` of a string
  follows the grammar of `StringToNumber`.
* Strings are lists of characters where they are searched; a regular
  expression `lit([a-zA-Z0-9_-]{11})` is a leftmost search for the literal
  followed by eleven characters of the class.
* `Array.prototype.sort` is a stable sort that reads a comparator result
  `NaN` as `+0`; a date is a time value in milliseconds, or invalid, and the
  difference of two dates is `NaN` when either is invalid.
-/

namespace Learnifyy

/-! ## JavaScript values -/

/-- The JavaScript values that reach the modelled code: the values a JSON request body or
a computation on them can hold. A number is `num`, `nan` or an infinity. An object or an
array is `obj text`, where `text` is what its `toString()` returns (`[object Object]` for
a plain object, the joined elements for an array): the operators of the modelled code
convert it through that text. -/
inductive JsVal where
  | undefined
  | null
  | bool (b : Bool)
  | num (q : ℚ)
  | nan
  | posInf
  | negInf
  | str (s : String)
  | obj (text : String)
deriving DecidableEq

/-- The white space and line terminators `String.prototype.trim` removes. -/
def isJsSpace (c : Char) : Bool :=
  let n := c.toNat
  (9 ≤ n && n ≤ 13) || n == 32 || n == 160 || n == 5760 || (8192 ≤ n && n ≤ 8202)
    || n == 8232 || n == 8233 || n == 8239 || n == 8287 || n == 12288 || n == 65279

/-- The method `String.prototype.trim`, on the characters of the string. -/
def jsTrim (s : List Char) : List Char :=
  ((s.dropWhile isJsSpace).reverse.dropWhile isJsSpace).reverse

/-- The value of a digit character in a base of at most 16. -/
def digitValue (c : Char) : Option Nat :=
  let n := c.toNat
  if 48 ≤ n ∧ n ≤ 57 then some (n - 48)
  else if 97 ≤ n ∧ n ≤ 102 then some (n - 87)
  else if 65 ≤ n ∧ n ≤ 70 then some (n - 55)
  else none

/-- The value of a non-empty run of digits of the base; `none` for an empty run or a
character that is not a digit of the base. -/
def digitsValue (base : Nat) (s : List Char) : Option Nat :=
  if s = [] then none
  else s.foldl (fun acc c =>
    match acc, digitValue c with
    | some a, some d => if d < base then some (a * base + d) else none
    | _, _ => none) (some 0)

/-- A decimal digit. -/
def isDecDigit (c : Char) : Bool := 48 ≤ c.toNat && c.toNat ≤ 57

/-- The production `ExponentPart` when present: `some 0` for no exponent, `none` for a
malformed one. -/
def exponentValue : List Char → Option Int
  | [] => some 0
  | c :: t =>
    if c = 'e' ∨ c = 'E' then
      match t with
      | '+' :: ds => (digitsValue 10 ds).map Int.ofNat
      | '-' :: ds => (digitsValue 10 ds).map (fun n => - Int.ofNat n)
      | ds => (digitsValue 10 ds).map Int.ofNat
    else none

/-- The production `StrUnsignedDecimalLiteral`. -/
def unsignedDecimal (s : List Char) : JsVal :=
  if s = "Infinity".data then JsVal.posInf
  else
    let ip := s.takeWhile isDecDigit
    let r1 := s.dropWhile isDecDigit
    let fp := match r1 with
      | '.' :: t => t.takeWhile isDecDigit
      | _ => []
    let r2 := match r1 with
      | '.' :: t => t.dropWhile isDecDigit
      | _ => r1
    if ip = [] ∧ fp = [] then JsVal.nan
    else
      match exponentValue r2 with
      | none => JsVal.nan
      | some e =>
          JsVal.num ((((digitsValue 10 (ip ++ fp)).getD 0 : Nat) : ℚ) / 10 ^ fp.length * 10 ^ e)

/-- Unary minus on a number. -/
def JsVal.neg : JsVal → JsVal
  | .num q => .num (-q)
  | .posInf => .negInf
  | .negInf => .posInf
  | v => v

/-- The production `StrDecimalLiteral`. -/
def signedDecimal : List Char → JsVal
  | '+' :: t => unsignedDecimal t
  | '-' :: t => (unsignedDecimal t).neg
  | s => unsignedDecimal s

/-- The production `NonDecimalIntegerLiteral`. -/
def nonDecimalInteger : List Char → Option Nat
  | '0' :: c :: t =>
    if c = 'x' ∨ c = 'X' then digitsValue 16 t
    else if c = 'o' ∨ c = 'O' then digitsValue 8 t
    else if c = 'b' ∨ c = 'B' then digitsValue 2 t
    else none
  | _ => none

/-- The abstract operation `StringToNumber`: white space is trimmed, an empty
text is `0`, a text outside the grammar is `NaN`. The value is the exact one of
the literal, not rounded to a double. -/
def stringToNumber (s : String) : JsVal :=
  let t := jsTrim s.data
  if t = [] then JsVal.num 0
  else
    match nonDecimalInteger t with
    | some n => JsVal.num n
    | none => signedDecimal t

namespace JsVal

/-- The abstract operation `ToNumber`. -/
def toNumber : JsVal → JsVal
  | undefined => nan
  | null => num 0
  | bool b => num (if b then 1 else 0)
  | str s => stringToNumber s
  | obj text => stringToNumber text
  | v => v

/-- The operator `!v`. -/
def falsy : JsVal → Bool
  | undefined => true
  | null => true
  | nan => true
  | num q => decide (q = 0)
  | bool b => !b
  | str s => decide (s = "")
  | _ => false

/-- The operator `a || b`. -/
def or (a b : JsVal) : JsVal := if a.falsy then b else a

/-- The operator `a < b` with both operands converted by `ToNumber`, as JavaScript does
unless both are strings or objects; every comparison of the modelled code has a number
literal on one side. -/
def lt (a b : JsVal) : Bool :=
  match a.toNumber, b.toNumber with
  | num x, num y => decide (x < y)
  | num _, posInf => true
  | negInf, num _ => true
  | negInf, posInf => true
  | _, _ => false

/-- The operator `a > b`. -/
def gt (a b : JsVal) : Bool := lt b a

/-- The operator `a * b`. -/
def mul (a b : JsVal) : JsVal :=
  match a.toNumber, b.toNumber with
  | num x, num y => num (x * y)
  | num x, posInf => if x = 0 then nan else if 0 < x then posInf else negInf
  | num x, negInf => if x = 0 then nan else if 0 < x then negInf else posInf
  | posInf, num y => if y = 0 then nan else if 0 < y then posInf else negInf
  | negInf, num y => if y = 0 then nan else if 0 < y then negInf else posInf
  | posInf, posInf => posInf
  | negInf, negInf => posInf
  | posInf, negInf => negInf
  | negInf, posInf => negInf
  | _, _ => nan

/-- The operator `a / b`. -/
def div (a b : JsVal) : JsVal :=
  match a.toNumber, b.toNumber with
  | num x, num y =>
      if y = 0 then (if x = 0 then nan else if 0 < x then posInf else negInf)
      else num (x / y)
  | num _, posInf => num 0
  | num _, negInf => num 0
  | posInf, num y => if 0 ≤ y then posInf else negInf
  | negInf, num y => if 0 ≤ y then negInf else posInf
  | _, _ => nan

/-- A value is a finite number: neither `NaN` nor an infinity nor a non-number. -/
def isFinite : JsVal → Bool
  | num _ => true
  | _ => false

end JsVal

/-! ## Server stores -/

/-- A user document: the enrolled-course ID list. -/
structure User where
  enrolledCourses : List String
deriving DecidableEq

/-- One entry of `courseRatings`. -/
structure CourseRating where
  userId : String
  rating : JsVal
deriving DecidableEq

/-- A course document: enrolled-student ID list and rating list. -/
structure Course where
  enrolledStudents : List String
  courseRatings : List CourseRating
deriving DecidableEq

/-- A progress record of the `CourseProgress` collection. -/
structure CourseProgress where
  userId : String
  courseId : String
  lectureCompleted : List String
deriving DecidableEq

/-- The three stores. -/
structure Db where
  users : String → Option User
  courses : String → Option Course
  progress : List CourseProgress

/-- For each store operation of a request: the message of the error it throws,
if it throws. -/
structure Faults where
  findCourse : Option String
  findUser : Option String
  saveUser : Option String
  saveCourse : Option String
  findProgress : Option String
  saveProgress : Option String
  createProgress : Option String
deriving DecidableEq

/-- No store operation throws. -/
def noFaults : Faults := ⟨none, none, none, none, none, none, none⟩

/-- The JSON body `{success, message}` a handler answers with. -/
structure Response where
  success : Bool
  message : String
deriving DecidableEq

/-! ## `enrollCourse` -/

/-- The statements `userData.enrolledCourses.push(courseData._id); await userData.save()`. -/
def saveUserEnrolled (db : Db) (userId courseId : String) (userData : User) : Db :=
  { db with
    users := Function.update db.users userId
      (some { userData with enrolledCourses := userData.enrolledCourses ++ [courseId] }) }

/-- The statements `courseData.enrolledStudents.push(userData._id); await courseData.save()`. -/
def saveCourseEnrolled (db : Db) (userId courseId : String) (courseData : Course) : Db :=
  { db with
    courses := Function.update db.courses courseId
      (some { courseData with enrolledStudents := courseData.enrolledStudents ++ [userId] }) }

/-- The handler `enrollCourse` of `userController.js`. -/
def enrollCourse (db : Db) (io : Faults) (userId courseId : String) : Db × Response :=
  match io.findCourse with
  | some e => (db, ⟨false, e⟩)
  | none =>
    match io.findUser with
    | some e => (db, ⟨false, e⟩)
    | none =>
      match db.users userId, db.courses courseId with
      | some userData, some courseData =>
          if courseId ∈ userData.enrolledCourses then
            (db, ⟨true, "Already Enrolled"⟩)
          else
            match io.saveUser with
            | some e => (db, ⟨false, e⟩)
            | none =>
                let db1 := saveUserEnrolled db userId courseId userData
                match io.saveCourse with
                | some e => (db1, ⟨false, e⟩)
                | none =>
                    (saveCourseEnrolled db1 userId courseId courseData,
                      ⟨true, "Enrollment Successful"⟩)
      | _, _ => (db, ⟨false, "Data Not Found"⟩)

/-- The store after `n` sequential `enrollCourse` requests for the same
user and course, no store operation failing. -/
def enrollTimes (db : Db) (userId courseId : String) : Nat → Db
  | 0 => db
  | n + 1 => (enrollCourse (enrollTimes db userId courseId n) noFaults userId courseId).1

/-! ## Array helpers -/

/-- The method `Array.prototype.findIndex`; `none` stands for `-1`. -/
def findIndex {α : Type} (p : α → Bool) : List α → Option Nat
  | [] => none
  | a :: as => if p a then some 0 else (findIndex p as).map (· + 1)

/-- In-place change of the element at an index (no effect past the end). -/
def modifyAt {α : Type} (f : α → α) : List α → Nat → List α
  | [], _ => []
  | a :: as, 0 => f a :: as
  | a :: as, n + 1 => a :: modifyAt f as n

/-- The query `findOne`: the first matching document together with its
position in the collection (the position is the document's identity for a
later `save`). -/
def findOne {α : Type} (p : α → Bool) : List α → Option (Nat × α)
  | [] => none
  | a :: as => if p a then some (0, a) else (findOne p as).map (fun r => (r.1 + 1, r.2))

/-! ## `updateUserCourseProgress` -/

/-- The filter `{ userId, courseId }` of `CourseProgress.findOne`. -/
def progressKey (userId courseId : String) (p : CourseProgress) : Bool :=
  p.userId == userId && p.courseId == courseId

/-- The handler `updateUserCourseProgress` of `userController.js`. -/
def updateUserCourseProgress (db : Db) (io : Faults) (userId courseId lectureId : String) :
    Db × Response :=
  match io.findProgress with
  | some e => (db, ⟨false, e⟩)
  | none =>
    match findOne (progressKey userId courseId) db.progress with
    | some (i, progressData) =>
        if lectureId ∈ progressData.lectureCompleted then
          (db, ⟨true, "Lecture Already Completed"⟩)
        else
          match io.saveProgress with
          | some e => (db, ⟨false, e⟩)
          | none =>
              ({ db with
                  progress := modifyAt
                    (fun p => { p with lectureCompleted := p.lectureCompleted ++ [lectureId] })
                    db.progress i },
                ⟨true, "Progress Updated"⟩)
    | none =>
        match io.createProgress with
        | some e => (db, ⟨false, e⟩)
        | none =>
            ({ db with progress := db.progress ++ [⟨userId, courseId, [lectureId]⟩] },
              ⟨true, "Progress Updated"⟩)

/-- Number of completed lecture IDs in the progress record of a pair
(`0` when the pair has no record). -/
def completedCount (db : Db) (userId courseId : String) : Nat :=
  match findOne (progressKey userId courseId) db.progress with
  | some (_, p) => p.lectureCompleted.length
  | none => 0

/-! ## `addUserRating` -/

/-- The rating list after the update-or-push of `addUserRating`. -/
def upsertRating (ratings : List CourseRating) (userId : String) (rating : JsVal) :
    List CourseRating :=
  match findIndex (fun r => r.userId == userId) ratings with
  | some existingRatingIndex =>
      modifyAt (fun r => { r with rating := rating }) ratings existingRatingIndex
  | none => ratings ++ [⟨userId, rating⟩]

/-- The input check `!courseId || !userId || !rating || rating < 1 || rating > 5`. -/
def invalidDetails (userId courseId : String) (rating : JsVal) : Bool :=
  courseId == "" || userId == "" || rating.falsy
    || rating.lt (JsVal.num 1) || rating.gt (JsVal.num 5)

/-- The handler `addUserRating` of `userController.js`. -/
def addUserRating (db : Db) (io : Faults) (userId courseId : String) (rating : JsVal) :
    Db × Response :=
  if invalidDetails userId courseId rating then
    (db, ⟨false, "Invalid Details"⟩)
  else
    match io.findCourse with
    | some e => (db, ⟨false, e⟩)
    | none =>
      match db.courses courseId with
      | none => (db, ⟨false, "Course not found."⟩)
      | some course =>
        match io.findUser with
        | some e => (db, ⟨false, e⟩)
        | none =>
          match db.users userId with
          | none => (db, ⟨false, "User is not enrolled in this course."⟩)
          | some user =>
              if courseId ∉ user.enrolledCourses then
                (db, ⟨false, "User is not enrolled in this course."⟩)
              else
                match io.saveCourse with
                | some e => (db, ⟨false, e⟩)
                | none =>
                    ({ db with
                        courses := Function.update db.courses courseId
                          (some { course with
                            courseRatings := upsertRating course.courseRatings userId rating }) },
                      ⟨true, "Rating added"⟩)

/-- The rating entries of a course that belong to a user. -/
def ratingsOf (db : Db) (userId courseId : String) : List CourseRating :=
  match db.courses courseId with
  | some course => course.courseRatings.filter (fun r => r.userId == userId)
  | none => []

/-! ## Client: `fetchUserData` of `AppContext.jsx` -/

/-- The user record carried by a `/api/user/data` response. -/
structure UserDoc where
  id : String
  role : Option String
deriving DecidableEq

/-- What the identity-provider hooks give the callback: the two loaded flags,
the role in the signed-in user's public metadata (`none` when no user is
signed in, `some none` when the user has no role) and whether `getToken` is
available. -/
structure Clerk where
  isAuthLoaded : Bool
  isUserLoaded : Bool
  user : Option (Option String)
  hasGetToken : Bool
deriving DecidableEq

/-- The guard `isAuthLoaded && isUserLoaded && user && getToken`. -/
def Clerk.ready (c : Clerk) : Bool :=
  c.isAuthLoaded && c.isUserLoaded && c.user.isSome && c.hasGetToken

/-- The test `user.publicMetadata?.role === 'educator'`. -/
def Clerk.isEducatorRole (c : Clerk) : Bool :=
  c.user == some (some "educator")

/-- What one attempt meets after the guard: `getToken()` rejects, resolves to
a falsy token, the request fails in transport, or the server answers. -/
inductive FetchOutcome where
  | tokenError (msg : String)
  | noToken
  | transportError (msg : String)
  | response (success : Bool) (message : String) (user : Option UserDoc)
deriving DecidableEq

/-- The client state `fetchUserData` touches, with three observation fields:
the notifications shown (`toast.error`, oldest first), the number of
`GET /api/user/data` requests issued and the values written by
`setIsUserDataLoading` (oldest first). -/
structure ClientState where
  userData : Option UserDoc
  isEducator : Bool
  isUserDataLoading : Bool
  enrolledCourses : List String
  fetchUserAttempt : Nat
  toasts : List String
  requests : Nat
  loadingWrites : List Bool
deriving DecidableEq

/-- The call `setIsUserDataLoading(b)`. -/
def setLoading (b : Bool) (st : ClientState) : ClientState :=
  { st with isUserDataLoading := b, loadingWrites := st.loadingWrites ++ [b] }

/-- The `catch` block of `fetchUserData`. -/
def fetchCatch (clerk : Clerk) (msg : String) (st : ClientState) : ClientState :=
  let st := { st with toasts := st.toasts ++ ["Fetch User Data Network Error: " ++ msg] }
  let st := { st with userData := none, isEducator := clerk.isEducatorRole }
  let st := setLoading false st
  { st with fetchUserAttempt := 0 }

/-- The code of `fetchUserData` after a response `data` has arrived. -/
def fetchOnResponse (clerk : Clerk) (success : Bool) (message : String)
    (user : Option UserDoc) (st : ClientState) : ClientState × Option Nat :=
  if success then
    let st := { st with
      userData := user,
      isEducator := clerk.isEducatorRole || (user.bind (·.role) == some "educator") }
    let st := { st with fetchUserAttempt := 0 }
    (setLoading false st, none)
  else if message = "User Not Found" ∧ st.fetchUserAttempt < 3 then
    ({ st with fetchUserAttempt := st.fetchUserAttempt + 1 }, some 2000)
  else
    let st :=
      if message ≠ "User Not Found" then
        { st with toasts := st.toasts ++ ["Fetch User Data Error: " ++ message] }
      else
        { st with toasts := st.toasts ++ ["Could not load user profile. Please try refreshing."] }
    let st := { st with userData := none, isEducator := clerk.isEducatorRole }
    let st := setLoading false st
    ({ st with fetchUserAttempt := 0 }, none)

/-- One invocation `fetchUserData(isRetry)`: the new client state and the
delay in milliseconds of the retry timer it sets, if it sets one. -/
def fetchUserData (clerk : Clerk) (isRetry : Bool) (out : FetchOutcome) (st : ClientState) :
    ClientState × Option Nat :=
  if !clerk.ready then
    let st := setLoading false st
    ({ st with userData := none, isEducator := false, enrolledCourses := [],
               fetchUserAttempt := 0 }, none)
  else
    let st := if !isRetry then { setLoading true st with fetchUserAttempt := 1 } else st
    match out with
    | .tokenError msg => (fetchCatch clerk msg st, none)
    | .noToken => (fetchCatch clerk "Authentication token not available." st, none)
    | .transportError msg => (fetchCatch clerk msg { st with requests := st.requests + 1 }, none)
    | .response success message user =>
        fetchOnResponse clerk success message user { st with requests := st.requests + 1 }

/-- A run of the fetch: invocation number `k` meets `outs k`; a timer that was
set fires and calls `fetchUserData(true)`.  The result is `none` when the run
is still pending after `fuel` invocations. -/
def runFetch (clerk : Clerk) (outs : Nat → FetchOutcome) :
    Nat → Nat → Bool → ClientState → Option ClientState
  | 0, _, _, _ => none
  | fuel + 1, k, isRetry, st =>
      match fetchUserData clerk isRetry (outs k) st with
      | (st', some _) => runFetch clerk outs fuel (k + 1) true st'
      | (st', none) => some st'

/-- A run started by the non-retry call `fetchUserData()`. -/
def startFetch (clerk : Clerk) (outs : Nat → FetchOutcome) (fuel : Nat) (st : ClientState) :
    Option ClientState :=
  runFetch clerk outs fuel 0 false st

/-- The server answer `{ success: false, message: 'User Not Found' }`. -/
def userNotFound : FetchOutcome := .response false "User Not Found" none

/-! ## Client: completion percentage of `MyEnrollments.jsx` -/

/-- A chapter of a course: the IDs of its lectures. -/
structure Chapter where
  chapterContent : List String
deriving DecidableEq

/-- A course as the client holds it. -/
structure ClientCourse where
  id : Option String
  courseContent : List Chapter
deriving DecidableEq

/-- Total number of lectures over all chapters of a course. -/
def lectureTotal (course : ClientCourse) : Nat :=
  (course.courseContent.map (fun ch => ch.chapterContent.length)).sum

/-- The function `calculateNoOfLectures` that `AppContext.jsx` puts in the
context value: `(course) => { /* ... */ }`, a block body with no `return`, so
every call evaluates to `undefined`. -/
def calculateNoOfLectures (_course : ClientCourse) : JsVal := JsVal.undefined

/-- The result of `getToken()` in `getCourseProgress`. -/
inductive TokenResult where
  | throws (msg : String)
  | missing
  | token
deriving DecidableEq

/-- The outcome of one `get-course-progress` request: the request rejects, or
the server answers `{ success, message, progressData }` where `progressData`
is `null` or carries the `lectureCompleted` list. -/
inductive ProgressReply where
  | failed
  | data (success : Bool) (message : String) (progressData : Option (List String))
deriving DecidableEq

/-- An element of `progressArray`. -/
structure ProgressEntry where
  totalLectures : JsVal
  lectureCompleted : JsVal
deriving DecidableEq

/-- The entry `getCourseProgress` stores for one enrolled course: the value of
the settled promise of the mapper, defaults applied.  The count function is
the `calculateNoOfLectures` taken from the context. -/
def progressEntry (countLectures : ClientCourse → JsVal) (course : ClientCourse)
    (reply : ProgressReply) : ProgressEntry :=
  if course.id = none ∨ course.id = some "" then
    ⟨JsVal.undefined, JsVal.undefined⟩
  else
    match reply with
    | .failed => ⟨JsVal.num 1, JsVal.num 0⟩
    | .data success message progressData =>
        if !success ∧ message ≠ "Progress Not Found" then
          ⟨JsVal.num 1, JsVal.num 0⟩
        else
          let totalLectures := countLectures course
          let totalLectures := if totalLectures = JsVal.num 0 then JsVal.num 1 else totalLectures
          let lectureCompleted :=
            JsVal.or (match progressData with
              | some l => JsVal.num l.length
              | none => JsVal.undefined) (JsVal.num 0)
          ⟨totalLectures, lectureCompleted⟩

/-- The array `getCourseProgress` passes to `setProgressData`, given the
enrolled courses, each with the outcome of its progress request. -/
def getCourseProgress (countLectures : ClientCourse → JsVal) (tok : TokenResult)
    (enrolled : List (ClientCourse × ProgressReply)) : List ProgressEntry :=
  if enrolled = [] then []
  else
    match tok with
    | .missing => []
    | .throws _ => enrolled.map (fun _ => ⟨JsVal.num 1, JsVal.num 0⟩)
    | .token => enrolled.map (fun r => progressEntry countLectures r.1 r.2)

/-- The render-time expression `percent` for the table row `index`. -/
def percent (progressArray : List ProgressEntry) (index : Nat) : JsVal :=
  let currentProgress := progressArray[index]?
  let totalLectures :=
    JsVal.or (match currentProgress with
      | some e => e.totalLectures
      | none => JsVal.undefined) (JsVal.num 1)
  let lecturesCompleted :=
    JsVal.or (match currentProgress with
      | some e => e.lectureCompleted
      | none => JsVal.undefined) (JsVal.num 0)
  if totalLectures.gt (JsVal.num 0) then
    (lecturesCompleted.mul (JsVal.num 100)).div totalLectures
  else JsVal.num 0

/-- The percentage `MyEnrollments` shows for row `index`: `getCourseProgress`
followed by the render-time expression. -/
def shownPercent (countLectures : ClientCourse → JsVal) (tok : TokenResult)
    (enrolled : List (ClientCourse × ProgressReply)) (index : Nat) : JsVal :=
  percent (getCourseProgress countLectures tok enrolled) index

/-! ## Specification predicates and sample stores -/

/-- Enrollment consistency: for every user record and course record, the
course lists the user as a student iff the user lists the course. -/
def consistent (db : Db) : Prop :=
  ∀ u c ud cd, db.users u = some ud → db.courses c = some cd →
    (u ∈ cd.enrolledStudents ↔ c ∈ ud.enrolledCourses)

/-- A store with user `u1`, not enrolled anywhere, and course `c1`, with no
student and no rating. -/
def db1 : Db :=
  { users := fun k => if k = "u1" then some ⟨[]⟩ else none
    courses := fun k => if k = "c1" then some ⟨[], []⟩ else none
    progress := [] }

/-- A count function that returns the number of lectures of the course. -/
def countAll (course : ClientCourse) : JsVal := JsVal.num (lectureTotal course)

/-- The count `progressData?.lectureCompleted?.length || 0` as a natural number. -/
def completedOf (progressData : Option (List String)) : Nat :=
  match progressData with
  | some l => l.length
  | none => 0

/-- A course with an ID and no chapter. -/
def emptyCourse : ClientCourse := ⟨some "c1", []⟩

/-- A course with two chapters of three and two lectures. -/
def course32 : ClientCourse :=
  ⟨some "c2", [⟨["l1", "l2", "l3"]⟩, ⟨["l4", "l5"]⟩]⟩

/-- The enrolled list of one course without lectures, the server reporting
one completed lecture for it. -/
def emptyRows : List (ClientCourse × ProgressReply) :=
  [(emptyCourse, .data true "" (some ["l1"]))]

/-- The enrolled list of the course with lecture counts `[3, 2]`, the server
reporting the completed lectures `l1`, `l2`, `l3`. -/
def rows32 : List (ClientCourse × ProgressReply) :=
  [(course32, .data true "" (some ["l1", "l2", "l3"]))]

/-- A consistent store: user `u1` enrolled in course `c1`, no rating yet. -/
def db2 : Db :=
  { users := fun k => if k = "u1" then some ⟨["c1"]⟩ else none
    courses := fun k => if k = "c1" then some ⟨["u1"], []⟩ else none
    progress := [] }

/-- A one-sided enrollment, as left by an `enrollCourse` request whose user
save succeeded and whose course save failed: `u1` lists `c1`, while `c1` has
no enrolled student. -/
def db3 : Db :=
  { users := fun k => if k = "u1" then some ⟨["c1"]⟩ else none
    courses := fun k => if k = "c1" then some ⟨[], []⟩ else none
    progress := [] }

/-- An identity provider that is ready, the signed-in user having no role. -/
def readyClerk : Clerk := ⟨true, true, some none, true⟩

/-- The client state before the first fetch. -/
def initialClient : ClientState := ⟨none, false, true, [], 0, [], 0, []⟩

/-- The attempt counter an invocation works with after its `if (!isRetry)`
block. -/
def attemptOf (isRetry : Bool) (st : ClientState) : Nat :=
  if isRetry then st.fetchUserAttempt else 1

/-- An outcome that is an error other than `User Not Found`: a thrown error
(token or transport) or an answer with `success: false` whose message is not
`User Not Found`. -/
def otherError : FetchOutcome → Bool
  | .tokenError _ => true
  | .noToken => true
  | .transportError _ => true
  | .response success message _ => !success && message != "User Not Found"

/-! ## Further handlers of `userController.js` -/

/-- The JSON body of a handler that returns data: `{success, message}` on
failure and `{success, <data>}` on success; `data = none` stands for a data
field that is `null` or absent. -/
structure DataResponse (α : Type) where
  success : Bool
  message : Option String
  data : Option α
deriving DecidableEq

/-- The handler `getUserData` of `userController.js`. -/
def getUserData (db : Db) (io : Faults) (userId : String) : Db × DataResponse User :=
  match io.findUser with
  | some e => (db, ⟨false, some e, none⟩)
  | none =>
    match db.users userId with
    | none => (db, ⟨false, some "User Not Found", none⟩)
    | some user => (db, ⟨true, none, some user⟩)

/-- The message of the `TypeError` that `userData.enrolledCourses` raises when
`userData` is `null`. -/
def nullUserMessage : String :=
  "Cannot read properties of null (reading \x27enrolledCourses\x27)"

/-- The query option `.populate('enrolledCourses')`: each listed ID replaced by
the course document it refers to, IDs without a document dropped. -/
def populate (db : Db) (ids : List String) : List (String × Course) :=
  ids.filterMap (fun id => (db.courses id).map (fun course => (id, course)))

/-- The handler `userEnrolledCourses` of `userController.js`. -/
def userEnrolledCourses (db : Db) (io : Faults) (userId : String) :
    Db × DataResponse (List (String × Course)) :=
  match io.findUser with
  | some e => (db, ⟨false, some e, none⟩)
  | none =>
    match db.users userId with
    | none => (db, ⟨false, some nullUserMessage, none⟩)
    | some userData => (db, ⟨true, none, some (populate db userData.enrolledCourses)⟩)

/-- The handler `getUserCourseProgress` of `userController.js`. -/
def getUserCourseProgress (db : Db) (io : Faults) (userId courseId : String) :
    Db × DataResponse CourseProgress :=
  match io.findProgress with
  | some e => (db, ⟨false, some e, none⟩)
  | none =>
    (db, ⟨true, none, (findOne (progressKey userId courseId) db.progress).map (·.2)⟩)

/-- The completed lecture IDs of a pair: the `lectureCompleted` list of the
record `findOne` returns, empty when the pair has no record. -/
def completedLectures (db : Db) (userId courseId : String) : List String :=
  match findOne (progressKey userId courseId) db.progress with
  | some (_, p) => p.lectureCompleted
  | none => []

/-- The progress-store invariant: at most one record per (user, course) pair,
and no lecture ID twice in a record. -/
def progressInv (db : Db) : Prop :=
  (db.progress.map (fun p => (p.userId, p.courseId))).Nodup ∧
    ∀ p ∈ db.progress, p.lectureCompleted.Nodup

/-- The records of the pairs other than `(userId, courseId)`. -/
def otherRecords (db : Db) (userId courseId : String) : List CourseProgress :=
  db.progress.filter (fun p => !progressKey userId courseId p)

/-- A store with one progress record, of `u1` in `c1`, holding lecture `l1`. -/
def db4 : Db :=
  { users := fun k => if k = "u1" then some ⟨["c1"]⟩ else none
    courses := fun k => if k = "c1" then some ⟨["u1"], []⟩ else none
    progress := [⟨"u1", "c1", ["l1"]⟩] }

/-! ## Client: loading indicator and rating display -/

/-- Number of changes from `true` to `false` of an indicator that starts at
`cur` and is then written the values of the list, in order. -/
def falls : Bool → List Bool → Nat
  | _, [] => 0
  | cur, b :: bs => (if cur && !b then 1 else 0) + falls b bs

/-- The outcome sequence `User Not Found`, `User Not Found`, then success with
the user record `usr`. -/
def lateRecord (usr : UserDoc) : Nat → FetchOutcome
  | 0 => userNotFound
  | 1 => userNotFound
  | _ => .response true "" (some usr)

/-- A course as `CourseCard` and `CourseDetails` hold it: the rating list. -/
structure RatedCourse where
  courseRatings : List CourseRating
deriving DecidableEq

/-- The function `calculateRating` that `AppContext.jsx` puts in the context
value: `(course) => { /* ... */ }`, a block body with no `return`, so every
call evaluates to `undefined`. -/
def calculateRating (_course : RatedCourse) : JsVal := JsVal.undefined

/-- The rating text of `CourseCard`: `rating > 0 ? rating.toFixed(1) : 'New'`;
`some v` is `v` shown with one decimal, `none` is the text `New`. -/
def cardRating (rate : RatedCourse → JsVal) (course : RatedCourse) : Option JsVal :=
  let rating := rate course
  if rating.gt (JsVal.num 0) then some rating else none

/-- The rating text of `CourseDetails`:
`Number.isFinite(ratingValue) ? ratingValue.toFixed(1) : '0.0'`; `some v` is
`v` shown with one decimal, `none` is the text `0.0`. -/
def safeRating (rate : RatedCourse → JsVal) (course : RatedCourse) : Option JsVal :=
  let ratingValue := rate course
  if ratingValue.isFinite then some ratingValue else none

/-- The numeric value of a stored rating. -/
def ratingNumber : JsVal → ℚ
  | .num q => q
  | _ => 0

/-- The arithmetic mean of the rating values of a rating list, as the
specification words the display rating. -/
def specMeanRating (ratings : List CourseRating) : JsVal :=
  JsVal.num ((ratings.map (fun r => ratingNumber r.rating)).sum / ratings.length)

/-- A course rated `3` by `u1` and `5` by `u2`. -/
def ratedCourse : RatedCourse := ⟨[⟨"u1", JsVal.num 3⟩, ⟨"u2", JsVal.num 5⟩]⟩

/-- The notification shown when the third attempt still meets
`User Not Found`. -/
def profileToast : String := "Could not load user profile. Please try refreshing."

/-! ## Client: `enrollCourse` of `CourseDetails.jsx` -/

/-- The four kinds of notification of `react-toastify` the page uses. -/
inductive ToastKind where
  | error
  | info
  | warn
  | success
deriving DecidableEq

/-- The state the `enrollCourse` handler of `CourseDetails` reads and writes:
the ID of the loaded course (`none` while `courseData?._id` is missing), the
loading flag and user record of the context (`userData` kept as its
enrolled-course list, `none` when nobody is logged in), the flag
`isAlreadyEnrolled`, and two observation fields: the notifications shown and
the paths passed to `navigate`, oldest first.  The text of a notification is
`none` when the handler passes an `undefined` message to the toast. -/
structure DetailsState where
  courseId : Option String
  isUserDataLoading : Bool
  userData : Option (List String)
  isAlreadyEnrolled : Bool
  toasts : List (ToastKind × Option String)
  navigated : List String
deriving DecidableEq

/-- What the enroll request meets once the guards are passed: `getToken()`
rejects, resolves to a falsy token, the request rejects (with the message of
the error response body, if any, and the message of the error), or the server
answers `{ success, message }`. -/
inductive EnrollOutcome where
  | tokenError (msg : String)
  | noToken
  | requestError (responseMessage : Option String) (msg : String)
  | response (success : Bool) (message : Option String)
deriving DecidableEq

/-- Truthiness of an optional string: `undefined` and the empty string are
falsy. -/
def truthyText : Option String → Bool
  | some s => s != ""
  | none => false

/-- The call `toast.<kind>(text)`. -/
def DetailsState.toast (st : DetailsState) (kind : ToastKind) (text : Option String) :
    DetailsState :=
  { st with toasts := st.toasts ++ [(kind, text)] }

/-- The call `navigate('/player/' + courseData._id)`. -/
def DetailsState.toPlayer (st : DetailsState) (courseId : String) : DetailsState :=
  { st with navigated := st.navigated ++ ["/player/" ++ courseId] }

/-- The handler `enrollCourse` of `CourseDetails.jsx`. -/
def clientEnrollCourse (out : EnrollOutcome) (st : DetailsState) : DetailsState :=
  match st.courseId with
  | none => st.toast .error (some "Course data not loaded.")
  | some courseId =>
    if courseId = "" then st.toast .error (some "Course data not loaded.")
    else if st.isUserDataLoading then st.toast .info (some "Verifying login status...")
    else
      match st.userData with
      | none => st.toast .warn (some "Login to Enroll")
      | some enrolledCourses =>
        if st.isAlreadyEnrolled then st.toPlayer courseId
        else
          match out with
          | .tokenError msg => st.toast .error (some ("Enrollment failed: " ++ msg))
          | .noToken => st.toast .error (some "Authentication token unavailable.")
          | .requestError responseMessage msg =>
              st.toast .error
                (if truthyText responseMessage then responseMessage
                 else some ("Enrollment failed: " ++ msg))
          | .response success message =>
              if success then
                let st := st.toast .success message
                let st := { st with userData := some (enrolledCourses ++ [courseId]) }
                let st := { st with isAlreadyEnrolled := true }
                st.toPlayer courseId
              else if message = some "Already Enrolled" then
                let st := { st with isAlreadyEnrolled := true }
                let st := st.toast .info message
                st.toPlayer courseId
              else
                st.toast .error
                  (if truthyText message then message else some "Enrollment failed.")

/-- The guards before the request let the handler through: the course is
loaded, the user record is loaded and present, and the page does not yet know
of the enrollment. -/
def requestSent (st : DetailsState) : Bool :=
  truthyText st.courseId && !st.isUserDataLoading && st.userData.isSome && !st.isAlreadyEnrolled

/-- The error notifications among a list of notifications. -/
def errorToasts (ts : List (ToastKind × Option String)) : List (ToastKind × Option String) :=
  ts.filter (fun t => t.1 == ToastKind.error)

/-- A page that shows course `c1` to a logged-in user not known to be enrolled. -/
def detailsPage : DetailsState := ⟨some "c1", false, some [], false, [], []⟩

/-! ## Client: pending requests and timers of the user-record fetch -/

/-- The part of `fetchUserData(isRetry)` that runs before its first `await`,
the identity provider being ready. -/
def fetchBegin (isRetry : Bool) (st : ClientState) : ClientState :=
  if !isRetry then { setLoading true st with fetchUserAttempt := 1 } else st

/-- The part of `fetchUserData` that runs once the awaited token and request
have settled. -/
def fetchSettle (clerk : Clerk) (out : FetchOutcome) (st : ClientState) :
    ClientState × Option Nat :=
  match out with
  | .tokenError msg => (fetchCatch clerk msg st, none)
  | .noToken => (fetchCatch clerk "Authentication token not available." st, none)
  | .transportError msg => (fetchCatch clerk msg { st with requests := st.requests + 1 }, none)
  | .response success message user =>
      fetchOnResponse clerk success message user { st with requests := st.requests + 1 }

/-- The client state together with what is pending for the user record: the
invocations of `fetchUserData` suspended at an `await`, and the retry timers
set and not yet fired. -/
structure Session where
  client : ClientState
  inFlight : Nat
  timers : Nat
deriving DecidableEq

/-- The events of the user-record fetch: the auth/user effect fires, the
awaited token and request of a suspended invocation settle, a retry timer
fires. -/
inductive FetchEvent where
  | effect
  | arrive (out : FetchOutcome)
  | timer
deriving DecidableEq

/-- One event.  The effect (lines 150 to 161) resets the counter and calls
`fetchUserData()` when both flags are loaded; nothing in it looks at what is
pending.  An event that is not enabled leaves the session as it is. -/
def stepSession (clerk : Clerk) (s : Session) : FetchEvent → Session
  | .effect =>
      if clerk.isAuthLoaded && clerk.isUserLoaded then
        let st := { s.client with fetchUserAttempt := 0 }
        if clerk.ready then
          { s with client := fetchBegin false st, inFlight := s.inFlight + 1 }
        else
          { s with client := (fetchUserData clerk false .noToken st).1 }
      else
        let st := setLoading true s.client
        { s with client := { st with userData := none, enrolledCourses := [],
                                     isEducator := false } }
  | .arrive out =>
      if s.inFlight = 0 then s
      else
        let r := fetchSettle clerk out s.client
        { client := r.1, inFlight := s.inFlight - 1,
          timers := s.timers + (if r.2.isSome then 1 else 0) }
  | .timer =>
      if s.timers = 0 then s
      else if clerk.ready then
        { client := fetchBegin true s.client, inFlight := s.inFlight + 1,
          timers := s.timers - 1 }
      else
        { s with client := (fetchUserData clerk true .noToken s.client).1,
                 timers := s.timers - 1 }

/-- The session after a sequence of events. -/
def runEvents (clerk : Clerk) (s : Session) (events : List FetchEvent) : Session :=
  events.foldl (stepSession clerk) s

/-- Number of pending requests and timers. -/
def Session.pending (s : Session) : Nat := s.inFlight + s.timers

/-- Number of effect firings in a sequence of events. -/
def effectCount (events : List FetchEvent) : Nat :=
  events.countP (fun e => e == FetchEvent.effect)

/-- The session at start: nothing pending. -/
def idleSession : Session := ⟨initialClient, 0, 0⟩

/-! ## Two interleaved `enrollCourse` requests -/

/-- The reads and checks of `enrollCourse` (lines 30 to 41), no store
operation failing: `none` when the request answers without writing
(`Data Not Found` or `Already Enrolled`), else the two documents read. -/
def enrollReads (db : Db) (userId courseId : String) : Option (User × Course) :=
  match db.users userId, db.courses courseId with
  | some userData, some courseData =>
      if courseId ∈ userData.enrolledCourses then none else some (userData, courseData)
  | _, _ => none

/-- The save of a user document whose `enrolledCourses` array was changed by
`push`, as the store applies it: the pushed ID is appended to the list the
store holds at that moment (the object mapper sends the push, not the array
the request read). -/
def pushUserSave (db : Db) (userId courseId : String) : Db :=
  { db with
    users := Function.update db.users userId
      ((db.users userId).map
        (fun d => { d with enrolledCourses := d.enrolledCourses ++ [courseId] })) }

/-- The save of a course document whose `enrolledStudents` array was changed
by `push`, as the store applies it. -/
def pushCourseSave (db : Db) (userId courseId : String) : Db :=
  { db with
    courses := Function.update db.courses courseId
      ((db.courses courseId).map
        (fun d => { d with enrolledStudents := d.enrolledStudents ++ [userId] })) }

/-- One request running alone: its reads, then its two saves. -/
def enrollAlone (db : Db) (userId courseId : String) : Db :=
  match enrollReads db userId courseId with
  | some _ => pushCourseSave (pushUserSave db userId courseId) userId courseId
  | none => db

/-- Two requests for the same pair that both read the store before either
writes; then the two saves of the first and the two saves of the second. -/
def enrollRace (db : Db) (userId courseId : String) : Db :=
  match enrollReads db userId courseId, enrollReads db userId courseId with
  | some _, some _ =>
      pushCourseSave (pushUserSave
        (pushCourseSave (pushUserSave db userId courseId) userId courseId)
        userId courseId) userId courseId
  | _, _ => db

/-- The same race with the saves interleaved: both user saves, then both
course saves. -/
def enrollRaceInterleaved (db : Db) (userId courseId : String) : Db :=
  match enrollReads db userId courseId, enrollReads db userId courseId with
  | some _, some _ =>
      pushCourseSave (pushCourseSave
        (pushUserSave (pushUserSave db userId courseId) userId courseId)
        userId courseId) userId courseId
  | _, _ => db

/-! ## `educatorController.js`: dashboard data -/

/-- The populated fields of an enrolled student: `name imageUrl createdAt`.
The field `createdAt` is `some t` when it holds a date or a number of `t`
milliseconds since the epoch, and `none` when it is missing or holds no date:
the user schema is not part of the sources, so nothing makes it present. -/
structure Student where
  name : String
  imageUrl : String
  createdAt : Option Int
deriving DecidableEq

/-- A course document as `Course.find(...).populate('enrolledStudents', ...)`
returns it: owner, title and the populated student list, an entry being
`none` where the populated value is `null`. -/
structure OwnedCourse where
  educator : String
  courseTitle : String
  enrolledStudents : List (Option Student)
deriving DecidableEq

/-- An element of `enrolledStudentsData`. -/
structure StudentRow where
  courseTitle : String
  student : Student
deriving DecidableEq

/-- An element of `enrolledStudents` in `getEnrolledStudentsData`. -/
structure EnrolledRow where
  student : Student
  courseTitle : String
  enrollmentDate : Option Int
deriving DecidableEq

/-- The payload `dashboardData`. -/
structure DashboardData where
  totalEarnings : Nat
  enrolledStudentsData : List StudentRow
  totalEnrollments : Nat
  totalCourses : Nat
deriving DecidableEq

/-- The query `Course.find({ educator })`. -/
def findByEducator (courses : List OwnedCourse) (educator : String) : List OwnedCourse :=
  courses.filter (fun course => course.educator == educator)

/-- The loops at lines 82 to 92 of `educatorDashboardData`: the rows pushed
and the counter `totalEnrollments`. -/
def collectStudents (courses : List OwnedCourse) : List StudentRow × Nat :=
  courses.foldl
    (fun acc course =>
      course.enrolledStudents.foldl
        (fun acc student =>
          match student with
          | some st => (acc.1 ++ [⟨course.courseTitle, st⟩], acc.2 + 1)
          | none => acc)
        acc)
    ([], 0)

/-- The time value of `new Date(value)`; `none` is the time value `NaN` of an
invalid date, which a missing value gives, and so does a time more than
8.64e15 ms away from the epoch. -/
def timeValue (value : Option Int) : Option Int :=
  match value with
  | some t => if -8640000000000000 ≤ t ∧ t ≤ 8640000000000000 then some t else none
  | none => none

/-- The subtraction `new Date(x) - new Date(y)`; `none` is `NaN`, the result
when either date is invalid. -/
def dateDiff (x y : Option Int) : Option Int :=
  match timeValue x, timeValue y with
  | some tx, some ty => some (tx - ty)
  | _, _ => none

/-- The reading `Array.prototype.sort` makes of a comparator result `v` for
`(a, b)`: `NaN` counts as `+0`, and `a` may stand before `b` when the result
is not positive. -/
def mayPrecede (v : Option Int) : Bool := decide (v.getD 0 ≤ 0)

/-- Insertion of `x` in front of the first element it may stand before. -/
def insertRow {α : Type} (le : α → α → Bool) (x : α) : List α → List α
  | [] => [x]
  | y :: ys => if le x y then x :: y :: ys else y :: insertRow le x ys

/-- The method `Array.prototype.sort` with a comparator, as a stable insertion
sort. For a consistent comparator the result of `sort` is the one stable
arrangement, which this is. For an inconsistent one, as a comparator yielding
`NaN` can be, the order is left to the engine; an engine that sorts by
insertion gives this one. -/
def sortBy {α : Type} (le : α → α → Bool) (l : List α) : List α :=
  l.foldr (insertRow le) []

/-- The comparator `new Date(b.student.createdAt) - new Date(a.student.createdAt)`
as `sort` reads it: `a` may stand before `b` when `a` is not older than `b`,
and also when either date is invalid. -/
def newerFirst (a b : StudentRow) : Bool :=
  mayPrecede (dateDiff b.student.createdAt a.student.createdAt)

/-- The handler `educatorDashboardData` of `educatorController.js`;
`findError` is the message of the error the query throws, if it throws. -/
def educatorDashboardData (courses : List OwnedCourse) (findError : Option String)
    (educator : String) : DataResponse DashboardData :=
  match findError with
  | some e => ⟨false, some e, none⟩
  | none =>
    let found := findByEducator courses educator
    let totalCourses := found.length
    let totalEarnings := 0
    let collected := collectStudents found
    let sorted := sortBy newerFirst collected.1
    ⟨true, none, some ⟨totalEarnings, sorted.take 10, collected.2, totalCourses⟩⟩

/-- The loops at lines 124 to 136 of `getEnrolledStudentsData`. -/
def collectEnrolled (courses : List OwnedCourse) : List EnrolledRow :=
  courses.foldl
    (fun acc course =>
      course.enrolledStudents.foldl
        (fun acc student =>
          match student with
          | some st => acc ++ [⟨st, course.courseTitle, st.createdAt⟩]
          | none => acc)
        acc)
    []

/-- The handler `getEnrolledStudentsData` of `educatorController.js`. -/
def getEnrolledStudentsData (courses : List OwnedCourse) (findError : Option String)
    (educator : String) : DataResponse (List EnrolledRow) :=
  match findError with
  | some e => ⟨false, some e, none⟩
  | none =>
    ⟨true, none, some (sortBy
      (fun a b => mayPrecede (dateDiff b.enrollmentDate a.enrollmentDate))
      (collectEnrolled (findByEducator courses educator)))⟩

/-- The (course, non-null student) pairs of one course, in order. -/
def pairsOf (course : OwnedCourse) : List StudentRow :=
  course.enrolledStudents.filterMap (fun s => s.map (fun st => ⟨course.courseTitle, st⟩))

/-- All (course, non-null enrolled student) pairs of the courses of an
educator. -/
def studentPairs (courses : List OwnedCourse) (educator : String) : List StudentRow :=
  (findByEducator courses educator).flatMap pairsOf

/-- Two courses of the educator `e1` and one of another educator; the twelve
students of `e1` were created at the times `1` to `12`. -/
def twelveStudents : List OwnedCourse :=
  [⟨"e1", "Course A", [some ⟨"s3", "", some 3⟩, some ⟨"s11", "", some 11⟩, none,
      some ⟨"s1", "", some 1⟩, some ⟨"s7", "", some 7⟩, some ⟨"s12", "", some 12⟩,
      some ⟨"s5", "", some 5⟩]⟩,
    ⟨"e2", "Course X", [some ⟨"x", "", none⟩]⟩,
    ⟨"e1", "Course B", [some ⟨"s2", "", some 2⟩, some ⟨"s10", "", some 10⟩,
      some ⟨"s4", "", some 4⟩, some ⟨"s8", "", some 8⟩, some ⟨"s6", "", some 6⟩,
      some ⟨"s9", "", some 9⟩]⟩]

/-- One course of the educator `e1` with three students enrolled in this order:
`Ann` created at time `1`, `Bob` without a `createdAt`, `Cy` created at time `3`. -/
def datedCourses : List OwnedCourse :=
  [⟨"e1", "Course A", [some ⟨"Ann", "", some 1⟩, some ⟨"Bob", "", none⟩, some ⟨"Cy", "", some 3⟩]⟩]

/-- Number of non-null enrolled-student entries, summed over the courses of an
educator. -/
def enrollmentTotal (courses : List OwnedCourse) (educator : String) : Nat :=
  ((findByEducator courses educator).map
    (fun course => (course.enrolledStudents.filter Option.isSome).length)).sum

/-! ## `getYouTubeVideoId` of `CourseDetails.jsx` and `Player.jsx` -/

/-- The character class `[a-zA-Z0-9_-]`. -/
def isIdChar (c : Char) : Bool :=
  let n := c.toNat
  (97 ≤ n && n ≤ 122) || (65 ≤ n && n ≤ 90) || (48 ≤ n && n ≤ 57) || n == 95 || n == 45

/-- The group `([a-zA-Z0-9_-]{11})` matched at the start of `s`. -/
def idAt (s : List Char) : Option (List Char) :=
  if (s.take 11).length = 11 ∧ (s.take 11).all isIdChar = true then some (s.take 11) else none

/-- A pattern `lit([a-zA-Z0-9_-]{11})`, `lit` one of the given literal texts,
matched at the start of `s`: the captured group. -/
def matchAt (lits : List (List Char)) (s : List Char) : Option (List Char) :=
  lits.findSome? (fun lit => if lit.isPrefixOf s then idAt (s.drop lit.length) else none)

/-- The call `s.match(pattern)` for such a pattern: the group captured by the
leftmost match, `none` when there is no match. -/
def search (lits : List (List Char)) : List Char → Option (List Char)
  | [] => matchAt lits []
  | c :: cs =>
      match matchAt lits (c :: cs) with
      | some r => some r
      | none => search lits cs

/-- The argument of `getYouTubeVideoId`: `undefined` or `null`, a value that
is not a string (truthy or falsy), or a string. -/
inductive UrlArg where
  | absent
  | other (truthy : Bool)
  | str (s : String)
deriving DecidableEq

/-- The literals of `/[?&]v=(...)/`. -/
def vLits : List (List Char) := [['?', 'v', '='], ['&', 'v', '=']]

/-- The literal of `/youtu\.be\/(...)/`. -/
def shortLits : List (List Char) := [['y', 'o', 'u', 't', 'u', '.', 'b', 'e', '/']]

/-- The literal of `/\/embed\/(...)/`. -/
def embedLits : List (List Char) := [['/', 'e', 'm', 'b', 'e', 'd', '/']]

/-- The empty literal of `/(...)/`. -/
def anyLits : List (List Char) := [[]]

/-- The four matches of `getYouTubeVideoId`, tried in order on the trimmed
text. -/
def extractId (trimmed : List Char) : Option (List Char) :=
  match search vLits trimmed with
  | some r => some r
  | none =>
    match search shortLits trimmed with
    | some r => some r
    | none =>
      match search embedLits trimmed with
      | some r => some r
      | none => search anyLits trimmed

/-- The function `getYouTubeVideoId`. -/
def getYouTubeVideoId (url : UrlArg) : Option String :=
  match url with
  | .str s => if s = "" then none else (extractId (jsTrim s.data)).map String.mk
  | _ => none

/-- The text contains eleven consecutive characters of `[A-Za-z0-9_-]`. -/
def hasRun (t : List Char) : Prop :=
  ∃ pre run post, t = pre ++ run ++ post ∧ run.length = 11 ∧ ∀ c ∈ run, isIdChar c = true

/-- What `handlePreviewClick` of `CourseDetails` does: reports a missing URL,
reports `Invalid video ID in URL.`, or sets the player to a video ID. -/
inductive PreviewResult where
  | missingUrl
  | invalidId
  | play (videoId : String)
deriving DecidableEq

/-- Truthiness of a URL argument. -/
def UrlArg.truthy : UrlArg → Bool
  | .absent => false
  | .other t => t
  | .str s => s != ""

/-- The handler `handlePreviewClick` of `CourseDetails.jsx`, on the
`lectureUrl` of the lecture. -/
def handlePreviewClick (lectureUrl : UrlArg) : PreviewResult :=
  if !lectureUrl.truthy then .missingUrl
  else
    match getYouTubeVideoId lectureUrl with
    | some videoId => if videoId = "" then .invalidId else .play videoId
    | none => .invalidId

/-- The video ID `handleWatchClick` of `Player.jsx` sets for a lecture that
exists: `getYouTubeVideoId(lecture.lectureUrl || '')` when the guard
`id && id.length === 11` holds, else `null`. -/
def handleWatchClick (lectureUrl : UrlArg) : Option String :=
  let id := getYouTubeVideoId (if lectureUrl.truthy then lectureUrl else .str "")
  match id with
  | some v => if v != "" && v.length == 11 then some v else none
  | none => none

/-! ## Completion status of `MyEnrollments.jsx` -/

/-- The lecture IDs of a course, chapter by chapter. -/
def lectureIds (course : ClientCourse) : List String :=
  course.courseContent.flatMap (fun ch => ch.chapterContent)

/-- The test `percent === 100` behind the status `Completed`. -/
def isCompleted (percent : JsVal) : Bool := percent == JsVal.num 100

/-- The enrolled list of the course with lecture counts `[3, 2]`, the server
reporting the one completed lecture `l1`. -/
def rowsOne : List (ClientCourse × ProgressReply) :=
  [(course32, .data true "" (some ["l1"]))]

/-! ## Lemmas on `enrollCourse` -/

theorem enrollCourse_already (db : Db) (u c : String) (ud : User) (cd : Course)
    (hu : db.users u = some ud) (hc : db.courses c = some cd)
    (hmem : c ∈ ud.enrolledCourses) :
    enrollCourse db noFaults u c = (db, ⟨true, "Already Enrolled"⟩) := by
  simp [enrollCourse, noFaults, hu, hc, hmem]

theorem enrollCourse_new (db : Db) (u c : String) (ud : User) (cd : Course)
    (hu : db.users u = some ud) (hc : db.courses c = some cd)
    (hmem : c ∉ ud.enrolledCourses) :
    enrollCourse db noFaults u c =
      (saveCourseEnrolled (saveUserEnrolled db u c ud) u c cd,
        ⟨true, "Enrollment Successful"⟩) := by
  simp [enrollCourse, noFaults, hu, hc, hmem]

/-- After one fault-free request for an existing pair whose list holds the
course at most once, the user record holds the course exactly once and the
course record still exists. -/
theorem enrollCourse_first (db : Db) (u c : String) (ud : User) (cd : Course)
    (hu : db.users u = some ud) (hc : db.courses c = some cd)
    (hcount : ud.enrolledCourses.count c ≤ 1) :
    ∃ ud1 cd1, (enrollCourse db noFaults u c).1.users u = some ud1 ∧
      (enrollCourse db noFaults u c).1.courses c = some cd1 ∧
      ud1.enrolledCourses.count c = 1 := by
  by_cases hmem : c ∈ ud.enrolledCourses
  · rw [enrollCourse_already db u c ud cd hu hc hmem]
    refine ⟨ud, cd, hu, hc, ?_⟩
    have hpos : 0 < ud.enrolledCourses.count c := List.count_pos_iff.mpr hmem
    omega
  · rw [enrollCourse_new db u c ud cd hu hc hmem]
    refine ⟨⟨ud.enrolledCourses ++ [c]⟩, ⟨cd.enrolledStudents ++ [u], cd.courseRatings⟩,
      ?_, ?_, ?_⟩
    · simp [saveCourseEnrolled, saveUserEnrolled]
    · simp [saveCourseEnrolled, saveUserEnrolled]
    · simp [List.count_eq_zero_of_not_mem hmem]

/-- A fault-free request for a pair already enrolled once leaves the store as
it is. -/
theorem enrollTimes_stable (db : Db) (u c : String) (ud : User) (cd : Course)
    (hu : db.users u = some ud) (hc : db.courses c = some cd)
    (hmem : c ∈ ud.enrolledCourses) (n : Nat) :
    enrollTimes db u c n = db := by
  induction n with
  | zero => rfl
  | succ k ih =>
    simp only [enrollTimes, ih]
    rw [enrollCourse_already db u c ud cd hu hc hmem]

theorem enrollTimes_add_one (db : Db) (u c : String) (n : Nat) :
    enrollTimes db u c (n + 1) = enrollTimes (enrollCourse db noFaults u c).1 u c n := by
  induction n with
  | zero => rfl
  | succ k ih =>
    show (enrollCourse (enrollTimes db u c (k + 1)) noFaults u c).1 = _
    rw [ih]
    rfl

/-! ## Enrollment: idempotence and consistency -/

/-- C1: for a store in which user `u` and course `c` exist and `u`'s
enrolled-course list holds `c` at most once, after `N ≥ 1` sequential
fault-free `enrollCourse` requests for `(u, c)` the list holds `c` exactly
once, and the store equals the store after one request. -/
theorem enrollCourse_idempotent (db : Db) (u c : String) (ud : User) (cd : Course)
    (hu : db.users u = some ud) (hc : db.courses c = some cd)
    (hcount : ud.enrolledCourses.count c ≤ 1) (N : Nat) (hN : 1 ≤ N) :
    (∃ ud1, (enrollTimes db u c N).users u = some ud1 ∧
        ud1.enrolledCourses.count c = 1) ∧
      enrollTimes db u c N = enrollTimes db u c 1 := by
  obtain ⟨n, rfl⟩ : ∃ n, N = n + 1 := ⟨N - 1, by omega⟩
  obtain ⟨ud1, cd1, hu1, hc1, hc1count⟩ := enrollCourse_first db u c ud cd hu hc hcount
  have hmem1 : c ∈ ud1.enrolledCourses := by
    apply List.count_pos_iff.mp
    omega
  have hstab := enrollTimes_stable (enrollCourse db noFaults u c).1 u c ud1 cd1 hu1 hc1 hmem1 n
  rw [enrollTimes_add_one, hstab]
  exact ⟨⟨ud1, hu1, hc1count⟩, rfl⟩

/-- C1 witness: three requests on a store where `u1` is not yet enrolled. -/
theorem enrollCourse_idempotent_witness :
    (∃ ud1, (enrollTimes db1 "u1" "c1" 3).users "u1" = some ud1 ∧
        ud1.enrolledCourses.count "c1" = 1) ∧
      enrollTimes db1 "u1" "c1" 3 = enrollTimes db1 "u1" "c1" 1 :=
  enrollCourse_idempotent db1 "u1" "c1" ⟨[]⟩ ⟨[], []⟩ (by simp [db1]) (by simp [db1])
    (by simp) 3 (by decide)

/-- C2: enrollment consistency is preserved by every `enrollCourse` request
in which no save fails, whatever its outcome and whichever read fails. -/
theorem enrollCourse_consistent (db : Db) (io : Faults) (u c : String)
    (hinv : consistent db) (hsu : io.saveUser = none) (hsc : io.saveCourse = none) :
    consistent (enrollCourse db io u c).1 := by
  unfold enrollCourse
  cases hfc : io.findCourse with
  | some e => exact hinv
  | none =>
    cases hfu : io.findUser with
    | some e => exact hinv
    | none =>
      cases hu : db.users u with
      | none => simpa [hu] using hinv
      | some ud =>
        cases hc : db.courses c with
        | none => simpa [hu, hc] using hinv
        | some cd =>
          by_cases hmem : c ∈ ud.enrolledCourses
          · simpa [hu, hc, hmem] using hinv
          · simp only [hu, hc, hmem, hsu, hsc, if_false]
            intro u2 c2 ud2 cd2 hu2 hc2
            simp only [saveCourseEnrolled, saveUserEnrolled, Function.update_apply] at hu2 hc2
            by_cases hue : u2 = u <;> by_cases hce : c2 = c
            · subst hue hce
              simp only [if_true, Option.some.injEq] at hu2 hc2
              subst hu2 hc2
              simp
            · subst hue
              simp only [if_true, hce, if_false, Option.some.injEq] at hu2 hc2
              subst hu2
              have := hinv u2 c2 ud cd2 hu hc2
              simp [this, hce]
            · subst hce
              simp only [if_true, hue, if_false, Option.some.injEq] at hu2 hc2
              subst hc2
              have := hinv u2 c2 ud2 cd hu2 hc
              simp [← this, hue]
            · simp only [hue, hce, if_false] at hu2 hc2
              exact hinv u2 c2 ud2 cd2 hu2 hc2

theorem consistent_db1 : consistent db1 := by
  intro u c ud cd hu hc
  simp only [db1] at hu hc
  split at hu <;> split at hc <;> simp_all
  obtain ⟨rfl⟩ := hu
  obtain ⟨rfl⟩ := hc
  simp

/-- C2 witness: a new enrollment on a consistent store. -/
theorem enrollCourse_consistent_witness :
    consistent db1 ∧ consistent (enrollCourse db1 noFaults "u1" "c1").1 :=
  ⟨consistent_db1, enrollCourse_consistent db1 noFaults "u1" "c1" consistent_db1 rfl rfl⟩

/-! ## Lemmas on `findOne`, `findIndex` and `modifyAt` -/

theorem findOne_modifyAt {α : Type} (p : α → Bool) (f : α → α)
    (hf : ∀ a, p (f a) = p a) (l : List α) (i : Nat) (x : α)
    (h : findOne p l = some (i, x)) :
    findOne p (modifyAt f l i) = some (i, f x) := by
  induction l generalizing i with
  | nil => simp [findOne] at h
  | cons a as ih =>
    by_cases hp : p a = true
    · simp only [findOne, hp, if_true, Option.some.injEq, Prod.mk.injEq] at h
      obtain ⟨rfl, rfl⟩ := h
      simp [modifyAt, findOne, hf, hp]
    · simp only [findOne, hp, Bool.false_eq_true, if_false, Option.map_eq_some'] at h
      obtain ⟨⟨j, y⟩, hj, hij⟩ := h
      simp only [Prod.mk.injEq] at hij
      obtain ⟨rfl, rfl⟩ := hij
      simp [modifyAt, findOne, hp, ih j hj]

theorem findOne_append_none {α : Type} (p : α → Bool) (l : List α) (y : α)
    (h : findOne p l = none) (hy : p y = true) :
    findOne p (l ++ [y]) = some (l.length, y) := by
  induction l with
  | nil => simp [findOne, hy]
  | cons a as ih =>
    by_cases hp : p a = true
    · simp [findOne, hp] at h
    · simp only [findOne, hp, Bool.false_eq_true, if_false, Option.map_eq_none'] at h
      simp [findOne, hp, ih h]

/-! ## Lemmas on `updateUserCourseProgress` -/

/-- After a fault-free request the pair's record exists and holds the lecture. -/
theorem updateUserCourseProgress_holds (db : Db) (u c l : String) :
    ∃ i p, findOne (progressKey u c) (updateUserCourseProgress db noFaults u c l).1.progress
        = some (i, p) ∧ l ∈ p.lectureCompleted := by
  unfold updateUserCourseProgress
  simp only [noFaults]
  cases h : findOne (progressKey u c) db.progress with
  | none =>
    refine ⟨db.progress.length, ⟨u, c, [l]⟩, ?_, by simp⟩
    exact findOne_append_none _ _ _ h (by simp [progressKey])
  | some r =>
    obtain ⟨i, p⟩ := r
    by_cases hmem : l ∈ p.lectureCompleted
    · exact ⟨i, p, by simp [hmem, h], hmem⟩
    · refine ⟨i, { p with lectureCompleted := p.lectureCompleted ++ [l] }, ?_, by simp⟩
      simp only [hmem, if_false]
      exact findOne_modifyAt _ _ (fun a => by simp [progressKey]) _ _ _ h

/-- C3: two fault-free `updateUserCourseProgress` requests in a row for the
same user, course and lecture: the second answers success with
`Lecture Already Completed`, leaves the store as the first left it, and the
number of completed lecture IDs of the pair's record is unchanged. -/
theorem updateUserCourseProgress_twice (db : Db) (u c l : String) :
    (updateUserCourseProgress (updateUserCourseProgress db noFaults u c l).1 noFaults u c l).2
        = ⟨true, "Lecture Already Completed"⟩ ∧
      (updateUserCourseProgress (updateUserCourseProgress db noFaults u c l).1 noFaults u c l).1
        = (updateUserCourseProgress db noFaults u c l).1 ∧
      completedCount
          (updateUserCourseProgress (updateUserCourseProgress db noFaults u c l).1
            noFaults u c l).1 u c
        = completedCount (updateUserCourseProgress db noFaults u c l).1 u c := by
  obtain ⟨i, p, hfind, hmem⟩ := updateUserCourseProgress_holds db u c l
  have h2 : updateUserCourseProgress (updateUserCourseProgress db noFaults u c l).1
      noFaults u c l =
      ((updateUserCourseProgress db noFaults u c l).1, ⟨true, "Lecture Already Completed"⟩) := by
    generalize (updateUserCourseProgress db noFaults u c l).1 = d at hfind
    simp [updateUserCourseProgress, noFaults, hfind, hmem]
  rw [h2]
  exact ⟨rfl, rfl, rfl⟩

/-! ## Lemmas on the completion percentage -/

theorem getCourseProgress_row (countLectures : ClientCourse → JsVal)
    (enrolled : List (ClientCourse × ProgressReply)) (i : Nat) (course : ClientCourse)
    (reply : ProgressReply) (hrow : enrolled[i]? = some (course, reply)) :
    (getCourseProgress countLectures .token enrolled)[i]?
      = some (progressEntry countLectures course reply) := by
  have hne : enrolled ≠ [] := by
    rintro rfl
    simp at hrow
  simp [getCourseProgress, hne, List.getElem?_map, hrow]

theorem completed_or_zero (progressData : Option (List String)) :
    JsVal.or (match progressData with
      | some l => JsVal.num l.length
      | none => JsVal.undefined) (JsVal.num 0) = JsVal.num (completedOf progressData) := by
  cases progressData with
  | none => simp [JsVal.or, JsVal.falsy, completedOf]
  | some l =>
    by_cases h : (l.length : ℚ) = 0
    · simp [JsVal.or, JsVal.falsy, completedOf, h]
    · simp [JsVal.or, JsVal.falsy, completedOf, h]

theorem JsVal.mul_num (x y : ℚ) : (JsVal.num x).mul (JsVal.num y) = JsVal.num (x * y) := rfl

theorem JsVal.div_num (x y : ℚ) (hy : y ≠ 0) :
    (JsVal.num x).div (JsVal.num y) = JsVal.num (x / y) := by
  simp [JsVal.div, JsVal.toNumber, hy]

theorem JsVal.gt_num (x y : ℚ) : (JsVal.num x).gt (JsVal.num y) = decide (y < x) := rfl

theorem JsVal.or_undefined (b : JsVal) : JsVal.undefined.or b = b := rfl

theorem JsVal.or_num (x : ℚ) (b : JsVal) (hx : x ≠ 0) : (JsVal.num x).or b = JsVal.num x := by
  simp [JsVal.or, JsVal.falsy, hx]

theorem JsVal.or_nat_zero (n : Nat) : (JsVal.num n).or (JsVal.num 0) = JsVal.num n := by
  by_cases h0 : (n : ℚ) = 0
  · simp [JsVal.or, JsVal.falsy, h0]
  · simp [JsVal.or, JsVal.falsy, h0]

/-- The percentage of a row whose stored denominator is a positive number. -/
theorem percent_pos (arr : List ProgressEntry) (i : Nat) (t : ℚ) (n : Nat)
    (ht : 0 < t) (h : arr[i]? = some ⟨JsVal.num t, JsVal.num n⟩) :
    percent arr i = JsVal.num (n * 100 / t) := by
  have ht0 : t ≠ 0 := ne_of_gt ht
  simp only [percent, h, JsVal.or_nat_zero, JsVal.or_num t _ ht0, JsVal.gt_num,
    JsVal.mul_num, JsVal.div_num _ t ht0, ht, decide_True, if_true]

/-- The percentage of a row whose stored denominator is `undefined` or `1`
is one hundred times the completed count. -/
theorem percent_unit (arr : List ProgressEntry) (i : Nat) (t : JsVal) (n : Nat)
    (ht : t = JsVal.undefined ∨ t = JsVal.num 1)
    (h : arr[i]? = some ⟨t, JsVal.num n⟩) :
    percent arr i = JsVal.num (n * 100) := by
  rcases ht with rfl | rfl
  · simp only [percent, h, JsVal.or_nat_zero, JsVal.or_undefined, JsVal.gt_num,
      JsVal.mul_num, JsVal.div_num _ 1 one_ne_zero, zero_lt_one, decide_True, if_true, div_one]
  · rw [percent_pos arr i 1 n zero_lt_one h, div_one]

/-- With a count function that returns the lecture total, a course with at
least one lecture is shown `completed * 100 / total`. -/
theorem shownPercent_countAll (enrolled : List (ClientCourse × ProgressReply)) (i : Nat)
    (course : ClientCourse) (success : Bool) (message : String)
    (progressData : Option (List String))
    (hid : course.id ≠ none ∧ course.id ≠ some "")
    (hpos : 1 ≤ lectureTotal course)
    (hok : success = true ∨ message = "Progress Not Found")
    (hrow : enrolled[i]? = some (course, .data success message progressData)) :
    shownPercent countAll .token enrolled i
      = JsVal.num (completedOf progressData * 100 / lectureTotal course) := by
  have hrow2 := getCourseProgress_row countAll enrolled i course _ hrow
  have hne : (lectureTotal course : ℚ) ≠ 0 := by
    have : (1 : ℚ) ≤ lectureTotal course := by exact_mod_cast hpos
    linarith
  have hentry : progressEntry countAll course (.data success message progressData)
      = ⟨JsVal.num (lectureTotal course), JsVal.num (completedOf progressData)⟩ := by
    have hguard : ¬ ((!success) = true ∧ message ≠ "Progress Not Found") := by
      rcases hok with h | h <;> simp [h]
    simp only [progressEntry, hid.1, hid.2, or_self, if_false, hguard, completed_or_zero]
    simp [countAll, hne]
  rw [hentry] at hrow2
  exact percent_pos _ i _ _ (by exact_mod_cast hpos) hrow2

/-- With a count function that reports `0` or `undefined` for the course, the
row is shown one hundred times the completed count. -/
theorem shownPercent_unit (countLectures : ClientCourse → JsVal)
    (enrolled : List (ClientCourse × ProgressReply)) (i : Nat)
    (course : ClientCourse) (success : Bool) (message : String)
    (progressData : Option (List String))
    (hid : course.id ≠ none ∧ course.id ≠ some "")
    (hcount : countLectures course = JsVal.num 0 ∨ countLectures course = JsVal.undefined)
    (hok : success = true ∨ message = "Progress Not Found")
    (hrow : enrolled[i]? = some (course, .data success message progressData)) :
    shownPercent countLectures .token enrolled i
      = JsVal.num (completedOf progressData * 100) := by
  have hrow2 := getCourseProgress_row countLectures enrolled i course _ hrow
  have hguard : ¬ ((!success) = true ∧ message ≠ "Progress Not Found") := by
    rcases hok with h | h <;> simp [h]
  rcases hcount with h0 | hu
  · have hentry : progressEntry countLectures course (.data success message progressData)
        = ⟨JsVal.num 1, JsVal.num (completedOf progressData)⟩ := by
      simp only [progressEntry, hid.1, hid.2, or_self, if_false, hguard, completed_or_zero, h0,
        if_true]
    rw [hentry] at hrow2
    exact percent_unit _ i _ _ (Or.inr rfl) hrow2
  · have hentry : progressEntry countLectures course (.data success message progressData)
        = ⟨JsVal.undefined, JsVal.num (completedOf progressData)⟩ := by
      simp only [progressEntry, hid.1, hid.2, or_self, if_false, hguard, completed_or_zero, hu]
      simp
    rw [hentry] at hrow2
    exact percent_unit _ i _ _ (Or.inl rfl) hrow2

/-- C4, as the claim states it, fails: a course without lectures for which
the server reports one completed lecture is shown `100`, not `0`, both with
the `calculateNoOfLectures` of the context and with a count function that
returns the lecture total `0`. -/
theorem zeroLecture_percent_counterexample :
    lectureTotal emptyCourse = 0 ∧
      shownPercent calculateNoOfLectures .token emptyRows 0 = JsVal.num 100 ∧
      shownPercent countAll .token emptyRows 0 = JsVal.num 100 ∧
      shownPercent calculateNoOfLectures .token emptyRows 0 ≠ JsVal.num 0 := by
  have h1 : shownPercent calculateNoOfLectures .token emptyRows 0 = JsVal.num 100 := by
    rw [shownPercent_unit calculateNoOfLectures emptyRows 0 emptyCourse true ""
      (some ["l1"]) (by simp [emptyCourse]) (Or.inr rfl) (Or.inl rfl) rfl]
    simp [completedOf]
  have h2 : shownPercent countAll .token emptyRows 0 = JsVal.num 100 := by
    rw [shownPercent_unit countAll emptyRows 0 emptyCourse true ""
      (some ["l1"]) (by simp [emptyCourse]) (Or.inl (by simp [countAll, lectureTotal, emptyCourse]))
      (Or.inl rfl) rfl]
    simp [completedOf]
  refine ⟨rfl, h1, h2, ?_⟩
  rw [h1]
  intro h
  injection h with h
  norm_num at h

/-- C4, amended: for a course without lectures and a completed count `n`
reported for it, the percentage shown is `100 * n` (the denominator is taken
as `1`): a finite number, never `NaN` or an infinity, and `0` exactly when
`n = 0`.  This holds for the `calculateNoOfLectures` of the context and for
any count function that returns the lecture total. -/
theorem zeroLecture_percent (countLectures : ClientCourse → JsVal)
    (enrolled : List (ClientCourse × ProgressReply)) (i : Nat)
    (course : ClientCourse) (success : Bool) (message : String)
    (progressData : Option (List String))
    (hid : course.id ≠ none ∧ course.id ≠ some "")
    (hzero : lectureTotal course = 0)
    (hcount : countLectures course = JsVal.num (lectureTotal course) ∨
      countLectures course = calculateNoOfLectures course)
    (hok : success = true ∨ message = "Progress Not Found")
    (hrow : enrolled[i]? = some (course, .data success message progressData)) :
    shownPercent countLectures .token enrolled i
        = JsVal.num (completedOf progressData * 100) ∧
      (shownPercent countLectures .token enrolled i).isFinite = true ∧
      (shownPercent countLectures .token enrolled i = JsVal.num 0 ↔
        completedOf progressData = 0) := by
  have hcount2 : countLectures course = JsVal.num 0 ∨ countLectures course = JsVal.undefined := by
    rcases hcount with h | h
    · left
      rw [h, hzero]
      simp
    · right
      rw [h]
      rfl
  have h := shownPercent_unit countLectures enrolled i course success message progressData
    hid hcount2 hok hrow
  rw [h]
  refine ⟨rfl, rfl, ?_⟩
  constructor
  · intro heq
    injection heq with heq
    have h100 : ((completedOf progressData * 100 : Nat) : ℚ) = 0 := by
      push_cast
      exact heq
    have : completedOf progressData * 100 = 0 := by exact_mod_cast h100
    omega
  · intro heq
    rw [heq]
    simp

/-- C4 witness: the course without lectures, one completed lecture reported. -/
theorem zeroLecture_percent_witness :
    shownPercent calculateNoOfLectures .token emptyRows 0
        = JsVal.num (completedOf (some ["l1"]) * 100) ∧
      (shownPercent calculateNoOfLectures .token emptyRows 0).isFinite = true ∧
      (shownPercent calculateNoOfLectures .token emptyRows 0 = JsVal.num 0 ↔
        completedOf (some ["l1"]) = 0) :=
  zeroLecture_percent calculateNoOfLectures emptyRows 0 emptyCourse true "" (some ["l1"])
    (by simp [emptyCourse]) rfl (Or.inr rfl) (Or.inl rfl) rfl

/-- C5 at the scenario of the specification: for chapters with lecture counts
`[3, 2]` and completed lectures `l1`, `l2`, `l3`, the page shows `300`,
because the `calculateNoOfLectures` of the context returns `undefined` and the
denominator falls back to `1`; with a count function that returns the lecture
total the same code shows `60`. -/
theorem percent_scenario_32 :
    lectureTotal course32 = 5 ∧
      shownPercent calculateNoOfLectures .token rows32 0 = JsVal.num 300 ∧
      shownPercent countAll .token rows32 0 = JsVal.num 60 := by
  refine ⟨rfl, ?_, ?_⟩
  · rw [shownPercent_unit calculateNoOfLectures rows32 0 course32 true ""
      (some ["l1", "l2", "l3"]) (by simp [course32]) (Or.inr rfl) (Or.inl rfl) rfl]
    simp [completedOf]
    norm_num
  · rw [shownPercent_countAll rows32 0 course32 true ""
      (some ["l1", "l2", "l3"]) (by simp [course32]) (by decide) (Or.inl rfl) rfl]
    simp [completedOf, lectureTotal, course32]
    norm_num

/-! ## Lemmas on `addUserRating` -/

theorem invalidDetails_num (u c : String) (r : ℚ) (hu : u ≠ "") (hc : c ≠ "")
    (h1 : 1 ≤ r) (h5 : r ≤ 5) : invalidDetails u c (JsVal.num r) = false := by
  have h0 : r ≠ 0 := by
    intro h
    rw [h] at h1
    norm_num at h1
  simp [invalidDetails, hu, hc, JsVal.falsy, JsVal.lt, JsVal.gt, JsVal.toNumber, h0, h1, h5]

/-- A fault-free request of an enrolled user with a rating in `[1, 5]`
succeeds and stores the updated rating list. -/
theorem addUserRating_ok (db : Db) (u c : String) (ud : User) (cd : Course) (r : ℚ)
    (hu : db.users u = some ud) (hc : db.courses c = some cd)
    (henr : c ∈ ud.enrolledCourses) (hune : u ≠ "") (hcne : c ≠ "")
    (h1 : 1 ≤ r) (h5 : r ≤ 5) :
    addUserRating db noFaults u c (JsVal.num r) =
      ({ db with
          courses := Function.update db.courses c
            (some { cd with courseRatings := upsertRating cd.courseRatings u (JsVal.num r) }) },
        ⟨true, "Rating added"⟩) := by
  simp [addUserRating, invalidDetails_num u c r hune hcne h1 h5, noFaults, hu, hc, henr]

/-- A fault-free request of an enrolled user whose rating passes the check
succeeds and stores the updated rating list, whatever kind of value the rating is. -/
theorem addUserRating_pass (db : Db) (u c : String) (ud : User) (cd : Course) (rating : JsVal)
    (hu : db.users u = some ud) (hc : db.courses c = some cd)
    (henr : c ∈ ud.enrolledCourses) (hune : u ≠ "") (hcne : c ≠ "")
    (hf : rating.falsy = false) (hlt : rating.lt (JsVal.num 1) = false)
    (hgt : rating.gt (JsVal.num 5) = false) :
    addUserRating db noFaults u c rating =
      ({ db with
          courses := Function.update db.courses c
            (some { cd with courseRatings := upsertRating cd.courseRatings u rating }) },
        ⟨true, "Rating added"⟩) := by
  have hinv : invalidDetails u c rating = false := by
    simp [invalidDetails, hune, hcne, hf, hlt, hgt]
  simp [addUserRating, hinv, noFaults, hu, hc, henr]

/-- The string `"3"` converts to the number `3`. -/
theorem stringToNumber_three : stringToNumber "3" = JsVal.num 3 := by
  have h1 : jsTrim "3".data = ['3'] := by decide
  have h2 : nonDecimalInteger ['3'] = none := by decide
  have h3 : signedDecimal ['3'] = unsignedDecimal ['3'] := by rfl
  have h4 : (['3'] : List Char) ≠ "Infinity".data := by decide
  have h5 : List.takeWhile isDecDigit ['3'] = ['3'] := by decide
  have h6 : List.dropWhile isDecDigit ['3'] = [] := by decide
  have h7 : digitsValue 10 ['3'] = some 3 := by decide
  unfold stringToNumber
  simp only [h1, h2, h3]
  unfold unsignedDecimal
  simp only [h5, h6, h4, if_false, exponentValue]
  simp [h7]

theorem filter_of_findIndex_none {α : Type} (p : α → Bool) (l : List α)
    (h : findIndex p l = none) : l.filter p = [] := by
  induction l with
  | nil => rfl
  | cons a as ih =>
    by_cases hp : p a = true
    · simp [findIndex, hp] at h
    · simp only [findIndex, hp, Bool.false_eq_true, if_false, Option.map_eq_none'] at h
      simp [List.filter, hp, ih h]

theorem filter_modifyAt_first (u : String) (v : JsVal) (l : List CourseRating) (i : Nat)
    (h : findIndex (fun r => r.userId == u) l = some i)
    (hone : (l.filter (fun r => r.userId == u)).length ≤ 1) :
    (modifyAt (fun r => { r with rating := v }) l i).filter (fun r => r.userId == u)
      = [⟨u, v⟩] := by
  induction l generalizing i with
  | nil => simp [findIndex] at h
  | cons a as ih =>
    by_cases hp : (a.userId == u) = true
    · simp only [findIndex, hp, if_true, Option.some.injEq] at h
      subst h
      simp only [List.filter, hp, List.length_cons] at hone
      have hnil : as.filter (fun r => r.userId == u) = [] :=
        List.eq_nil_of_length_eq_zero (by omega)
      have hau : a.userId = u := by simpa using hp
      simp [modifyAt, List.filter, hp, hnil, hau]
    · simp only [findIndex, hp, Bool.false_eq_true, if_false, Option.map_eq_some'] at h
      obtain ⟨j, hj, rfl⟩ := h
      simp only [List.filter, hp] at hone
      simp only [modifyAt, List.filter, hp]
      exact ih j hj hone

/-- After the update-or-push, a user who had at most one entry has exactly
one, with the new value. -/
theorem filter_upsertRating (u : String) (v : JsVal) (l : List CourseRating)
    (hone : (l.filter (fun r => r.userId == u)).length ≤ 1) :
    (upsertRating l u v).filter (fun r => r.userId == u) = [⟨u, v⟩] := by
  unfold upsertRating
  cases h : findIndex (fun r => r.userId == u) l with
  | none => simp [filter_of_findIndex_none _ l h]
  | some i => exact filter_modifyAt_first u v l i h hone

/-- C6: for an enrolled user `u` and a course `c` whose rating list holds at
most one entry of `u`, after two fault-free `addUserRating` requests with
ratings `r1` then `r2`, both in `[1, 5]`, the rating list of `c` holds exactly
one entry of `u`, with value `r2`. -/
theorem addUserRating_upsert (db : Db) (u c : String) (ud : User) (cd : Course) (r1 r2 : ℚ)
    (hu : db.users u = some ud) (hc : db.courses c = some cd)
    (henr : c ∈ ud.enrolledCourses) (hune : u ≠ "") (hcne : c ≠ "")
    (hone : (cd.courseRatings.filter (fun r => r.userId == u)).length ≤ 1)
    (h1 : 1 ≤ r1 ∧ r1 ≤ 5) (h2 : 1 ≤ r2 ∧ r2 ≤ 5) :
    ratingsOf (addUserRating (addUserRating db noFaults u c (JsVal.num r1)).1 noFaults u c
      (JsVal.num r2)).1 u c = [⟨u, JsVal.num r2⟩] := by
  rw [addUserRating_ok db u c ud cd r1 hu hc henr hune hcne h1.1 h1.2]
  rw [addUserRating_ok _ u c ud
    { cd with courseRatings := upsertRating cd.courseRatings u (JsVal.num r1) } r2
    (by simpa using hu) (by simp) henr hune hcne h2.1 h2.2]
  simp only [ratingsOf, Function.update_same]
  apply filter_upsertRating
  rw [filter_upsertRating u _ _ hone]
  simp

/-- C6 witness: ratings `3` then `5` by `u1` on `c1`. -/
theorem addUserRating_upsert_witness :
    ratingsOf (addUserRating (addUserRating db2 noFaults "u1" "c1" (JsVal.num 3)).1 noFaults
      "u1" "c1" (JsVal.num 5)).1 "u1" "c1" = [⟨"u1", JsVal.num 5⟩] :=
  addUserRating_upsert db2 "u1" "c1" ⟨["c1"]⟩ ⟨["u1"], []⟩ 3 5 (by simp [db2]) (by simp [db2])
    (by simp) (by decide) (by decide) (by simp) (by norm_num) (by norm_num)

/-- C7, as the claim states it, fails: in the one-sided store `db3` user `u1`
is absent from the enrolled-student list of `c1`, yet the rating request
succeeds and the rating is recorded. -/
theorem addUserRating_notStudent_counterexample :
    (∃ cd, db3.courses "c1" = some cd ∧ "u1" ∉ cd.enrolledStudents ∧ cd.courseRatings = []) ∧
      addUserRating db3 noFaults "u1" "c1" (JsVal.num 3) =
        ({ db3 with
            courses := Function.update db3.courses "c1"
              (some ⟨[], [⟨"u1", JsVal.num 3⟩]⟩) },
          ⟨true, "Rating added"⟩) ∧
      ratingsOf (addUserRating db3 noFaults "u1" "c1" (JsVal.num 3)).1 "u1" "c1"
        = [⟨"u1", JsVal.num 3⟩] := by
  have h := addUserRating_ok db3 "u1" "c1" ⟨["c1"]⟩ ⟨[], []⟩ 3 (by simp [db3]) (by simp [db3])
    (by simp) (by decide) (by decide) (by norm_num) (by norm_num)
  refine ⟨⟨⟨[], []⟩, by simp [db3], by simp, rfl⟩, ?_, ?_⟩
  · rw [h]
    simp [upsertRating, findIndex]
  · rw [h]
    simp [ratingsOf, upsertRating, findIndex]

/-- C7, amended: for every store, every faults, every course and rating, a
user who has no user record or whose own enrolled-course list does not hold
the course ID is answered `success: false`, and the store (so the course's
rating list) is unchanged. -/
theorem addUserRating_notEnrolled (db : Db) (io : Faults) (u c : String) (rating : JsVal)
    (hnot : ∀ ud, db.users u = some ud → c ∉ ud.enrolledCourses) :
    (addUserRating db io u c rating).2.success = false ∧
      (addUserRating db io u c rating).1 = db := by
  unfold addUserRating
  split
  · exact ⟨rfl, rfl⟩
  · cases io.findCourse with
    | some e => exact ⟨rfl, rfl⟩
    | none =>
      cases db.courses c with
      | none => exact ⟨rfl, rfl⟩
      | some course =>
        cases io.findUser with
        | some e => exact ⟨rfl, rfl⟩
        | none =>
          cases hu : db.users u with
          | none => exact ⟨rfl, rfl⟩
          | some user =>
            have := hnot user hu
            simp [this]

/-- C7 witness: user `u1` of `db1` is enrolled nowhere. -/
theorem addUserRating_notEnrolled_witness :
    (addUserRating db1 noFaults "u1" "c1" (JsVal.num 3)).2.success = false ∧
      (addUserRating db1 noFaults "u1" "c1" (JsVal.num 3)).1 = db1 :=
  addUserRating_notEnrolled db1 noFaults "u1" "c1" (JsVal.num 3) (by
    intro ud h
    simp only [db1, if_true, Option.some.injEq] at h
    subst h
    simp)

/-- C8, as the claim states it, fails: the non-integer rating `5/2` of the
enrolled user `u1` passes the input check, the request succeeds and the
rating is recorded. -/
theorem addUserRating_nonInteger_counterexample :
    (¬ ∃ z : ℤ, (z : ℚ) = 5 / 2) ∧
      invalidDetails "u1" "c1" (JsVal.num (5 / 2)) = false ∧
      (addUserRating db2 noFaults "u1" "c1" (JsVal.num (5 / 2))).2 = ⟨true, "Rating added"⟩ ∧
      ratingsOf (addUserRating db2 noFaults "u1" "c1" (JsVal.num (5 / 2))).1 "u1" "c1"
        = [⟨"u1", JsVal.num (5 / 2)⟩] := by
  have hinv := invalidDetails_num "u1" "c1" (5 / 2) (by decide) (by decide)
    (by norm_num) (by norm_num)
  have h := addUserRating_ok db2 "u1" "c1" ⟨["c1"]⟩ ⟨["u1"], []⟩ (5 / 2) (by simp [db2])
    (by simp [db2]) (by simp) (by decide) (by decide) (by norm_num) (by norm_num)
  refine ⟨?_, hinv, ?_, ?_⟩
  · rintro ⟨z, hz⟩
    have h2 : ((2 * z : ℤ) : ℚ) = ((5 : ℤ) : ℚ) := by
      push_cast
      rw [hz]
      norm_num
    have h3 : 2 * z = 5 := by exact_mod_cast h2
    omega
  · rw [h]
  · rw [h]
    simp [ratingsOf, upsertRating, findIndex]

/-- C8, amended: the check `!rating || rating < 1 || rating > 5` is all that stands
between a rating and the store. A request whose rating is falsy, or less than `1` or
greater than `5` once converted to a number, is answered `Invalid Details` with the store
unchanged, whatever the faults; these include the missing ratings (`undefined`, `null`)
and the numbers outside `[1, 5]`. A request that succeeds carried a rating that is truthy
and neither less than `1` nor greater than `5`, so a number among them lies in `[1, 5]`,
integer or not. There is no integer test and no type test: without faults, every such
rating of an enrolled user, number or not, is recorded. -/
theorem addUserRating_range (db : Db) (io : Faults) (u c : String) (rating : JsVal) :
    ((rating.falsy = true ∨ rating.lt (JsVal.num 1) = true ∨ rating.gt (JsVal.num 5) = true) →
      addUserRating db io u c rating = (db, ⟨false, "Invalid Details"⟩)) ∧
    ((rating = JsVal.undefined ∨ rating = JsVal.null ∨
        ∃ q, rating = JsVal.num q ∧ (q < 1 ∨ 5 < q)) →
      addUserRating db io u c rating = (db, ⟨false, "Invalid Details"⟩)) ∧
    ((addUserRating db io u c rating).2.success = true →
      rating.falsy = false ∧ rating.lt (JsVal.num 1) = false ∧
        rating.gt (JsVal.num 5) = false ∧ ∀ q, rating = JsVal.num q → 1 ≤ q ∧ q ≤ 5) ∧
    (∀ ud cd, u ≠ "" → c ≠ "" → db.users u = some ud → db.courses c = some cd →
      c ∈ ud.enrolledCourses → rating.falsy = false → rating.lt (JsVal.num 1) = false →
      rating.gt (JsVal.num 5) = false →
      addUserRating db noFaults u c rating =
        ({ db with
            courses := Function.update db.courses c
              (some { cd with courseRatings := upsertRating cd.courseRatings u rating }) },
          ⟨true, "Rating added"⟩)) := by
  have hrej : (rating.falsy = true ∨ rating.lt (JsVal.num 1) = true ∨
      rating.gt (JsVal.num 5) = true) →
      addUserRating db io u c rating = (db, ⟨false, "Invalid Details"⟩) := by
    intro h
    have hinv : invalidDetails u c rating = true := by
      rcases h with h | h | h <;> simp [invalidDetails, h]
    simp [addUserRating, hinv]
  refine ⟨hrej, ?_, ?_, ?_⟩
  · intro h
    apply hrej
    rcases h with rfl | rfl | ⟨q, rfl, hq | hq⟩
    · exact Or.inl rfl
    · exact Or.inl rfl
    · exact Or.inr (Or.inl (by simp [JsVal.lt, JsVal.toNumber, hq]))
    · exact Or.inr (Or.inr (by simp [JsVal.gt, JsVal.lt, JsVal.toNumber, hq]))
  · intro h
    have hf : rating.falsy = false := by
      by_contra hc
      rw [hrej (Or.inl (by simpa using hc))] at h
      simp at h
    have hlt : rating.lt (JsVal.num 1) = false := by
      by_contra hc
      rw [hrej (Or.inr (Or.inl (by simpa using hc)))] at h
      simp at h
    have hgt : rating.gt (JsVal.num 5) = false := by
      by_contra hc
      rw [hrej (Or.inr (Or.inr (by simpa using hc)))] at h
      simp at h
    refine ⟨hf, hlt, hgt, ?_⟩
    rintro q rfl
    constructor
    · by_contra hq
      simp [JsVal.lt, JsVal.toNumber, lt_of_not_le hq] at hlt
    · by_contra hq
      simp [JsVal.gt, JsVal.lt, JsVal.toNumber, lt_of_not_le hq] at hgt
  · intro ud cd hune hcne hu hc henr hf hlt hgt
    exact addUserRating_pass db u c ud cd rating hu hc henr hune hcne hf hlt hgt

/-- C8 witness: on the store where `u1` is enrolled in `c1`, the rating `0` is answered
`Invalid Details` with the store unchanged, a succeeding rating `9/2` lies in `[1, 5]`,
and the ratings `true` and `"3"` are recorded. -/
theorem addUserRating_range_witness :
    addUserRating db2 noFaults "u1" "c1" (JsVal.num 0) = (db2, ⟨false, "Invalid Details"⟩) ∧
    ((1 : ℚ) ≤ 9 / 2 ∧ (9 / 2 : ℚ) ≤ 5) ∧
    ((addUserRating db2 noFaults "u1" "c1" (JsVal.bool true)).2 = ⟨true, "Rating added"⟩ ∧
      ratingsOf (addUserRating db2 noFaults "u1" "c1" (JsVal.bool true)).1 "u1" "c1"
        = [⟨"u1", JsVal.bool true⟩]) ∧
    ((addUserRating db2 noFaults "u1" "c1" (JsVal.str "3")).2 = ⟨true, "Rating added"⟩ ∧
      ratingsOf (addUserRating db2 noFaults "u1" "c1" (JsVal.str "3")).1 "u1" "c1"
        = [⟨"u1", JsVal.str "3"⟩]) := by
  have hok : (addUserRating db2 noFaults "u1" "c1" (JsVal.num (9 / 2))).2.success = true := by
    rw [addUserRating_ok db2 "u1" "c1" ⟨["c1"]⟩ ⟨["u1"], []⟩ (9 / 2) (by simp [db2])
      (by simp [db2]) (by simp) (by decide) (by decide) (by norm_num) (by norm_num)]
  have htrue := (addUserRating_range db2 noFaults "u1" "c1" (JsVal.bool true)).2.2.2
    ⟨["c1"]⟩ ⟨["u1"], []⟩ (by decide) (by decide) (by simp [db2]) (by simp [db2]) (by simp)
    (by simp [JsVal.falsy]) (by simp [JsVal.lt, JsVal.toNumber])
    (by simp [JsVal.gt, JsVal.lt, JsVal.toNumber])
  have hthree := (addUserRating_range db2 noFaults "u1" "c1" (JsVal.str "3")).2.2.2
    ⟨["c1"]⟩ ⟨["u1"], []⟩ (by decide) (by decide) (by simp [db2]) (by simp [db2]) (by simp)
    (by simp [JsVal.falsy]) (by simp [JsVal.lt, JsVal.toNumber, stringToNumber_three])
    (by simp [JsVal.gt, JsVal.lt, JsVal.toNumber, stringToNumber_three]; norm_num)
  refine ⟨?_, ?_, ⟨?_, ?_⟩, ⟨?_, ?_⟩⟩
  · exact (addUserRating_range db2 noFaults "u1" "c1" (JsVal.num 0)).2.1
      (Or.inr (Or.inr ⟨0, rfl, Or.inl (by norm_num)⟩))
  · exact ((addUserRating_range db2 noFaults "u1" "c1" (JsVal.num (9 / 2))).2.2.1 hok).2.2.2
      (9 / 2) rfl
  · rw [htrue]
  · rw [htrue]
    simp [ratingsOf, upsertRating, findIndex]
  · rw [hthree]
  · rw [hthree]
    simp [ratingsOf, upsertRating, findIndex]

/-! ## Lemmas on `fetchUserData` -/

/-- An invocation with the identity provider ready either ends the run, having
issued at most one request, or (only below the third attempt) issues one
request, raises the counter by one and sets the 2000 ms timer. -/
theorem fetchUserData_cases (clerk : Clerk) (hready : clerk.ready = true) (isRetry : Bool)
    (out : FetchOutcome) (st : ClientState) :
    ((fetchUserData clerk isRetry out st).2 = none ∧
        (fetchUserData clerk isRetry out st).1.requests ≤ st.requests + 1) ∨
      ((fetchUserData clerk isRetry out st).2 = some 2000 ∧
        (fetchUserData clerk isRetry out st).1.requests = st.requests + 1 ∧
        attemptOf isRetry st < 3 ∧
        (fetchUserData clerk isRetry out st).1.fetchUserAttempt = attemptOf isRetry st + 1) := by
  cases out with
  | tokenError msg =>
    left
    cases isRetry <;> simp [fetchUserData, hready, fetchCatch, setLoading]
  | noToken =>
    left
    cases isRetry <;> simp [fetchUserData, hready, fetchCatch, setLoading]
  | transportError msg =>
    left
    cases isRetry <;> simp [fetchUserData, hready, fetchCatch, setLoading]
  | response success message user =>
    cases success with
    | true =>
      left
      cases isRetry <;> simp [fetchUserData, hready, fetchOnResponse, setLoading]
    | false =>
      by_cases hretry : message = "User Not Found" ∧ attemptOf isRetry st < 3
      · right
        cases isRetry
        · simp [fetchUserData, hready, fetchOnResponse, setLoading, attemptOf, hretry.1]
        · simp only [attemptOf, if_true] at hretry
          simp [fetchUserData, hready, fetchOnResponse, attemptOf, hretry.1, hretry.2]
      · left
        cases isRetry
        · simp only [attemptOf, Bool.false_eq_true, if_false] at hretry
          have hmsg : message ≠ "User Not Found" := fun h => hretry ⟨h, by decide⟩
          simp [fetchUserData, hready, fetchOnResponse, setLoading, hmsg]
        · simp only [attemptOf, if_true] at hretry
          by_cases hmsg : message = "User Not Found"
          · have hlt : ¬ st.fetchUserAttempt < 3 := fun h => hretry ⟨hmsg, h⟩
            simp [fetchUserData, hready, fetchOnResponse, setLoading, hmsg, hlt]
          · simp [fetchUserData, hready, fetchOnResponse, setLoading, hmsg]

theorem runFetch_done (clerk : Clerk) (outs : Nat → FetchOutcome) (fuel k : Nat)
    (isRetry : Bool) (st : ClientState)
    (h : (fetchUserData clerk isRetry (outs k) st).2 = none) :
    runFetch clerk outs (fuel + 1) k isRetry st
      = some (fetchUserData clerk isRetry (outs k) st).1 := by
  have heq : fetchUserData clerk isRetry (outs k) st
      = ((fetchUserData clerk isRetry (outs k) st).1, none) := Prod.ext rfl h
  simp only [runFetch]
  rw [heq]

theorem runFetch_again (clerk : Clerk) (outs : Nat → FetchOutcome) (fuel k : Nat)
    (isRetry : Bool) (st : ClientState) (d : Nat)
    (h : (fetchUserData clerk isRetry (outs k) st).2 = some d) :
    runFetch clerk outs (fuel + 1) k isRetry st
      = runFetch clerk outs fuel (k + 1) true (fetchUserData clerk isRetry (outs k) st).1 := by
  have heq : fetchUserData clerk isRetry (outs k) st
      = ((fetchUserData clerk isRetry (outs k) st).1, some d) := Prod.ext rfl h
  simp only [runFetch]
  rw [heq]

/-- A run that continues with a retry invocation at counter value `a` ends
after at most `n` further requests whenever `4 ≤ a + n`. -/
theorem runFetch_retry_bounded (clerk : Clerk) (hready : clerk.ready = true)
    (outs : Nat → FetchOutcome) (fuel : Nat) :
    ∀ (n k : Nat) (st : ClientState), 1 ≤ n → 4 ≤ st.fetchUserAttempt + n → n ≤ fuel →
      ∃ st', runFetch clerk outs fuel k true st = some st' ∧
        st'.requests ≤ st.requests + n := by
  induction fuel with
  | zero =>
    intro n k st h1 _ hle
    omega
  | succ f ih =>
    intro n k st h1 h4 hle
    rcases fetchUserData_cases clerk hready true (outs k) st with
      ⟨hnone, hreq⟩ | ⟨hsome, hreq, hlt, hatt⟩
    · exact ⟨_, runFetch_done clerk outs f k true st hnone, by omega⟩
    · simp only [attemptOf, if_true] at hlt hatt
      obtain ⟨st', hrun, hle'⟩ := ih (n - 1) (k + 1) (fetchUserData clerk true (outs k) st).1
        (by omega) (by omega) (by omega)
      refine ⟨st', ?_, by omega⟩
      rw [runFetch_again clerk outs f k true st 2000 hsome]
      exact hrun

/-- On the first, non-retry attempt `User Not Found` sets the timer and the
counter becomes `2`. -/
theorem fetchUserData_first_notFound (clerk : Clerk) (hready : clerk.ready = true)
    (usr : Option UserDoc) (st : ClientState) :
    (fetchUserData clerk false (.response false "User Not Found" usr) st).2 = some 2000 ∧
      (fetchUserData clerk false (.response false "User Not Found" usr) st).1.fetchUserAttempt
        = 2 ∧
      (fetchUserData clerk false (.response false "User Not Found" usr) st).1.requests
        = st.requests + 1 := by
  simp [fetchUserData, hready, fetchOnResponse, setLoading]

/-- On a retry attempt below the third `User Not Found` sets the timer and
raises the counter. -/
theorem fetchUserData_retry_notFound (clerk : Clerk) (hready : clerk.ready = true)
    (usr : Option UserDoc) (st : ClientState) (hlt : st.fetchUserAttempt < 3) :
    (fetchUserData clerk true (.response false "User Not Found" usr) st).2 = some 2000 ∧
      (fetchUserData clerk true (.response false "User Not Found" usr) st).1.fetchUserAttempt
        = st.fetchUserAttempt + 1 ∧
      (fetchUserData clerk true (.response false "User Not Found" usr) st).1.requests
        = st.requests + 1 := by
  simp [fetchUserData, hready, fetchOnResponse, hlt]

/-- On the third attempt `User Not Found` ends the run as failed. -/
theorem fetchUserData_third_notFound (clerk : Clerk) (hready : clerk.ready = true)
    (usr : Option UserDoc) (st : ClientState) (h3 : st.fetchUserAttempt = 3) :
    (fetchUserData clerk true (.response false "User Not Found" usr) st).2 = none ∧
      (fetchUserData clerk true (.response false "User Not Found" usr) st).1.userData = none ∧
      (fetchUserData clerk true (.response false "User Not Found" usr) st).1.isUserDataLoading
        = false ∧
      (fetchUserData clerk true (.response false "User Not Found" usr) st).1.fetchUserAttempt
        = 0 ∧
      (fetchUserData clerk true (.response false "User Not Found" usr) st).1.requests
        = st.requests + 1 := by
  simp [fetchUserData, hready, fetchOnResponse, setLoading, h3]

/-- C9: with the identity provider ready, for every sequence of outcomes a
run started by a non-retry call is over within three invocations and issues
at most three requests; `User Not Found` on attempt 1 and on attempt 2 sets
the one 2000 ms timer, on attempt 3 it sets none and ends the run as
failed; a run that meets `User Not Found` three times issues exactly three
requests. -/
theorem fetchUserData_at_most_three (clerk : Clerk) (hready : clerk.ready = true)
    (outs : Nat → FetchOutcome) (st : ClientState) (fuel : Nat) (hfuel : 3 ≤ fuel) :
    (∃ st', startFetch clerk outs fuel st = some st' ∧ st'.requests ≤ st.requests + 3) ∧
    (∀ usr, (fetchUserData clerk false (.response false "User Not Found" usr) st).2 = some 2000 ∧
      (fetchUserData clerk false (.response false "User Not Found" usr) st).1.fetchUserAttempt
        = 2) ∧
    (∀ usr st2, st2.fetchUserAttempt = 2 →
      (fetchUserData clerk true (.response false "User Not Found" usr) st2).2 = some 2000 ∧
      (fetchUserData clerk true (.response false "User Not Found" usr) st2).1.fetchUserAttempt
        = 3) ∧
    (∀ usr st3, st3.fetchUserAttempt = 3 →
      (fetchUserData clerk true (.response false "User Not Found" usr) st3).2 = none ∧
      (fetchUserData clerk true (.response false "User Not Found" usr) st3).1.userData = none ∧
      (fetchUserData clerk true (.response false "User Not Found" usr) st3).1.isUserDataLoading
        = false) ∧
    ((∀ k, k < 3 → ∃ usr, outs k = .response false "User Not Found" usr) →
      ∃ st', startFetch clerk outs fuel st = some st' ∧ st'.requests = st.requests + 3 ∧
        st'.userData = none ∧ st'.isUserDataLoading = false) := by
  obtain ⟨f, rfl⟩ : ∃ f, fuel = f + 3 := ⟨fuel - 3, by omega⟩
  refine ⟨?_, ?_, ?_, ?_, ?_⟩
  · rcases fetchUserData_cases clerk hready false (outs 0) st with
      ⟨hnone, hreq⟩ | ⟨hsome, hreq, _, hatt⟩
    · exact ⟨_, runFetch_done clerk outs (f + 2) 0 false st hnone, by omega⟩
    · simp only [attemptOf, Bool.false_eq_true, if_false] at hatt
      obtain ⟨st', hrun, hle⟩ := runFetch_retry_bounded clerk hready outs (f + 2) 2 1
        (fetchUserData clerk false (outs 0) st).1 (by omega) (by omega) (by omega)
      refine ⟨st', ?_, by omega⟩
      show runFetch clerk outs (f + 2 + 1) 0 false st = some st'
      rw [runFetch_again clerk outs (f + 2) 0 false st 2000 hsome]
      exact hrun
  · intro usr
    have h := fetchUserData_first_notFound clerk hready usr st
    exact ⟨h.1, h.2.1⟩
  · intro usr st2 h2
    have h := fetchUserData_retry_notFound clerk hready usr st2 (by omega)
    exact ⟨h.1, by rw [h.2.1, h2]⟩
  · intro usr st3 h3
    have h := fetchUserData_third_notFound clerk hready usr st3 h3
    exact ⟨h.1, h.2.1, h.2.2.1⟩
  · intro hall
    obtain ⟨u0, h0⟩ := hall 0 (by decide)
    obtain ⟨u1, h1⟩ := hall 1 (by decide)
    obtain ⟨u2, h2⟩ := hall 2 (by decide)
    have a1 := fetchUserData_first_notFound clerk hready u0 st
    have a2 := fetchUserData_retry_notFound clerk hready u1
      (fetchUserData clerk false (.response false "User Not Found" u0) st).1 (by omega)
    have a3 := fetchUserData_third_notFound clerk hready u2
      (fetchUserData clerk true (.response false "User Not Found" u1)
        (fetchUserData clerk false (.response false "User Not Found" u0) st).1).1 (by omega)
    refine ⟨_, ?_, ?_, a3.2.1, a3.2.2.1⟩
    · show runFetch clerk outs (f + 2 + 1) 0 false st = some _
      rw [runFetch_again clerk outs (f + 2) 0 false st 2000 (by rw [h0]; exact a1.1)]
      show runFetch clerk outs (f + 1 + 1) 1 true _ = some _
      rw [runFetch_again clerk outs (f + 1) 1 true _ 2000 (by rw [h0, h1]; exact a2.1)]
      show runFetch clerk outs (f + 1) 2 true _ = some _
      rw [runFetch_done clerk outs f 2 true _ (by rw [h0, h1, h2]; exact a3.1)]
      rw [h0, h1, h2]
    · omega

/-- C9 witness: the server keeps answering `User Not Found`. -/
theorem fetchUserData_at_most_three_witness :
    ∃ st', startFetch readyClerk (fun _ => userNotFound) 3 initialClient = some st' ∧
      st'.requests ≤ initialClient.requests + 3 :=
  (fetchUserData_at_most_three readyClerk rfl (fun _ => userNotFound) initialClient 3
    (by decide)).1

/-- C10: with the identity provider ready, on any attempt (first or retry) a
thrown error or an answer with `success: false` and a message other than
`User Not Found` sets no timer, sets `userData` to null, the loading
indicator to false and the counter to `0`, and the run ends with that
invocation. -/
theorem fetchUserData_other_error (clerk : Clerk) (hready : clerk.ready = true)
    (isRetry : Bool) (out : FetchOutcome) (st : ClientState) (hout : otherError out = true)
    (outs : Nat → FetchOutcome) (fuel k : Nat) (hk : outs k = out) :
    (fetchUserData clerk isRetry out st).2 = none ∧
      (fetchUserData clerk isRetry out st).1.userData = none ∧
      (fetchUserData clerk isRetry out st).1.isUserDataLoading = false ∧
      (fetchUserData clerk isRetry out st).1.fetchUserAttempt = 0 ∧
      runFetch clerk outs (fuel + 1) k isRetry st
        = some (fetchUserData clerk isRetry out st).1 := by
  have hstep : (fetchUserData clerk isRetry out st).2 = none ∧
      (fetchUserData clerk isRetry out st).1.userData = none ∧
      (fetchUserData clerk isRetry out st).1.isUserDataLoading = false ∧
      (fetchUserData clerk isRetry out st).1.fetchUserAttempt = 0 := by
    cases out with
    | tokenError msg => cases isRetry <;> simp [fetchUserData, hready, fetchCatch, setLoading]
    | noToken => cases isRetry <;> simp [fetchUserData, hready, fetchCatch, setLoading]
    | transportError msg => cases isRetry <;> simp [fetchUserData, hready, fetchCatch, setLoading]
    | response success message user =>
      simp only [otherError, Bool.and_eq_true, Bool.not_eq_true', bne_iff_ne, ne_eq] at hout
      obtain ⟨hs, hm⟩ := hout
      subst hs
      cases isRetry <;> simp [fetchUserData, hready, fetchOnResponse, setLoading, hm]
  refine ⟨hstep.1, hstep.2.1, hstep.2.2.1, hstep.2.2.2, ?_⟩
  subst hk
  exact runFetch_done clerk outs fuel k isRetry st hstep.1

/-- C10 witness: the second attempt meets a transport failure. -/
theorem fetchUserData_other_error_witness :
    (fetchUserData readyClerk true (.transportError "Network Error") initialClient).2 = none ∧
      (fetchUserData readyClerk true (.transportError "Network Error") initialClient).1.userData
        = none ∧
      (fetchUserData readyClerk true (.transportError "Network Error")
        initialClient).1.isUserDataLoading = false ∧
      (fetchUserData readyClerk true (.transportError "Network Error")
        initialClient).1.fetchUserAttempt = 0 ∧
      runFetch readyClerk (fun _ => .transportError "Network Error") (0 + 1) 1 true initialClient
        = some (fetchUserData readyClerk true (.transportError "Network Error")
          initialClient).1 :=
  fetchUserData_other_error readyClerk rfl true (.transportError "Network Error") initialClient
    rfl (fun _ => .transportError "Network Error") 0 1 rfl

/-! ## The loading indicator during a fetch run -/

/-- What one invocation with the identity provider ready writes to the loading
indicator: a first attempt writes `true`; an invocation that ends the run
writes `false`; an invocation that sets the timer writes nothing more. -/
theorem fetchUserData_loading (clerk : Clerk) (hready : clerk.ready = true) (isRetry : Bool)
    (out : FetchOutcome) (st : ClientState) :
    ((fetchUserData clerk isRetry out st).2 = none ∧
        (fetchUserData clerk isRetry out st).1.loadingWrites
          = (if isRetry then st.loadingWrites else st.loadingWrites ++ [true]) ++ [false] ∧
        (fetchUserData clerk isRetry out st).1.isUserDataLoading = false) ∨
      ((fetchUserData clerk isRetry out st).2 = some 2000 ∧
        (fetchUserData clerk isRetry out st).1.loadingWrites
          = (if isRetry then st.loadingWrites else st.loadingWrites ++ [true]) ∧
        attemptOf isRetry st < 3 ∧
        (fetchUserData clerk isRetry out st).1.fetchUserAttempt = attemptOf isRetry st + 1) := by
  cases out with
  | tokenError msg =>
    left
    cases isRetry <;> simp [fetchUserData, hready, fetchCatch, setLoading]
  | noToken =>
    left
    cases isRetry <;> simp [fetchUserData, hready, fetchCatch, setLoading]
  | transportError msg =>
    left
    cases isRetry <;> simp [fetchUserData, hready, fetchCatch, setLoading]
  | response success message user =>
    cases success with
    | true =>
      left
      cases isRetry <;> simp [fetchUserData, hready, fetchOnResponse, setLoading]
    | false =>
      by_cases hretry : message = "User Not Found" ∧ attemptOf isRetry st < 3
      · right
        cases isRetry
        · simp [fetchUserData, hready, fetchOnResponse, setLoading, attemptOf, hretry.1]
        · simp only [attemptOf, if_true] at hretry
          simp [fetchUserData, hready, fetchOnResponse, attemptOf, hretry.1, hretry.2]
      · left
        cases isRetry
        · simp only [attemptOf, Bool.false_eq_true, if_false] at hretry
          have hmsg : message ≠ "User Not Found" := fun h => hretry ⟨h, by decide⟩
          simp [fetchUserData, hready, fetchOnResponse, setLoading, hmsg]
        · simp only [attemptOf, if_true] at hretry
          by_cases hmsg : message = "User Not Found"
          · have hlt : ¬ st.fetchUserAttempt < 3 := fun h => hretry ⟨hmsg, h⟩
            simp [fetchUserData, hready, fetchOnResponse, setLoading, hmsg, hlt]
          · simp [fetchUserData, hready, fetchOnResponse, setLoading, hmsg]

/-- A run that continues with a retry invocation writes the indicator once
more, `false`, when it ends. -/
theorem runFetch_retry_loading (clerk : Clerk) (hready : clerk.ready = true)
    (outs : Nat → FetchOutcome) (fuel : Nat) :
    ∀ (n k : Nat) (st : ClientState), 1 ≤ n → 4 ≤ st.fetchUserAttempt + n → n ≤ fuel →
      ∃ st', runFetch clerk outs fuel k true st = some st' ∧
        st'.loadingWrites = st.loadingWrites ++ [false] ∧ st'.isUserDataLoading = false := by
  induction fuel with
  | zero =>
    intro n k st h1 _ hle
    omega
  | succ f ih =>
    intro n k st h1 h4 hle
    rcases fetchUserData_loading clerk hready true (outs k) st with
      ⟨hnone, hlw, hl⟩ | ⟨hsome, hlw, hlt, hatt⟩
    · exact ⟨_, runFetch_done clerk outs f k true st hnone, by simpa using hlw, hl⟩
    · simp only [attemptOf, if_true] at hlt hatt
      simp only [if_true] at hlw
      obtain ⟨st', hrun, hlw', hl'⟩ := ih (n - 1) (k + 1)
        (fetchUserData clerk true (outs k) st).1 (by omega) (by omega) (by omega)
      refine ⟨st', ?_, by rw [hlw', hlw], hl'⟩
      rw [runFetch_again clerk outs f k true st 2000 hsome]
      exact hrun

/-- Every run started by a non-retry call writes the indicator exactly twice:
`true` at the start and `false` at the end. -/
theorem startFetch_loading (clerk : Clerk) (hready : clerk.ready = true)
    (outs : Nat → FetchOutcome) (st : ClientState) (fuel : Nat) (hfuel : 3 ≤ fuel) :
    ∃ st', startFetch clerk outs fuel st = some st' ∧
      st'.loadingWrites = st.loadingWrites ++ [true, false] ∧
      st'.isUserDataLoading = false := by
  obtain ⟨f, rfl⟩ : ∃ f, fuel = f + 3 := ⟨fuel - 3, by omega⟩
  rcases fetchUserData_loading clerk hready false (outs 0) st with
    ⟨hnone, hlw, hl⟩ | ⟨hsome, hlw, _, hatt⟩
  · exact ⟨_, runFetch_done clerk outs (f + 2) 0 false st hnone, by simpa using hlw, hl⟩
  · simp only [attemptOf, Bool.false_eq_true, if_false] at hatt hlw
    obtain ⟨st', hrun, hlw', hl'⟩ := runFetch_retry_loading clerk hready outs (f + 2) 2 1
      (fetchUserData clerk false (outs 0) st).1 (by omega) (by omega) (by omega)
    refine ⟨st', ?_, by rw [hlw', hlw]; simp, hl'⟩
    show runFetch clerk outs (f + 2 + 1) 0 false st = some st'
    rw [runFetch_again clerk outs (f + 2) 0 false st 2000 hsome]
    exact hrun

/-- The run for `User Not Found`, `User Not Found`, success: two timers, three
requests, the user record set at the end. -/
theorem startFetch_lateRecord (clerk : Clerk) (hready : clerk.ready = true)
    (usr : UserDoc) (st : ClientState) (f : Nat) :
    (fetchUserData clerk false (lateRecord usr 0) st).2 = some 2000 ∧
      (fetchUserData clerk true (lateRecord usr 1)
        (fetchUserData clerk false (lateRecord usr 0) st).1).2 = some 2000 ∧
      ∃ st', startFetch clerk (lateRecord usr) (f + 3) st = some st' ∧
        st'.userData = some usr ∧ st'.requests = st.requests + 3 := by
  have a1 : (fetchUserData clerk false (lateRecord usr 0) st).2 = some 2000 ∧
      (fetchUserData clerk false (lateRecord usr 0) st).1.fetchUserAttempt = 2 ∧
      (fetchUserData clerk false (lateRecord usr 0) st).1.requests = st.requests + 1 :=
    fetchUserData_first_notFound clerk hready none st
  have a2 : (fetchUserData clerk true (lateRecord usr 1)
        (fetchUserData clerk false (lateRecord usr 0) st).1).2 = some 2000 ∧
      (fetchUserData clerk true (lateRecord usr 1)
        (fetchUserData clerk false (lateRecord usr 0) st).1).1.fetchUserAttempt
        = (fetchUserData clerk false (lateRecord usr 0) st).1.fetchUserAttempt + 1 ∧
      (fetchUserData clerk true (lateRecord usr 1)
        (fetchUserData clerk false (lateRecord usr 0) st).1).1.requests
        = (fetchUserData clerk false (lateRecord usr 0) st).1.requests + 1 :=
    fetchUserData_retry_notFound clerk hready none
      (fetchUserData clerk false (lateRecord usr 0) st).1 (by omega)
  have h3 : (fetchUserData clerk true (lateRecord usr 2)
      (fetchUserData clerk true (lateRecord usr 1)
        (fetchUserData clerk false (lateRecord usr 0) st).1).1).2 = none := by
    simp [fetchUserData, hready, fetchOnResponse, lateRecord]
  have r3 : (fetchUserData clerk true (lateRecord usr 2)
      (fetchUserData clerk true (lateRecord usr 1)
        (fetchUserData clerk false (lateRecord usr 0) st).1).1).1.requests
      = (fetchUserData clerk true (lateRecord usr 1)
        (fetchUserData clerk false (lateRecord usr 0) st).1).1.requests + 1 := by
    simp [fetchUserData, hready, fetchOnResponse, lateRecord, setLoading]
  refine ⟨a1.1, a2.1, (fetchUserData clerk true (lateRecord usr 2)
      (fetchUserData clerk true (lateRecord usr 1)
        (fetchUserData clerk false (lateRecord usr 0) st).1).1).1, ?_, ?_, ?_⟩
  · show runFetch clerk (lateRecord usr) (f + 2 + 1) 0 false st = some _
    rw [runFetch_again clerk (lateRecord usr) (f + 2) 0 false st 2000 a1.1]
    show runFetch clerk (lateRecord usr) (f + 1 + 1) 1 true _ = some _
    rw [runFetch_again clerk (lateRecord usr) (f + 1) 1 true _ 2000 a2.1]
    show runFetch clerk (lateRecord usr) (f + 1) 2 true _ = some _
    rw [runFetch_done clerk (lateRecord usr) f 2 true _ h3]
  · simp [fetchUserData, hready, fetchOnResponse, lateRecord, setLoading]
  · rw [r3]
    have r2 := a2.2.2
    have r1 := a1.2.2
    omega

/-- C11: with the identity provider ready, in every run started by a
non-retry call only the first attempt writes `true` to the loading indicator,
a retry attempt writes nothing when it sets the next timer and writes `false`
when it ends the run, so the run writes `true` then `false` and the indicator
falls from true to false exactly once.  For `User Not Found`,
`User Not Found`, success the first two answers set a timer each and the
third sets the user record.  On the server, `getUserData` answers
`User Not Found` while the record is absent and the record once it exists. -/
theorem loading_indicator_once (clerk : Clerk) (hready : clerk.ready = true)
    (outs : Nat → FetchOutcome) (st : ClientState) (fuel : Nat) (hfuel : 3 ≤ fuel)
    (usr : UserDoc) :
    (∀ out st2,
      ((fetchUserData clerk true out st2).2 = some 2000 ∧
        (fetchUserData clerk true out st2).1.loadingWrites = st2.loadingWrites) ∨
      ((fetchUserData clerk true out st2).2 = none ∧
        (fetchUserData clerk true out st2).1.loadingWrites = st2.loadingWrites ++ [false])) ∧
    (∀ out,
      ((fetchUserData clerk false out st).2 = some 2000 ∧
        (fetchUserData clerk false out st).1.loadingWrites = st.loadingWrites ++ [true]) ∨
      ((fetchUserData clerk false out st).2 = none ∧
        (fetchUserData clerk false out st).1.loadingWrites
          = st.loadingWrites ++ [true, false])) ∧
    (∃ st', startFetch clerk outs fuel st = some st' ∧
      st'.loadingWrites = st.loadingWrites ++ [true, false] ∧
      st'.isUserDataLoading = false ∧
      falls st.isUserDataLoading [true, false] = 1) ∧
    ((fetchUserData clerk false (lateRecord usr 0) st).2 = some 2000 ∧
      (fetchUserData clerk true (lateRecord usr 1)
        (fetchUserData clerk false (lateRecord usr 0) st).1).2 = some 2000 ∧
      ∃ st', startFetch clerk (lateRecord usr) fuel st = some st' ∧
        st'.userData = some usr ∧ st'.requests = st.requests + 3 ∧
        st'.loadingWrites = st.loadingWrites ++ [true, false]) ∧
    (∀ (db : Db) (u : String), db.users u = none →
      (getUserData db noFaults u).2 = ⟨false, some "User Not Found", none⟩) ∧
    (∀ (db : Db) (u : String) (user : User), db.users u = some user →
      (getUserData db noFaults u).2 = ⟨true, none, some user⟩) := by
  refine ⟨?_, ?_, ?_, ?_, ?_, ?_⟩
  · intro out st2
    rcases fetchUserData_loading clerk hready true out st2 with
      ⟨hnone, hlw, _⟩ | ⟨hsome, hlw, _, _⟩
    · exact Or.inr ⟨hnone, by simpa using hlw⟩
    · exact Or.inl ⟨hsome, by simpa using hlw⟩
  · intro out
    rcases fetchUserData_loading clerk hready false out st with
      ⟨hnone, hlw, _⟩ | ⟨hsome, hlw, _, _⟩
    · exact Or.inr ⟨hnone, by simpa using hlw⟩
    · exact Or.inl ⟨hsome, by simpa using hlw⟩
  · obtain ⟨st', hrun, hlw, hl⟩ := startFetch_loading clerk hready outs st fuel hfuel
    refine ⟨st', hrun, hlw, hl, ?_⟩
    cases st.isUserDataLoading <;> rfl
  · obtain ⟨f, rfl⟩ : ∃ f, fuel = f + 3 := ⟨fuel - 3, by omega⟩
    obtain ⟨t1, t2, st', hrun, hud, hreq⟩ := startFetch_lateRecord clerk hready usr st f
    obtain ⟨st2, hrun2, hlw, _⟩ :=
      startFetch_loading clerk hready (lateRecord usr) st (f + 3) hfuel
    rw [hrun] at hrun2
    obtain rfl : st' = st2 := by simpa using hrun2
    exact ⟨t1, t2, st', hrun, hud, hreq, hlw⟩
  · intro db u hu
    simp [getUserData, noFaults, hu]
  · intro db u user hu
    simp [getUserData, noFaults, hu]

/-- C11 witness: the record of `u1` appears before the third request. -/
theorem loading_indicator_once_witness :
    ∃ st', startFetch readyClerk (lateRecord ⟨"u1", none⟩) 3 initialClient = some st' ∧
      st'.loadingWrites = initialClient.loadingWrites ++ [true, false] ∧
      st'.isUserDataLoading = false ∧
      falls initialClient.isUserDataLoading [true, false] = 1 :=
  (loading_indicator_once readyClerk rfl (lateRecord ⟨"u1", none⟩) initialClient 3 (by decide)
    ⟨"u1", none⟩).2.2.1

/-! ## Outcomes of `enrollCourse` -/

/-- C12: when the course or the user record does not exist (the two reads
not failing), `enrollCourse` answers `success: false`, `Data Not Found`, and
the store is unchanged. -/
theorem enrollCourse_notFound (db : Db) (io : Faults) (u c : String)
    (hfc : io.findCourse = none) (hfu : io.findUser = none)
    (hmiss : db.users u = none ∨ db.courses c = none) :
    enrollCourse db io u c = (db, ⟨false, "Data Not Found"⟩) := by
  unfold enrollCourse
  rcases hmiss with h | h
  · simp [hfc, hfu, h]
  · cases hu : db.users u <;> simp [hfc, hfu, h]

/-- C12 witness: course `c9` does not exist in `db1`. -/
theorem enrollCourse_notFound_witness :
    enrollCourse db1 noFaults "u1" "c9" = (db1, ⟨false, "Data Not Found"⟩) :=
  enrollCourse_notFound db1 noFaults "u1" "c9" rfl rfl (Or.inr (by simp [db1]))

/-- C13: for an existing user whose list already holds the ID of the existing
course (the two reads not failing), `enrollCourse` answers `success: true`,
`Already Enrolled`, a message other than `Enrollment Successful`, and the
store is unchanged. -/
theorem enrollCourse_alreadyEnrolled (db : Db) (io : Faults) (u c : String) (ud : User)
    (cd : Course) (hfc : io.findCourse = none) (hfu : io.findUser = none)
    (hu : db.users u = some ud) (hc : db.courses c = some cd)
    (hmem : c ∈ ud.enrolledCourses) :
    enrollCourse db io u c = (db, ⟨true, "Already Enrolled"⟩) ∧
      "Already Enrolled" ≠ "Enrollment Successful" ∧
      (enrollCourse db io u c).1.users u = some ud ∧
      (enrollCourse db io u c).1.courses c = some cd := by
  have h : enrollCourse db io u c = (db, ⟨true, "Already Enrolled"⟩) := by
    simp [enrollCourse, hfc, hfu, hu, hc, hmem]
  rw [h]
  exact ⟨rfl, by decide, hu, hc⟩

/-- C13 witness: `u1` is enrolled in `c1` in `db2`. -/
theorem enrollCourse_alreadyEnrolled_witness :
    enrollCourse db2 noFaults "u1" "c1" = (db2, ⟨true, "Already Enrolled"⟩) ∧
      "Already Enrolled" ≠ "Enrollment Successful" ∧
      (enrollCourse db2 noFaults "u1" "c1").1.users "u1" = some ⟨["c1"]⟩ ∧
      (enrollCourse db2 noFaults "u1" "c1").1.courses "c1" = some ⟨["u1"], []⟩ :=
  enrollCourse_alreadyEnrolled db2 noFaults "u1" "c1" ⟨["c1"]⟩ ⟨["u1"], []⟩ rfl rfl
    (by simp [db2]) (by simp [db2]) (by simp)

/-- C14: for an existing user whose list does not hold the ID of the existing
course, an `enrollCourse` request that answers `success: true` answers
`Enrollment Successful`; afterwards the user's list is the old list with the
course ID appended, the course's student list is the old list with the user ID
appended, and every other user, every other course and the progress store are
unchanged. -/
theorem enrollCourse_newlyEnrolled (db : Db) (io : Faults) (u c : String) (ud : User)
    (cd : Course) (hu : db.users u = some ud) (hc : db.courses c = some cd)
    (hmem : c ∉ ud.enrolledCourses)
    (hsucc : (enrollCourse db io u c).2.success = true) :
    (enrollCourse db io u c).2 = ⟨true, "Enrollment Successful"⟩ ∧
      (enrollCourse db io u c).1.users u = some ⟨ud.enrolledCourses ++ [c]⟩ ∧
      (enrollCourse db io u c).1.courses c
        = some ⟨cd.enrolledStudents ++ [u], cd.courseRatings⟩ ∧
      (∀ u2, u2 ≠ u → (enrollCourse db io u c).1.users u2 = db.users u2) ∧
      (∀ c2, c2 ≠ c → (enrollCourse db io u c).1.courses c2 = db.courses c2) ∧
      (enrollCourse db io u c).1.progress = db.progress := by
  cases hfc : io.findCourse with
  | some e => simp [enrollCourse, hfc] at hsucc
  | none =>
    cases hfu : io.findUser with
    | some e => simp [enrollCourse, hfc, hfu] at hsucc
    | none =>
      cases hsu : io.saveUser with
      | some e => simp [enrollCourse, hfc, hfu, hu, hc, hmem, hsu] at hsucc
      | none =>
        cases hsc : io.saveCourse with
        | some e => simp [enrollCourse, hfc, hfu, hu, hc, hmem, hsu, hsc] at hsucc
        | none =>
          have h : enrollCourse db io u c =
              (saveCourseEnrolled (saveUserEnrolled db u c ud) u c cd,
                ⟨true, "Enrollment Successful"⟩) := by
            simp [enrollCourse, hfc, hfu, hu, hc, hmem, hsu, hsc]
          rw [h]
          refine ⟨rfl, ?_, ?_, ?_, ?_, rfl⟩
          · simp [saveCourseEnrolled, saveUserEnrolled]
          · simp [saveCourseEnrolled, saveUserEnrolled]
          · intro u2 h2
            simp [saveCourseEnrolled, saveUserEnrolled, Function.update_noteq h2]
          · intro c2 h2
            simp [saveCourseEnrolled, saveUserEnrolled, Function.update_noteq h2]

/-- C14 witness: `u1` enrolls in `c1` in `db1`. -/
theorem enrollCourse_newlyEnrolled_witness :
    (enrollCourse db1 noFaults "u1" "c1").2 = ⟨true, "Enrollment Successful"⟩ ∧
      (enrollCourse db1 noFaults "u1" "c1").1.users "u1" = some ⟨[] ++ ["c1"]⟩ ∧
      (enrollCourse db1 noFaults "u1" "c1").1.courses "c1" = some ⟨[] ++ ["u1"], []⟩ ∧
      (∀ u2, u2 ≠ "u1" → (enrollCourse db1 noFaults "u1" "c1").1.users u2 = db1.users u2) ∧
      (∀ c2, c2 ≠ "c1" → (enrollCourse db1 noFaults "u1" "c1").1.courses c2 = db1.courses c2) ∧
      (enrollCourse db1 noFaults "u1" "c1").1.progress = db1.progress :=
  enrollCourse_newlyEnrolled db1 noFaults "u1" "c1" ⟨[]⟩ ⟨[], []⟩ (by simp [db1])
    (by simp [db1]) (by simp) (by simp [enrollCourse, noFaults, db1])

/-! ## More lemmas on `findOne` and `modifyAt` -/

/-- Searching after an in-place change that keeps the search key: the same
position is found, with the changed element if it is the one changed. -/
theorem findOne_modifyAt_map {α : Type} (q : α → Bool) (f : α → α)
    (hf : ∀ a, q (f a) = q a) (l : List α) (i : Nat) :
    findOne q (modifyAt f l i)
      = (findOne q l).map (fun r => (r.1, if r.1 = i then f r.2 else r.2)) := by
  induction l generalizing i with
  | nil => rfl
  | cons a as ih =>
    cases i with
    | zero =>
      by_cases hq : q a = true
      · simp [modifyAt, findOne, hf, hq]
      · simp [modifyAt, findOne, hf, hq, Option.map_map, Function.comp_def]
    | succ j =>
      by_cases hq : q a = true
      · simp [modifyAt, findOne, hq]
      · simp [modifyAt, findOne, hq, ih j, Option.map_map, Function.comp_def]

theorem findOne_append_some {α : Type} (q : α → Bool) (l : List α) (y : α) (r : Nat × α)
    (h : findOne q l = some r) : findOne q (l ++ [y]) = some r := by
  induction l generalizing r with
  | nil => simp [findOne] at h
  | cons a as ih =>
    by_cases hq : q a = true
    · simpa [findOne, hq] using h
    · simp only [findOne, hq, Bool.false_eq_true, if_false, Option.map_eq_some'] at h
      obtain ⟨r2, hr2, rfl⟩ := h
      simp [findOne, hq, ih r2 hr2]

theorem findOne_some_spec {α : Type} (q : α → Bool) (l : List α) (i : Nat) (x : α)
    (h : findOne q l = some (i, x)) : l[i]? = some x ∧ q x = true := by
  induction l generalizing i with
  | nil => simp [findOne] at h
  | cons a as ih =>
    by_cases hq : q a = true
    · simp only [findOne, hq, if_true, Option.some.injEq, Prod.mk.injEq] at h
      obtain ⟨rfl, rfl⟩ := h
      exact ⟨by simp, hq⟩
    · simp only [findOne, hq, Bool.false_eq_true, if_false, Option.map_eq_some'] at h
      obtain ⟨⟨j, y⟩, hj, hij⟩ := h
      simp only [Prod.mk.injEq] at hij
      obtain ⟨rfl, rfl⟩ := hij
      simpa using ih j hj

theorem findOne_none_spec {α : Type} (q : α → Bool) (l : List α)
    (h : findOne q l = none) : ∀ a ∈ l, q a = false := by
  induction l with
  | nil => simp
  | cons a as ih =>
    by_cases hq : q a = true
    · simp [findOne, hq] at h
    · simp only [findOne, hq, Bool.false_eq_true, if_false, Option.map_eq_none'] at h
      intro b hb
      rcases List.mem_cons.mp hb with rfl | hb
      · simpa using hq
      · exact ih h b hb

theorem findOne_first_of_mem {α : Type} (q : α → Bool) (l : List α) (a : α)
    (ha : a ∈ l) (hq : q a = true) : ∃ i x, findOne q l = some (i, x) := by
  cases h : findOne q l with
  | some r => exact ⟨r.1, r.2, rfl⟩
  | none =>
    have := findOne_none_spec q l h a ha
    rw [hq] at this
    exact absurd this (by decide)

theorem map_modifyAt {α β : Type} (g : α → β) (f : α → α) (hf : ∀ a, g (f a) = g a)
    (l : List α) (i : Nat) : (modifyAt f l i).map g = l.map g := by
  induction l generalizing i with
  | nil => rfl
  | cons a as ih =>
    cases i with
    | zero => simp [modifyAt, hf]
    | succ j => simp [modifyAt, ih j]

theorem mem_modifyAt {α : Type} (f : α → α) (l : List α) (i : Nat) (p : α)
    (h : p ∈ modifyAt f l i) : p ∈ l ∨ ∃ y, l[i]? = some y ∧ p = f y := by
  induction l generalizing i with
  | nil => simp [modifyAt] at h
  | cons a as ih =>
    cases i with
    | zero =>
      simp only [modifyAt, List.mem_cons] at h
      rcases h with rfl | h
      · exact Or.inr ⟨a, by simp, rfl⟩
      · exact Or.inl (List.mem_cons_of_mem _ h)
    | succ j =>
      simp only [modifyAt, List.mem_cons] at h
      rcases h with rfl | h
      · exact Or.inl (List.mem_cons_self _ _)
      · rcases ih j h with h1 | ⟨y, hy, rfl⟩
        · exact Or.inl (List.mem_cons_of_mem _ h1)
        · exact Or.inr ⟨y, by simpa using hy, rfl⟩

theorem filter_modifyAt {α : Type} (k : α → Bool) (f : α → α) (hf : ∀ a, k (f a) = k a)
    (l : List α) (i : Nat) (y : α) (hy : l[i]? = some y) (hk : k y = false) :
    (modifyAt f l i).filter k = l.filter k := by
  induction l generalizing i with
  | nil => rfl
  | cons a as ih =>
    cases i with
    | zero =>
      simp only [List.getElem?_cons_zero, Option.some.injEq] at hy
      subst hy
      simp [modifyAt, List.filter, hf, hk]
    | succ j =>
      simp only [List.getElem?_cons_succ] at hy
      simp only [modifyAt, List.filter, ih j hy]

/-! ## Progress records -/

/-- No request removes a completed lecture ID of any pair. -/
theorem completedLectures_mono (db : Db) (io : Faults) (u2 c2 l2 u c x : String)
    (hx : x ∈ completedLectures db u c) :
    x ∈ completedLectures (updateUserCourseProgress db io u2 c2 l2).1 u c := by
  unfold updateUserCourseProgress
  cases io.findProgress with
  | some e => exact hx
  | none =>
    cases h2 : findOne (progressKey u2 c2) db.progress with
    | none =>
      cases io.createProgress with
      | some e => exact hx
      | none =>
        simp only [completedLectures] at hx ⊢
        cases h : findOne (progressKey u c) db.progress with
        | none => simp [h] at hx
        | some r =>
          rw [findOne_append_some _ _ _ r h]
          simpa [h] using hx
    | some r =>
      obtain ⟨i, p⟩ := r
      by_cases hmem : l2 ∈ p.lectureCompleted
      · simpa [hmem] using hx
      · cases io.saveProgress with
        | some e => simpa [hmem] using hx
        | none =>
          simp only [hmem, if_false]
          simp only [completedLectures] at hx ⊢
          rw [findOne_modifyAt_map _ _ (fun a => by simp [progressKey])]
          cases h : findOne (progressKey u c) db.progress with
          | none => simp [h] at hx
          | some r =>
            obtain ⟨j, y⟩ := r
            simp only [h] at hx
            by_cases hji : j = i
            · simp [hji, hx]
            · simp [hji, hx]

/-- C15: for a lecture ID not yet completed for the pair, a fault-free
`updateUserCourseProgress` request answers `success: true`,
`Progress Updated`, and afterwards the pair's completed lecture IDs are the
previous ones (none when the pair had no record, and then a record is
created) followed by that lecture ID; and no request, whatever its arguments
and faults, removes a completed lecture ID of any pair. -/
theorem updateUserCourseProgress_adds (db : Db) (u c l : String)
    (hnew : l ∉ completedLectures db u c) :
    (updateUserCourseProgress db noFaults u c l).2 = ⟨true, "Progress Updated"⟩ ∧
      completedLectures (updateUserCourseProgress db noFaults u c l).1 u c
        = completedLectures db u c ++ [l] ∧
      (findOne (progressKey u c) db.progress = none →
        (updateUserCourseProgress db noFaults u c l).1.progress
          = db.progress ++ [⟨u, c, [l]⟩]) ∧
      (∀ (io : Faults) (u2 c2 l2 u3 c3 x : String), x ∈ completedLectures db u3 c3 →
        x ∈ completedLectures (updateUserCourseProgress db io u2 c2 l2).1 u3 c3) := by
  refine ⟨?_, ?_, ?_, fun io u2 c2 l2 u3 c3 x hx =>
    completedLectures_mono db io u2 c2 l2 u3 c3 x hx⟩
  · cases h : findOne (progressKey u c) db.progress with
    | none => simp [updateUserCourseProgress, noFaults, h]
    | some r =>
      obtain ⟨i, p⟩ := r
      have hmem : l ∉ p.lectureCompleted := by simpa [completedLectures, h] using hnew
      simp [updateUserCourseProgress, noFaults, h, hmem]
  · cases h : findOne (progressKey u c) db.progress with
    | none =>
      have hfind := findOne_append_none (progressKey u c) db.progress ⟨u, c, [l]⟩ h
        (by simp [progressKey])
      simp [updateUserCourseProgress, noFaults, completedLectures, h, hfind]
    | some r =>
      obtain ⟨i, p⟩ := r
      have hmem : l ∉ p.lectureCompleted := by simpa [completedLectures, h] using hnew
      have hfind := findOne_modifyAt (progressKey u c)
        (fun q : CourseProgress => { q with lectureCompleted := q.lectureCompleted ++ [l] })
        (fun a => by simp [progressKey]) db.progress i p h
      simp [updateUserCourseProgress, noFaults, completedLectures, h, hmem, hfind]
  · intro h
    simp [updateUserCourseProgress, noFaults, h]

/-- C15 witness: `u1` completes the second lecture `l2` of `c1`. -/
theorem updateUserCourseProgress_adds_witness :
    (updateUserCourseProgress db4 noFaults "u1" "c1" "l2").2 = ⟨true, "Progress Updated"⟩ ∧
      completedLectures (updateUserCourseProgress db4 noFaults "u1" "c1" "l2").1 "u1" "c1"
        = completedLectures db4 "u1" "c1" ++ ["l2"] :=
  ⟨(updateUserCourseProgress_adds db4 "u1" "c1" "l2" (by decide)).1,
    (updateUserCourseProgress_adds db4 "u1" "c1" "l2" (by decide)).2.1⟩

/-- C16: the progress-store invariant (at most one record per pair, no
lecture ID twice in a record) is preserved by every `updateUserCourseProgress`
request, whatever its faults, and the records of the other pairs are
unchanged. -/
theorem updateUserCourseProgress_inv (db : Db) (io : Faults) (u c l : String)
    (hinv : progressInv db) :
    progressInv (updateUserCourseProgress db io u c l).1 ∧
      otherRecords (updateUserCourseProgress db io u c l).1 u c = otherRecords db u c := by
  unfold updateUserCourseProgress
  cases io.findProgress with
  | some e => exact ⟨hinv, rfl⟩
  | none =>
    cases h : findOne (progressKey u c) db.progress with
    | none =>
      cases io.createProgress with
      | some e => exact ⟨hinv, rfl⟩
      | none =>
        have hnone := findOne_none_spec _ _ h
        refine ⟨⟨?_, ?_⟩, ?_⟩
        · simp only [List.map_append, List.map_cons, List.map_nil]
          rw [List.nodup_append]
          refine ⟨hinv.1, by simp, ?_⟩
          intro k hk1 hk2
          simp only [List.mem_singleton] at hk2
          subst hk2
          obtain ⟨a, ha, hka⟩ := List.mem_map.mp hk1
          have hfalse := hnone a ha
          simp only [Prod.mk.injEq] at hka
          simp [progressKey, hka.1, hka.2] at hfalse
        · intro p hp
          rcases List.mem_append.mp hp with hp | hp
          · exact hinv.2 p hp
          · simp only [List.mem_singleton] at hp
            subst hp
            simp
        · simp [otherRecords, List.filter_append, progressKey]
    | some r =>
      obtain ⟨i, p⟩ := r
      by_cases hmem : l ∈ p.lectureCompleted
      · simp only [hmem, if_true]
        exact ⟨hinv, trivial⟩
      · cases io.saveProgress with
        | some e =>
          simp only [hmem, if_false]
          exact ⟨hinv, trivial⟩
        | none =>
          simp only [hmem, if_false]
          obtain ⟨hget, hkey⟩ := findOne_some_spec _ _ _ _ h
          have hpmem : p ∈ db.progress := List.getElem?_mem hget
          refine ⟨⟨?_, ?_⟩, ?_⟩
          · show ((modifyAt _ db.progress i).map _).Nodup
            rw [map_modifyAt (fun q : CourseProgress => (q.userId, q.courseId))
              (fun q : CourseProgress => { q with lectureCompleted := q.lectureCompleted ++ [l] })
              (fun a => rfl) db.progress i]
            exact hinv.1
          · intro q hq
            rcases mem_modifyAt _ _ _ _ hq with hq | ⟨y, hy, rfl⟩
            · exact hinv.2 q hq
            · rw [hget] at hy
              obtain rfl : p = y := by simpa using hy
              show (p.lectureCompleted ++ [l]).Nodup
              rw [List.nodup_append]
              refine ⟨hinv.2 p hpmem, by simp, ?_⟩
              intro k hk1 hk2
              simp only [List.mem_singleton] at hk2
              subst hk2
              exact hmem hk1
          · show (modifyAt _ db.progress i).filter _ = db.progress.filter _
            exact filter_modifyAt _ _ (fun a => by simp [progressKey]) _ _ p hget
              (by simp [hkey])

theorem progressInv_db4 : progressInv db4 := by
  unfold progressInv db4
  decide

/-- C16 witness: `u1` completes lecture `l2` of `c1` in a store that
satisfies the invariant. -/
theorem updateUserCourseProgress_inv_witness :
    progressInv db4 ∧
      progressInv (updateUserCourseProgress db4 noFaults "u1" "c1" "l2").1 ∧
      otherRecords (updateUserCourseProgress db4 noFaults "u1" "c1" "l2").1 "u1" "c1"
        = otherRecords db4 "u1" "c1" :=
  ⟨progressInv_db4,
    updateUserCourseProgress_inv db4 noFaults "u1" "c1" "l2" progressInv_db4⟩

/-- C17: when the read does not fail, `getUserCourseProgress` answers
`success: true` and changes no store; `progressData` is `null` when the pair
has no record, is a stored record of the pair when it has one, and is the
stored record when the pair has exactly one. -/
theorem getUserCourseProgress_reads (db : Db) (io : Faults) (u c : String)
    (hio : io.findProgress = none) :
    (getUserCourseProgress db io u c).1 = db ∧
      (getUserCourseProgress db io u c).2.success = true ∧
      ((∀ p ∈ db.progress, progressKey u c p = false) →
        (getUserCourseProgress db io u c).2.data = none) ∧
      ((∃ p ∈ db.progress, progressKey u c p = true) →
        ∃ q ∈ db.progress, progressKey u c q = true ∧
          (getUserCourseProgress db io u c).2.data = some q) ∧
      (∀ p ∈ db.progress, progressKey u c p = true →
        (db.progress.map (fun p => (p.userId, p.courseId))).Nodup →
        (getUserCourseProgress db io u c).2.data = some p) := by
  have hdata : (getUserCourseProgress db io u c).2.data
      = (findOne (progressKey u c) db.progress).map (·.2) := by
    simp [getUserCourseProgress, hio]
  have hexists : ∀ p ∈ db.progress, progressKey u c p = true →
      ∃ q ∈ db.progress, progressKey u c q = true ∧
        (getUserCourseProgress db io u c).2.data = some q := by
    intro p hp hk
    obtain ⟨i, x, hx⟩ := findOne_first_of_mem _ _ p hp hk
    obtain ⟨hget, hkx⟩ := findOne_some_spec _ _ _ _ hx
    exact ⟨x, List.getElem?_mem hget, hkx, by rw [hdata, hx]; rfl⟩
  refine ⟨by simp [getUserCourseProgress, hio], by simp [getUserCourseProgress, hio],
    ?_, ?_, ?_⟩
  · intro hnone
    rw [hdata]
    cases h : findOne (progressKey u c) db.progress with
    | none => rfl
    | some r =>
      obtain ⟨i, x⟩ := r
      obtain ⟨hget, hkx⟩ := findOne_some_spec _ _ _ _ h
      have := hnone x (List.getElem?_mem hget)
      rw [hkx] at this
      exact absurd this (by decide)
  · rintro ⟨p, hp, hk⟩
    exact hexists p hp hk
  · intro p hp hk hnodup
    obtain ⟨q, hq, hkq, hdq⟩ := hexists p hp hk
    have hpq : q = p := by
      apply List.inj_on_of_nodup_map hnodup hq hp
      simp only [progressKey, Bool.and_eq_true, beq_iff_eq] at hk hkq
      simp [hk.1, hk.2, hkq.1, hkq.2]
    rw [hdq, hpq]

/-- C17 witness: the record of `u1` in `c1`. -/
theorem getUserCourseProgress_reads_witness :
    (getUserCourseProgress db4 noFaults "u1" "c1").1 = db4 ∧
      (getUserCourseProgress db4 noFaults "u1" "c1").2.success = true ∧
      ((∃ p ∈ db4.progress, progressKey "u1" "c1" p = true) →
        ∃ q ∈ db4.progress, progressKey "u1" "c1" q = true ∧
          (getUserCourseProgress db4 noFaults "u1" "c1").2.data = some q) :=
  ⟨(getUserCourseProgress_reads db4 noFaults "u1" "c1" rfl).1,
    (getUserCourseProgress_reads db4 noFaults "u1" "c1" rfl).2.1,
    (getUserCourseProgress_reads db4 noFaults "u1" "c1" rfl).2.2.2.1⟩

/-! ## The display rating -/

/-- C18 at a course rated `3` and `5`: the arithmetic mean is `4`, while the
`calculateRating` of the context returns `undefined`, so `CourseCard` shows
`New` and `CourseDetails` shows `0.0`; with a rating function that returns the
mean the same display code shows `4`. -/
theorem calculateRating_scenario :
    specMeanRating ratedCourse.courseRatings = JsVal.num 4 ∧
      calculateRating ratedCourse = JsVal.undefined ∧
      calculateRating ratedCourse ≠ specMeanRating ratedCourse.courseRatings ∧
      cardRating calculateRating ratedCourse = none ∧
      safeRating calculateRating ratedCourse = none ∧
      cardRating (fun course => specMeanRating course.courseRatings) ratedCourse
        = some (JsVal.num 4) ∧
      safeRating (fun course => specMeanRating course.courseRatings) ratedCourse
        = some (JsVal.num 4) := by
  have hmean : specMeanRating ratedCourse.courseRatings = JsVal.num 4 := by
    simp [specMeanRating, ratedCourse, ratingNumber]
    norm_num
  refine ⟨hmean, rfl, ?_, rfl, rfl, ?_, ?_⟩
  · rw [hmean]
    simp [calculateRating]
  · simp only [cardRating, hmean, JsVal.gt_num]
    norm_num
  · simp only [safeRating, hmean]
    rfl

/-! ## Failures inside the handlers -/

/-- C19: in each handler of `userController.js` a store operation that throws
with message `e`, wherever it is reached, is answered with `success: false`
and message `e`, and the null dereference of `userEnrolledCourses` for a user
without record is answered with `success: false` and the message of the
`TypeError`.  Every handler is a total function to one response: its `try`
block spans every store operation. -/
theorem handlers_answer_failures (db : Db) (io : Faults) (u c l : String) (rating : JsVal)
    (e : String) :
    (io.findUser = some e → getUserData db io u = (db, ⟨false, some e, none⟩)) ∧
    (io.findCourse = some e → enrollCourse db io u c = (db, ⟨false, e⟩)) ∧
    (io.findCourse = none → io.findUser = some e →
      enrollCourse db io u c = (db, ⟨false, e⟩)) ∧
    (∀ ud cd, io.findCourse = none → io.findUser = none → db.users u = some ud →
      db.courses c = some cd → c ∉ ud.enrolledCourses → io.saveUser = some e →
      enrollCourse db io u c = (db, ⟨false, e⟩)) ∧
    (∀ ud cd, io.findCourse = none → io.findUser = none → db.users u = some ud →
      db.courses c = some cd → c ∉ ud.enrolledCourses → io.saveUser = none →
      io.saveCourse = some e →
      enrollCourse db io u c = (saveUserEnrolled db u c ud, ⟨false, e⟩)) ∧
    (io.findUser = some e → userEnrolledCourses db io u = (db, ⟨false, some e, none⟩)) ∧
    (io.findUser = none → db.users u = none →
      userEnrolledCourses db io u = (db, ⟨false, some nullUserMessage, none⟩)) ∧
    (io.findProgress = some e → updateUserCourseProgress db io u c l = (db, ⟨false, e⟩)) ∧
    (∀ i p, io.findProgress = none → findOne (progressKey u c) db.progress = some (i, p) →
      l ∉ p.lectureCompleted → io.saveProgress = some e →
      updateUserCourseProgress db io u c l = (db, ⟨false, e⟩)) ∧
    (io.findProgress = none → findOne (progressKey u c) db.progress = none →
      io.createProgress = some e →
      updateUserCourseProgress db io u c l = (db, ⟨false, e⟩)) ∧
    (io.findProgress = some e →
      getUserCourseProgress db io u c = (db, ⟨false, some e, none⟩)) ∧
    (invalidDetails u c rating = false → io.findCourse = some e →
      addUserRating db io u c rating = (db, ⟨false, e⟩)) ∧
    (∀ cd, invalidDetails u c rating = false → io.findCourse = none →
      db.courses c = some cd → io.findUser = some e →
      addUserRating db io u c rating = (db, ⟨false, e⟩)) ∧
    (∀ ud cd, invalidDetails u c rating = false → io.findCourse = none →
      db.courses c = some cd → io.findUser = none → db.users u = some ud →
      c ∈ ud.enrolledCourses → io.saveCourse = some e →
      addUserRating db io u c rating = (db, ⟨false, e⟩)) := by
  refine ⟨?_, ?_, ?_, ?_, ?_, ?_, ?_, ?_, ?_, ?_, ?_, ?_, ?_, ?_⟩
  · intro h
    simp [getUserData, h]
  · intro h
    simp [enrollCourse, h]
  · intro h1 h2
    simp [enrollCourse, h1, h2]
  · intro ud cd h1 h2 hu hc hmem h3
    simp [enrollCourse, h1, h2, hu, hc, hmem, h3]
  · intro ud cd h1 h2 hu hc hmem h3 h4
    simp [enrollCourse, h1, h2, hu, hc, hmem, h3, h4]
  · intro h
    simp [userEnrolledCourses, h]
  · intro h hu
    simp [userEnrolledCourses, h, hu]
  · intro h
    simp [updateUserCourseProgress, h]
  · intro i p h hf hmem h2
    simp [updateUserCourseProgress, h, hf, hmem, h2]
  · intro h hf h2
    simp [updateUserCourseProgress, h, hf, h2]
  · intro h
    simp [getUserCourseProgress, h]
  · intro hv h
    simp [addUserRating, hv, h]
  · intro cd hv h hc h2
    simp [addUserRating, hv, h, hc, h2]
  · intro ud cd hv h hc h2 hu hmem h3
    simp [addUserRating, hv, h, hc, h2, hu, hmem, h3]

/-- C19 witness: `userEnrolledCourses` for the user ID `u9`, which has no
record in `db1`. -/
theorem handlers_answer_failures_witness :
    userEnrolledCourses db1 noFaults "u9"
      = (db1, ⟨false, some nullUserMessage, none⟩) :=
  (handlers_answer_failures db1 noFaults "u9" "c1" "l1" (JsVal.num 3) "").2.2.2.2.2.2.1
    rfl (by simp [db1])

/-! ## Notifications of a fetch run -/

theorem profileToast_ne_network (msg : String) :
    profileToast ≠ "Fetch User Data Network Error: " ++ msg := by
  intro h
  have h2 := congrArg String.data h
  simp [profileToast, String.data_append] at h2

theorem profileToast_ne_server (msg : String) :
    profileToast ≠ "Fetch User Data Error: " ++ msg := by
  intro h
  have h2 := congrArg String.data h
  simp [profileToast, String.data_append] at h2

/-- C20: with the identity provider ready, a run that meets `User Not Found`
on all three attempts shows exactly one notification, the profile message,
and none after the first two answers; a thrown error is notified with the
prefix `Fetch User Data Network Error: ` and another server error with the
prefix `Fetch User Data Error: `, and the profile message differs from every
such text. -/
theorem notFound_notification (clerk : Clerk) (hready : clerk.ready = true)
    (outs : Nat → FetchOutcome) (st : ClientState) (fuel : Nat) (hfuel : 3 ≤ fuel)
    (hall : ∀ k, k < 3 → ∃ usr, outs k = .response false "User Not Found" usr) :
    (∃ st', startFetch clerk outs fuel st = some st' ∧ st'.userData = none ∧
      st'.toasts = st.toasts ++ [profileToast]) ∧
    (fetchUserData clerk false (outs 0) st).1.toasts = st.toasts ∧
    (fetchUserData clerk true (outs 1) (fetchUserData clerk false (outs 0) st).1).1.toasts
      = st.toasts ∧
    (∀ isRetry msg st2, (fetchUserData clerk isRetry (.transportError msg) st2).1.toasts
      = st2.toasts ++ ["Fetch User Data Network Error: " ++ msg]) ∧
    (∀ isRetry msg st2, (fetchUserData clerk isRetry (.tokenError msg) st2).1.toasts
      = st2.toasts ++ ["Fetch User Data Network Error: " ++ msg]) ∧
    (∀ isRetry msg usr st2, msg ≠ "User Not Found" →
      (fetchUserData clerk isRetry (.response false msg usr) st2).1.toasts
        = st2.toasts ++ ["Fetch User Data Error: " ++ msg]) ∧
    (∀ msg, profileToast ≠ "Fetch User Data Network Error: " ++ msg) ∧
    (∀ msg, profileToast ≠ "Fetch User Data Error: " ++ msg) := by
  obtain ⟨f, rfl⟩ : ∃ f, fuel = f + 3 := ⟨fuel - 3, by omega⟩
  obtain ⟨u0, h0⟩ := hall 0 (by decide)
  obtain ⟨u1, h1⟩ := hall 1 (by decide)
  obtain ⟨u2, h2⟩ := hall 2 (by decide)
  have a1 := fetchUserData_first_notFound clerk hready u0 st
  have a2 := fetchUserData_retry_notFound clerk hready u1
    (fetchUserData clerk false (.response false "User Not Found" u0) st).1 (by omega)
  have a3 := fetchUserData_third_notFound clerk hready u2
    (fetchUserData clerk true (.response false "User Not Found" u1)
      (fetchUserData clerk false (.response false "User Not Found" u0) st).1).1 (by omega)
  have t1 : (fetchUserData clerk false (.response false "User Not Found" u0) st).1.toasts
      = st.toasts := by
    simp [fetchUserData, hready, fetchOnResponse, setLoading]
  have t2 : (fetchUserData clerk true (.response false "User Not Found" u1)
      (fetchUserData clerk false (.response false "User Not Found" u0) st).1).1.toasts
      = st.toasts := by
    rw [← t1]
    have hlt : (fetchUserData clerk false (.response false "User Not Found" u0)
        st).1.fetchUserAttempt < 3 := by omega
    generalize (fetchUserData clerk false (.response false "User Not Found" u0) st).1 = s1
      at hlt ⊢
    simp [fetchUserData, hready, fetchOnResponse, hlt]
  have t3 : (fetchUserData clerk true (.response false "User Not Found" u2)
      (fetchUserData clerk true (.response false "User Not Found" u1)
        (fetchUserData clerk false (.response false "User Not Found" u0) st).1).1).1.toasts
      = st.toasts ++ [profileToast] := by
    rw [← t2]
    have h3 : (fetchUserData clerk true (.response false "User Not Found" u1)
        (fetchUserData clerk false (.response false "User Not Found" u0)
          st).1).1.fetchUserAttempt = 3 := by omega
    generalize (fetchUserData clerk true (.response false "User Not Found" u1)
        (fetchUserData clerk false (.response false "User Not Found" u0) st).1).1 = s2
      at h3 ⊢
    simp [fetchUserData, hready, fetchOnResponse, setLoading, h3, profileToast]
  refine ⟨⟨_, ?_, a3.2.1, t3⟩, by rw [h0]; exact t1, by rw [h0, h1]; exact t2,
    ?_, ?_, ?_, profileToast_ne_network, profileToast_ne_server⟩
  · show runFetch clerk outs (f + 2 + 1) 0 false st = some _
    rw [runFetch_again clerk outs (f + 2) 0 false st 2000 (by rw [h0]; exact a1.1)]
    show runFetch clerk outs (f + 1 + 1) 1 true _ = some _
    rw [runFetch_again clerk outs (f + 1) 1 true _ 2000 (by rw [h0, h1]; exact a2.1)]
    show runFetch clerk outs (f + 1) 2 true _ = some _
    rw [runFetch_done clerk outs f 2 true _ (by rw [h0, h1, h2]; exact a3.1)]
    rw [h0, h1, h2]
  · intro isRetry msg st2
    cases isRetry <;> simp [fetchUserData, hready, fetchCatch, setLoading]
  · intro isRetry msg st2
    cases isRetry <;> simp [fetchUserData, hready, fetchCatch, setLoading]
  · intro isRetry msg usr st2 hmsg
    cases isRetry <;> simp [fetchUserData, hready, fetchOnResponse, setLoading, hmsg]

/-- C20 witness: the server keeps answering `User Not Found`. -/
theorem notFound_notification_witness :
    ∃ st', startFetch readyClerk (fun _ => userNotFound) 3 initialClient = some st' ∧
      st'.userData = none ∧ st'.toasts = initialClient.toasts ++ [profileToast] :=
  (notFound_notification readyClerk rfl (fun _ => userNotFound) initialClient 3 (by decide)
    (fun _ _ => ⟨none, rfl⟩)).1

/-! ## The enroll handler of the course page -/

/-- C21: when the request was sent and the server answers with the message
`Already Enrolled`, whatever the success flag, the `enrollCourse` handler of
`CourseDetails` shows no error notification, sets `isAlreadyEnrolled` to
true and navigates to `/player/<courseId>`. -/
theorem clientEnroll_alreadyEnrolled (st : DetailsState) (success : Bool)
    (hsent : requestSent st = true) :
    errorToasts (clientEnrollCourse (.response success (some "Already Enrolled")) st).toasts
        = errorToasts st.toasts ∧
      (clientEnrollCourse (.response success (some "Already Enrolled")) st).isAlreadyEnrolled
        = true ∧
      ∃ courseId, st.courseId = some courseId ∧
        (clientEnrollCourse (.response success (some "Already Enrolled")) st).navigated
          = st.navigated ++ ["/player/" ++ courseId] := by
  obtain ⟨cid, loading, ud, already, toasts, nav⟩ := st
  simp only [requestSent, Bool.and_eq_true, Bool.not_eq_true', Option.isSome_iff_exists] at hsent
  obtain ⟨⟨⟨hcid, hload⟩, ⟨l, hud⟩⟩, halready⟩ := hsent
  subst hload hud halready
  cases cid with
  | none => simp [truthyText] at hcid
  | some c =>
    have hc : c ≠ "" := by simpa [truthyText] using hcid
    cases success <;>
      simp [clientEnrollCourse, hc, DetailsState.toast, DetailsState.toPlayer, errorToasts,
        List.filter_append]

/-- C21 witness: the server answers `success: true`, `Already Enrolled`. -/
theorem clientEnroll_alreadyEnrolled_witness :
    errorToasts (clientEnrollCourse (.response true (some "Already Enrolled"))
        detailsPage).toasts = errorToasts detailsPage.toasts ∧
      (clientEnrollCourse (.response true (some "Already Enrolled"))
        detailsPage).isAlreadyEnrolled = true ∧
      ∃ courseId, detailsPage.courseId = some courseId ∧
        (clientEnrollCourse (.response true (some "Already Enrolled")) detailsPage).navigated
          = detailsPage.navigated ++ ["/player/" ++ courseId] :=
  clientEnroll_alreadyEnrolled detailsPage true rfl

/-! ## Pending requests and timers -/

/-- With the identity provider ready, an invocation is its part before the
`await` followed by its part after it. -/
theorem fetchUserData_eq_settle_begin (clerk : Clerk) (hready : clerk.ready = true)
    (isRetry : Bool) (out : FetchOutcome) (st : ClientState) :
    fetchUserData clerk isRetry out st = fetchSettle clerk out (fetchBegin isRetry st) := by
  cases out <;> cases isRetry <;> simp [fetchUserData, fetchSettle, fetchBegin, hready]

theorem stepSession_pending (clerk : Clerk) (s : Session) (e : FetchEvent) :
    (stepSession clerk s e).pending
      ≤ s.pending + (if e == FetchEvent.effect then 1 else 0) := by
  cases e with
  | effect =>
    simp only [stepSession, Session.pending]
    split
    · split <;> (simp; try omega)
    · simp
  | arrive out =>
    simp only [stepSession, Session.pending]
    split
    · simp
    · split <;> (simp; try omega)
  | timer =>
    simp only [stepSession, Session.pending]
    split
    · simp
    · split <;> (simp; try omega)

theorem runEvents_pending (clerk : Clerk) (events : List FetchEvent) :
    ∀ s : Session, (runEvents clerk s events).pending ≤ s.pending + effectCount events := by
  induction events with
  | nil =>
    intro s
    simp [runEvents, effectCount]
  | cons e es ih =>
    intro s
    have h1 := stepSession_pending clerk s e
    have h2 := ih (stepSession clerk s e)
    have h3 : effectCount (e :: es)
        = (if e == FetchEvent.effect then 1 else 0) + effectCount es := by
      simp only [effectCount, List.countP_cons]
      omega
    show (runEvents clerk (stepSession clerk s e) es).pending ≤ _
    omega

/-- C22, as the claim states it, fails: two firings of the effect leave two
requests pending, and a firing of the effect while a retry timer is pending
leaves a request and a timer pending. -/
theorem pending_counterexample :
    (runEvents readyClerk idleSession [.effect, .effect]).pending = 2 ∧
      (runEvents readyClerk idleSession [.effect, .arrive userNotFound, .effect]).inFlight = 1 ∧
      (runEvents readyClerk idleSession [.effect, .arrive userNotFound, .effect]).timers = 1 := by
  refine ⟨?_, ?_, ?_⟩ <;> decide

/-- C22, amended: the number of pending requests and timers never exceeds the
number of effect firings so far, so a single run (one firing from a session
with nothing pending, then only arrivals and timer firings) has at most one
request or timer pending; and with the identity provider ready every firing
of the effect starts a run and adds a pending request, whatever is pending. -/
theorem pending_per_run (clerk : Clerk) (hready : clerk.ready = true) (s : Session)
    (events : List FetchEvent) :
    (runEvents clerk s events).pending ≤ s.pending + effectCount events ∧
      (s.pending = 0 → effectCount events = 0 →
        (runEvents clerk (stepSession clerk s .effect) events).pending ≤ 1) ∧
      (stepSession clerk s .effect).pending = s.pending + 1 := by
  have hstep : (stepSession clerk s .effect).pending = s.pending + 1 := by
    have hl : (clerk.isAuthLoaded && clerk.isUserLoaded) = true := by
      simp only [Clerk.ready, Bool.and_eq_true] at hready
      simp [hready.1.1.1, hready.1.1.2]
    simp only [stepSession, hl, hready, if_true, Session.pending]
    omega
  refine ⟨runEvents_pending clerk events s, ?_, hstep⟩
  intro h0 hcount
  have := runEvents_pending clerk events (stepSession clerk s .effect)
  omega

/-- C22 witness: one run in which the server answers `User Not Found` twice. -/
theorem pending_per_run_witness :
    (runEvents readyClerk idleSession
        [.arrive userNotFound, .timer, .arrive userNotFound, .timer]).pending
        ≤ idleSession.pending
          + effectCount [.arrive userNotFound, .timer, .arrive userNotFound, .timer] ∧
      (idleSession.pending = 0 →
        effectCount [.arrive userNotFound, .timer, .arrive userNotFound, .timer] = 0 →
        (runEvents readyClerk (stepSession readyClerk idleSession .effect)
          [.arrive userNotFound, .timer, .arrive userNotFound, .timer]).pending ≤ 1) ∧
      (stepSession readyClerk idleSession .effect).pending = idleSession.pending + 1 :=
  pending_per_run readyClerk rfl idleSession
    [.arrive userNotFound, .timer, .arrive userNotFound, .timer]

/-! ## Frame of `addUserRating` -/

theorem findIndex_some_spec {α : Type} (p : α → Bool) (l : List α) (i : Nat)
    (h : findIndex p l = some i) : ∃ y, l[i]? = some y ∧ p y = true := by
  induction l generalizing i with
  | nil => simp [findIndex] at h
  | cons a as ih =>
    by_cases hp : p a = true
    · simp only [findIndex, hp, if_true, Option.some.injEq] at h
      subst h
      exact ⟨a, by simp, hp⟩
    · simp only [findIndex, hp, Bool.false_eq_true, if_false, Option.map_eq_some'] at h
      obtain ⟨j, hj, rfl⟩ := h
      obtain ⟨y, hy, hpy⟩ := ih j hj
      exact ⟨y, by simpa using hy, hpy⟩

theorem findIndex_none_spec {α : Type} (p : α → Bool) (l : List α)
    (h : findIndex p l = none) : ∀ a ∈ l, p a = false := by
  induction l with
  | nil => simp
  | cons a as ih =>
    by_cases hp : p a = true
    · simp [findIndex, hp] at h
    · simp only [findIndex, hp, Bool.false_eq_true, if_false, Option.map_eq_none'] at h
      intro b hb
      rcases List.mem_cons.mp hb with rfl | hb
      · simpa using hp
      · exact ih h b hb

theorem length_modifyAt {α : Type} (f : α → α) (l : List α) (i : Nat) :
    (modifyAt f l i).length = l.length := by
  induction l generalizing i with
  | nil => rfl
  | cons a as ih =>
    cases i with
    | zero => simp [modifyAt]
    | succ j => simp [modifyAt, ih j]

/-- The update-or-push leaves the entries of the other users as they are, in
their order. -/
theorem upsertRating_others (l : List CourseRating) (u : String) (v : JsVal) :
    (upsertRating l u v).filter (fun r => r.userId != u)
      = l.filter (fun r => r.userId != u) := by
  unfold upsertRating
  cases h : findIndex (fun r => r.userId == u) l with
  | none => simp [List.filter_append]
  | some i =>
    obtain ⟨y, hy, hpy⟩ := findIndex_some_spec _ _ _ h
    exact filter_modifyAt (fun r : CourseRating => r.userId != u)
      (fun r : CourseRating => { r with rating := v }) (fun a => rfl) l i y hy
      (by simpa using hpy)

theorem upsertRating_length (l : List CourseRating) (u : String) (v : JsVal) :
    ((∀ r ∈ l, r.userId ≠ u) → (upsertRating l u v).length = l.length + 1) ∧
      ((∃ r ∈ l, r.userId = u) → (upsertRating l u v).length = l.length) := by
  unfold upsertRating
  cases h : findIndex (fun r => r.userId == u) l with
  | none =>
    refine ⟨fun _ => by simp, ?_⟩
    rintro ⟨r, hr, hru⟩
    have := findIndex_none_spec _ _ h r hr
    simp [hru] at this
  | some i =>
    refine ⟨?_, fun _ => length_modifyAt _ _ _⟩
    intro hall
    obtain ⟨y, hy, hpy⟩ := findIndex_some_spec _ _ _ h
    exact absurd (by simpa using hpy) (hall y (List.getElem?_mem hy))

/-- C30: after an `addUserRating` request that answers `success: true`, the
rating entries of the other users of the course keep their values and order,
the rating list is one longer when the user had no entry and as long as
before when the user had one, the student list of the course is unchanged,
and every other course, every user and the progress store are unchanged. -/
theorem addUserRating_frame (db : Db) (io : Faults) (u c : String) (rating : JsVal)
    (hsucc : (addUserRating db io u c rating).2.success = true) :
    ∃ cd cd2, db.courses c = some cd ∧
      (addUserRating db io u c rating).1.courses c = some cd2 ∧
      cd2.courseRatings.filter (fun r => r.userId != u)
        = cd.courseRatings.filter (fun r => r.userId != u) ∧
      ((∀ r ∈ cd.courseRatings, r.userId ≠ u) →
        cd2.courseRatings.length = cd.courseRatings.length + 1) ∧
      ((∃ r ∈ cd.courseRatings, r.userId = u) →
        cd2.courseRatings.length = cd.courseRatings.length) ∧
      cd2.enrolledStudents = cd.enrolledStudents ∧
      (∀ c2, c2 ≠ c → (addUserRating db io u c rating).1.courses c2 = db.courses c2) ∧
      (addUserRating db io u c rating).1.users = db.users ∧
      (addUserRating db io u c rating).1.progress = db.progress := by
  by_cases hinv : invalidDetails u c rating = true
  · simp [addUserRating, hinv] at hsucc
  cases hfc : io.findCourse with
  | some e => simp [addUserRating, hinv, hfc] at hsucc
  | none =>
    cases hc : db.courses c with
    | none => simp [addUserRating, hinv, hfc, hc] at hsucc
    | some cd =>
      cases hfu : io.findUser with
      | some e => simp [addUserRating, hinv, hfc, hc, hfu] at hsucc
      | none =>
        cases hu : db.users u with
        | none => simp [addUserRating, hinv, hfc, hc, hfu, hu] at hsucc
        | some ud =>
          by_cases hmem : c ∈ ud.enrolledCourses
          · cases hsc : io.saveCourse with
            | some e => simp [addUserRating, hinv, hfc, hc, hfu, hu, hmem, hsc] at hsucc
            | none =>
              have h : addUserRating db io u c rating =
                  ({ db with
                      courses := Function.update db.courses c
                        (some { cd with
                          courseRatings := upsertRating cd.courseRatings u rating }) },
                    ⟨true, "Rating added"⟩) := by
                simp [addUserRating, hinv, hfc, hc, hfu, hu, hmem, hsc]
              rw [h]
              refine ⟨cd, { cd with courseRatings := upsertRating cd.courseRatings u rating },
                rfl, by simp, upsertRating_others _ _ _, (upsertRating_length _ _ _).1,
                (upsertRating_length _ _ _).2, rfl, ?_, rfl, rfl⟩
              intro c2 h2
              simp [Function.update_noteq h2]
          · simp [addUserRating, hinv, hfc, hc, hfu, hu, hmem] at hsucc

/-- C30 witness: `u1` rates `c1` in `db2`. -/
theorem addUserRating_frame_witness :
    ∃ cd cd2, db2.courses "c1" = some cd ∧
      (addUserRating db2 noFaults "u1" "c1" (JsVal.num 3)).1.courses "c1" = some cd2 ∧
      cd2.courseRatings.filter (fun r => r.userId != "u1")
        = cd.courseRatings.filter (fun r => r.userId != "u1") ∧
      ((∀ r ∈ cd.courseRatings, r.userId ≠ "u1") →
        cd2.courseRatings.length = cd.courseRatings.length + 1) ∧
      ((∃ r ∈ cd.courseRatings, r.userId = "u1") →
        cd2.courseRatings.length = cd.courseRatings.length) ∧
      cd2.enrolledStudents = cd.enrolledStudents ∧
      (∀ c2, c2 ≠ "c1" →
        (addUserRating db2 noFaults "u1" "c1" (JsVal.num 3)).1.courses c2 = db2.courses c2) ∧
      (addUserRating db2 noFaults "u1" "c1" (JsVal.num 3)).1.users = db2.users ∧
      (addUserRating db2 noFaults "u1" "c1" (JsVal.num 3)).1.progress = db2.progress :=
  addUserRating_frame db2 noFaults "u1" "c1" (JsVal.num 3) (by
    rw [addUserRating_ok db2 "u1" "c1" ⟨["c1"]⟩ ⟨["u1"], []⟩ 3 (by simp [db2]) (by simp [db2])
      (by simp) (by decide) (by decide) (by norm_num) (by norm_num)])

/-! ## Enrollment under a race -/

/-- A request that runs alone leaves the store the handler `enrollCourse`
leaves. -/
theorem enrollAlone_eq (db : Db) (u c : String) :
    enrollAlone db u c = (enrollCourse db noFaults u c).1 := by
  unfold enrollAlone enrollReads enrollCourse
  cases hu : db.users u with
  | none => simp [noFaults]
  | some ud =>
    cases hc : db.courses c with
    | none => simp [noFaults]
    | some cd =>
      by_cases hmem : c ∈ ud.enrolledCourses
      · simp [noFaults, hmem]
      · simp [noFaults, hmem, pushCourseSave, pushUserSave, saveCourseEnrolled,
          saveUserEnrolled, hu, hc]

/-- C23, as the claim states it, fails: after two requests of `u1` for `c1`
that both read `db1` before either writes, the user's list holds the course
ID twice and the course's student list holds the user ID twice. -/
theorem enrollRace_counterexample :
    ((enrollRace db1 "u1" "c1").users "u1").map (fun d => d.enrolledCourses.count "c1")
        = some 2 ∧
      ((enrollRace db1 "u1" "c1").courses "c1").map (fun d => d.enrolledStudents.count "u1")
        = some 2 ∧
      ((enrollRaceInterleaved db1 "u1" "c1").users "u1").map
        (fun d => d.enrolledCourses.count "c1") = some 2 := by
  refine ⟨?_, ?_, ?_⟩ <;> decide

/-- C23, amended: for an existing user and course, the user not yet enrolled,
two requests that both read before either writes both append: afterwards the
user's list is the old list followed by the course ID twice and the course's
student list is the old list followed by the user ID twice, whichever way the
four saves interleave; so the write is a list push, and the course ID is in
the user's list twice. -/
theorem enrollRace_appends_twice (db : Db) (u c : String) (ud : User) (cd : Course)
    (hu : db.users u = some ud) (hc : db.courses c = some cd)
    (hmem : c ∉ ud.enrolledCourses) :
    (enrollRace db u c).users u = some ⟨ud.enrolledCourses ++ [c, c]⟩ ∧
      (enrollRace db u c).courses c
        = some ⟨cd.enrolledStudents ++ [u, u], cd.courseRatings⟩ ∧
      enrollRaceInterleaved db u c = enrollRace db u c ∧
      (ud.enrolledCourses ++ [c, c]).count c = 2 := by
  have hr : enrollReads db u c = some (ud, cd) := by
    simp [enrollReads, hu, hc, hmem]
  refine ⟨?_, ?_, ?_, ?_⟩
  · simp [enrollRace, hr, pushCourseSave, pushUserSave, hu]
  · simp [enrollRace, hr, pushCourseSave, pushUserSave, hc]
  · simp [enrollRace, enrollRaceInterleaved, hr, pushCourseSave, pushUserSave]
  · simp [List.count_eq_zero_of_not_mem hmem]

/-- C23 witness: `u1` and `c1` of `db1`. -/
theorem enrollRace_appends_twice_witness :
    (enrollRace db1 "u1" "c1").users "u1" = some ⟨[] ++ ["c1", "c1"]⟩ ∧
      (enrollRace db1 "u1" "c1").courses "c1" = some ⟨[] ++ ["u1", "u1"], []⟩ ∧
      enrollRaceInterleaved db1 "u1" "c1" = enrollRace db1 "u1" "c1" ∧
      (([] : List String) ++ ["c1", "c1"]).count "c1" = 2 :=
  enrollRace_appends_twice db1 "u1" "c1" ⟨[]⟩ ⟨[], []⟩ (by simp [db1]) (by simp [db1])
    (by simp)

/-! ## The educator dashboard -/

theorem collectStudents_inner (title : String) (students : List (Option Student)) :
    ∀ acc : List StudentRow × Nat,
      students.foldl
        (fun acc student =>
          match student with
          | some st => (acc.1 ++ [(⟨title, st⟩ : StudentRow)], acc.2 + 1)
          | none => acc)
        acc
      = (acc.1 ++ students.filterMap (fun s => s.map (fun st => (⟨title, st⟩ : StudentRow))),
          acc.2 + (students.filterMap
            (fun s => s.map (fun st => (⟨title, st⟩ : StudentRow)))).length) := by
  induction students with
  | nil =>
    intro acc
    simp
  | cons s ss ih =>
    intro acc
    cases s with
    | none => simpa using ih acc
    | some st =>
      rw [List.foldl_cons, ih]
      apply Prod.ext
      · simp
      · simp only [List.filterMap_cons, Option.map_some', List.length_cons]
        omega

theorem collectStudents_outer (courses : List OwnedCourse) :
    ∀ acc : List StudentRow × Nat,
      courses.foldl
        (fun acc course =>
          course.enrolledStudents.foldl
            (fun acc student =>
              match student with
              | some st => (acc.1 ++ [⟨course.courseTitle, st⟩], acc.2 + 1)
              | none => acc)
            acc)
        acc
      = (acc.1 ++ courses.flatMap pairsOf, acc.2 + (courses.flatMap pairsOf).length) := by
  induction courses with
  | nil =>
    intro acc
    simp
  | cons course cs ih =>
    intro acc
    rw [List.foldl_cons, collectStudents_inner course.courseTitle course.enrolledStudents acc,
      ih]
    apply Prod.ext
    · simp [List.flatMap_cons, pairsOf]
    · simp only [List.flatMap_cons, pairsOf, List.length_append]
      omega

/-- The loops collect all pairs in order and count them. -/
theorem collectStudents_eq (courses : List OwnedCourse) :
    collectStudents courses
      = (courses.flatMap pairsOf, (courses.flatMap pairsOf).length) := by
  simp [collectStudents, collectStudents_outer]

theorem insertRow_perm {α : Type} (le : α → α → Bool) (x : α) (l : List α) :
    (insertRow le x l).Perm (x :: l) := by
  induction l with
  | nil => exact List.Perm.refl _
  | cons y ys ih =>
    unfold insertRow
    split
    · exact List.Perm.refl _
    · exact (List.Perm.cons y ih).trans (List.Perm.swap x y ys)

/-- The sort rearranges the list. -/
theorem sortBy_perm {α : Type} (le : α → α → Bool) (l : List α) : (sortBy le l).Perm l := by
  induction l with
  | nil => exact List.Perm.refl _
  | cons x xs ih =>
    have h : sortBy le (x :: xs) = insertRow le x (sortBy le xs) := rfl
    rw [h]
    exact (insertRow_perm le x _).trans (List.Perm.cons x ih)

theorem sortBy_length {α : Type} (le : α → α → Bool) (l : List α) :
    (sortBy le l).length = l.length :=
  (sortBy_perm le l).length_eq

theorem insertRow_sorted {α : Type} (le : α → α → Bool) (S : α → Prop)
    (htrans : ∀ a b c, S a → S b → S c → le a b = true → le b c = true → le a c = true)
    (htotal : ∀ a b, S a → S b → le a b = true ∨ le b a = true)
    (x : α) (hx : S x) (l : List α) (hl : ∀ y ∈ l, S y)
    (hs : l.Pairwise (fun a b => le a b = true)) :
    (insertRow le x l).Pairwise (fun a b => le a b = true) := by
  induction l with
  | nil => simp [insertRow]
  | cons y ys ih =>
    have hy : S y := hl y (List.mem_cons_self _ _)
    have hys : ∀ z ∈ ys, S z := fun z hz => hl z (List.mem_cons_of_mem _ hz)
    rw [List.pairwise_cons] at hs
    unfold insertRow
    split
    · rename_i hxy
      rw [List.pairwise_cons]
      refine ⟨?_, List.pairwise_cons.mpr hs⟩
      intro z hz
      rcases List.mem_cons.mp hz with rfl | hz
      · exact hxy
      · exact htrans x y z hx hy (hys z hz) hxy (hs.1 z hz)
    · rename_i hxy
      rw [List.pairwise_cons]
      refine ⟨?_, ih hys hs.2⟩
      intro z hz
      rcases List.mem_cons.mp ((insertRow_perm le x ys).mem_iff.mp hz) with rfl | hz
      · rcases htotal z y hx hy with h | h
        · exact absurd h hxy
        · exact h
      · exact hs.1 z hz

/-- The sort puts in order a list on whose elements the comparator is
transitive and total. -/
theorem sortBy_sorted {α : Type} (le : α → α → Bool) (S : α → Prop)
    (htrans : ∀ a b c, S a → S b → S c → le a b = true → le b c = true → le a c = true)
    (htotal : ∀ a b, S a → S b → le a b = true ∨ le b a = true)
    (l : List α) (hl : ∀ y ∈ l, S y) :
    (sortBy le l).Pairwise (fun a b => le a b = true) := by
  induction l with
  | nil => simp [sortBy]
  | cons x xs ih =>
    have h : sortBy le (x :: xs) = insertRow le x (sortBy le xs) := rfl
    rw [h]
    apply insertRow_sorted le S htrans htotal x (hl x (List.mem_cons_self _ _))
    · intro y hy
      exact hl y (List.mem_cons_of_mem _ ((sortBy_perm le xs).mem_iff.mp hy))
    · exact ih (fun y hy => hl y (List.mem_cons_of_mem _ hy))

/-- On two rows with valid dates the comparator says which is not older. -/
theorem newerFirst_valid (a b : StudentRow) (ta tb : Int)
    (ha : timeValue a.student.createdAt = some ta)
    (hb : timeValue b.student.createdAt = some tb) :
    newerFirst a b = true ↔ tb ≤ ta := by
  simp only [newerFirst, mayPrecede, dateDiff, ha, hb, Option.getD_some, decide_eq_true_eq]
  omega

/-- C24, amended: when the query does not fail and every (course, non-null
student) pair of the courses of the educator has a valid `createdAt` date,
the list `enrolledStudentsData` of `educatorDashboardData` has as many entries
as the smaller of ten and the number of pairs, is sorted by
`student.createdAt` in descending order, and together with an omitted rest is
a rearrangement of all the pairs, every omitted pair being no later than every
returned one. -/
theorem dashboard_latest_ten (courses : List OwnedCourse) (educator : String)
    (hvalid : ∀ r ∈ studentPairs courses educator,
      ∃ t, timeValue r.student.createdAt = some t) :
    ∃ d, (educatorDashboardData courses none educator).data = some d ∧
      d.enrolledStudentsData.length = min 10 (studentPairs courses educator).length ∧
      d.enrolledStudentsData.length ≤ 10 ∧
      d.enrolledStudentsData.Pairwise
        (fun a b => ∃ ta tb, timeValue a.student.createdAt = some ta ∧
          timeValue b.student.createdAt = some tb ∧ tb ≤ ta) ∧
      ∃ omitted, (d.enrolledStudentsData ++ omitted).Perm (studentPairs courses educator) ∧
        ∀ r ∈ d.enrolledStudentsData, ∀ o ∈ omitted,
          ∃ tr tl, timeValue r.student.createdAt = some tr ∧
            timeValue o.student.createdAt = some tl ∧ tl ≤ tr := by
  have hperm := sortBy_perm newerFirst (studentPairs courses educator)
  have hsorted : (sortBy newerFirst (studentPairs courses educator)).Pairwise
      (fun a b => newerFirst a b = true) := by
    apply sortBy_sorted newerFirst
      (fun r => ∃ t, timeValue r.student.createdAt = some t) ?_ ?_ _ hvalid
    · rintro a b c ⟨ta, ha⟩ ⟨tb, hb⟩ ⟨tc, hc⟩ hab hbc
      rw [newerFirst_valid a b ta tb ha hb] at hab
      rw [newerFirst_valid b c tb tc hb hc] at hbc
      rw [newerFirst_valid a c ta tc ha hc]
      omega
    · rintro a b ⟨ta, ha⟩ ⟨tb, hb⟩
      rw [newerFirst_valid a b ta tb ha hb, newerFirst_valid b a tb ta hb ha]
      omega
  have hmem : ∀ r ∈ sortBy newerFirst (studentPairs courses educator),
      ∃ t, timeValue r.student.createdAt = some t :=
    fun r hr => hvalid r (hperm.mem_iff.mp hr)
  have hdates : ∀ a ∈ sortBy newerFirst (studentPairs courses educator),
      ∀ b ∈ sortBy newerFirst (studentPairs courses educator), newerFirst a b = true →
      ∃ ta tb, timeValue a.student.createdAt = some ta ∧
        timeValue b.student.createdAt = some tb ∧ tb ≤ ta := by
    intro a ha b hb hab
    obtain ⟨ta, hta⟩ := hmem a ha
    obtain ⟨tb, htb⟩ := hmem b hb
    exact ⟨ta, tb, hta, htb, (newerFirst_valid a b ta tb hta htb).mp hab⟩
  have hsorted2 : (sortBy newerFirst (studentPairs courses educator)).Pairwise
      (fun a b => ∃ ta tb, timeValue a.student.createdAt = some ta ∧
        timeValue b.student.createdAt = some tb ∧ tb ≤ ta) :=
    (List.Pairwise.and_mem.mp hsorted).imp (fun h => hdates _ h.1 _ h.2.1 h.2.2)
  refine ⟨⟨0, (sortBy newerFirst (studentPairs courses educator)).take 10,
    (studentPairs courses educator).length, (findByEducator courses educator).length⟩,
    ?_, ?_, ?_, ?_, ?_⟩
  · simp [educatorDashboardData, collectStudents_eq, studentPairs]
  · simp only [List.length_take, sortBy_length]
  · simp only [List.length_take]
    omega
  · exact hsorted2.take
  · refine ⟨(sortBy newerFirst (studentPairs courses educator)).drop 10, ?_, ?_⟩
    · rw [List.take_append_drop]
      exact hperm
    · have happ := hsorted2
      rw [← List.take_append_drop 10 (sortBy newerFirst (studentPairs courses educator)),
        List.pairwise_append] at happ
      intro r hr o ho
      exact happ.2.2 r hr o ho

/-- C24 witness: two courses of the educator `e1` with twelve students
between them, created at the times `1` to `12`. -/
theorem dashboard_latest_ten_witness :
    ∃ d, (educatorDashboardData twelveStudents none "e1").data = some d ∧
      d.enrolledStudentsData.length = min 10 (studentPairs twelveStudents "e1").length ∧
      d.enrolledStudentsData.length ≤ 10 ∧
      d.enrolledStudentsData.Pairwise
        (fun a b => ∃ ta tb, timeValue a.student.createdAt = some ta ∧
          timeValue b.student.createdAt = some tb ∧ tb ≤ ta) ∧
      ∃ omitted, (d.enrolledStudentsData ++ omitted).Perm (studentPairs twelveStudents "e1") ∧
        ∀ r ∈ d.enrolledStudentsData, ∀ o ∈ omitted,
          ∃ tr tl, timeValue r.student.createdAt = some tr ∧
            timeValue o.student.createdAt = some tl ∧ tl ≤ tr :=
  dashboard_latest_ten twelveStudents "e1" (by
    have h : ∀ r ∈ studentPairs twelveStudents "e1",
        (timeValue r.student.createdAt).isSome = true := by decide
    intro r hr
    exact Option.isSome_iff_exists.mp (h r hr))

/-- C24 counterexample: with `Ann` (time `1`), `Bob` (no `createdAt`) and `Cy`
(time `3`) enrolled in this order, every comparison the sort makes involves
`Bob` and yields `NaN`, so the list is left as it is: `Ann` stands before `Cy`,
who is newer. The list is not in descending order even among the rows whose
dates are valid. -/
theorem dashboard_invalidDate_counterexample :
    (educatorDashboardData datedCourses none "e1").data
      = some ⟨0, [⟨"Course A", ⟨"Ann", "", some 1⟩⟩, ⟨"Course A", ⟨"Bob", "", none⟩⟩,
          ⟨"Course A", ⟨"Cy", "", some 3⟩⟩], 3, 1⟩ ∧
    ¬ ([⟨"Course A", ⟨"Ann", "", some 1⟩⟩, ⟨"Course A", ⟨"Bob", "", none⟩⟩,
        ⟨"Course A", ⟨"Cy", "", some 3⟩⟩] : List StudentRow).Pairwise
      (fun a b => ∀ ta tb, timeValue a.student.createdAt = some ta →
        timeValue b.student.createdAt = some tb → tb ≤ ta) := by
  constructor
  · decide
  · intro h
    have h13 := (List.pairwise_cons.mp h).1 ⟨"Course A", ⟨"Cy", "", some 3⟩⟩ (by simp)
      1 3 (by decide) (by decide)
    omega

theorem collectEnrolled_inner (title : String) (students : List (Option Student)) :
    ∀ acc : List EnrolledRow,
      (students.foldl
        (fun acc student =>
          match student with
          | some st => acc ++ [(⟨st, title, st.createdAt⟩ : EnrolledRow)]
          | none => acc)
        acc).length
      = acc.length + (students.filter Option.isSome).length := by
  induction students with
  | nil =>
    intro acc
    simp
  | cons s ss ih =>
    intro acc
    cases s with
    | none => simpa using ih acc
    | some st =>
      rw [List.foldl_cons, ih]
      simp only [List.length_append, List.length_singleton, List.filter_cons,
        Option.isSome_some, if_true, List.length_cons, List.length_nil]
      omega

theorem collectEnrolled_outer (courses : List OwnedCourse) :
    ∀ acc : List EnrolledRow,
      (courses.foldl
        (fun acc course =>
          course.enrolledStudents.foldl
            (fun acc student =>
              match student with
              | some st => acc ++ [⟨st, course.courseTitle, st.createdAt⟩]
              | none => acc)
            acc)
        acc).length
      = acc.length
        + (courses.map
            (fun course => (course.enrolledStudents.filter Option.isSome).length)).sum := by
  induction courses with
  | nil =>
    intro acc
    simp
  | cons course cs ih =>
    intro acc
    rw [List.foldl_cons, ih, collectEnrolled_inner course.courseTitle course.enrolledStudents acc]
    simp only [List.map_cons, List.sum_cons]
    omega

theorem pairsOf_length (course : OwnedCourse) :
    (pairsOf course).length = (course.enrolledStudents.filter Option.isSome).length := by
  unfold pairsOf
  induction course.enrolledStudents with
  | nil => rfl
  | cons s ss ih =>
    cases s with
    | none => simpa using ih
    | some st => simp [ih]

theorem studentPairs_length (courses : List OwnedCourse) (educator : String) :
    (studentPairs courses educator).length = enrollmentTotal courses educator := by
  unfold studentPairs enrollmentTotal
  induction findByEducator courses educator with
  | nil => rfl
  | cons course cs ih => simp [List.flatMap_cons, pairsOf_length, ih]

/-- C25: when the queries do not fail, `totalEnrollments` of
`educatorDashboardData` is the number of non-null enrolled-student entries
summed over the courses of the educator, which is the length of the list
`getEnrolledStudentsData` returns; it is not capped at ten, the list sent
being as long as the smaller of ten and `totalEnrollments`; and
`totalCourses` is the number of courses of the educator. -/
theorem dashboard_totals (courses : List OwnedCourse) (educator : String) :
    ∃ d rows, (educatorDashboardData courses none educator).data = some d ∧
      (getEnrolledStudentsData courses none educator).data = some rows ∧
      d.totalEnrollments = enrollmentTotal courses educator ∧
      d.totalEnrollments = rows.length ∧
      d.enrolledStudentsData.length = min 10 d.totalEnrollments ∧
      d.totalCourses = (courses.filter (fun course => course.educator == educator)).length := by
  refine ⟨⟨0, (sortBy newerFirst (studentPairs courses educator)).take 10,
    (studentPairs courses educator).length, (findByEducator courses educator).length⟩,
    sortBy (fun a b => mayPrecede (dateDiff b.enrollmentDate a.enrollmentDate))
      (collectEnrolled (findByEducator courses educator)),
    ?_, ?_, ?_, ?_, ?_, ?_⟩
  · simp [educatorDashboardData, collectStudents_eq, studentPairs]
  · simp [getEnrolledStudentsData]
  · exact studentPairs_length courses educator
  · simp only [sortBy_length, collectEnrolled, collectEnrolled_outer,
      studentPairs_length, enrollmentTotal, List.length_nil, Nat.zero_add]
  · simp [List.length_take, sortBy_length]
  · rfl

/-! ## The video ID of a lecture URL -/

theorem isIdChar_not_space (c : Char) (h : isIdChar c = true) : isJsSpace c = false := by
  simp only [isIdChar, isJsSpace, Bool.or_eq_true, Bool.and_eq_true, decide_eq_true_eq,
    beq_iff_eq] at h
  simp only [isJsSpace, Bool.or_eq_false_iff, Bool.and_eq_false_imp, decide_eq_true_eq,
    decide_eq_false_iff_not, beq_eq_false_iff_ne, ne_eq]
  generalize c.toNat = n at *
  omega

theorem idAt_some (s r : List Char) (h : idAt s = some r) :
    r = s.take 11 ∧ r.length = 11 ∧ ∀ c ∈ r, isIdChar c = true := by
  unfold idAt at h
  split at h
  · rename_i hc
    simp only [Option.some.injEq] at h
    subst h
    exact ⟨rfl, hc.1, by simpa using hc.2⟩
  · simp at h

theorem idAt_append (run post : List Char) (hlen : run.length = 11)
    (hall : ∀ c ∈ run, isIdChar c = true) : idAt (run ++ post) = some run := by
  have htake : (run ++ post).take 11 = run := by
    rw [← hlen]
    simp
  simpa [idAt, htake, hlen] using hall

theorem matchAt_some (lits : List (List Char)) (s r : List Char)
    (h : matchAt lits s = some r) :
    ∃ lit post, lit ∈ lits ∧ s = lit ++ r ++ post ∧ r.length = 11 ∧
      ∀ c ∈ r, isIdChar c = true := by
  unfold matchAt at h
  obtain ⟨lit, hlit, hsome⟩ := List.exists_of_findSome?_eq_some h
  split at hsome
  · rename_i hpre
    obtain ⟨hr, hlen, hall⟩ := idAt_some _ _ hsome
    obtain ⟨t, ht⟩ := List.isPrefixOf_iff_prefix.mp hpre
    refine ⟨lit, t.drop 11, hlit, ?_, hlen, hall⟩
    subst ht
    simp only [List.drop_left'] at hr
    rw [hr, List.append_assoc, List.take_append_drop]
  · simp at hsome

theorem search_some (lits : List (List Char)) (s r : List Char)
    (h : search lits s = some r) :
    ∃ pre lit post, lit ∈ lits ∧ s = pre ++ lit ++ r ++ post ∧ r.length = 11 ∧
      ∀ c ∈ r, isIdChar c = true := by
  induction s with
  | nil =>
    obtain ⟨lit, post, hl, hs, hlen, hall⟩ := matchAt_some _ _ _ h
    exact ⟨[], lit, post, hl, by simpa using hs, hlen, hall⟩
  | cons c cs ih =>
    simp only [search] at h
    cases hm : matchAt lits (c :: cs) with
    | some r2 =>
      rw [hm] at h
      simp only [Option.some.injEq] at h
      subst h
      obtain ⟨lit, post, hl, hs, hlen, hall⟩ := matchAt_some _ _ _ hm
      exact ⟨[], lit, post, hl, by simpa using hs, hlen, hall⟩
    | none =>
      rw [hm] at h
      obtain ⟨pre, lit, post, hl, hs, hlen, hall⟩ := ih h
      exact ⟨c :: pre, lit, post, hl, by simp [hs], hlen, hall⟩

theorem search_cons_some (lits : List (List Char)) (c : Char) (cs r : List Char)
    (h : matchAt lits (c :: cs) = some r) : search lits (c :: cs) = some r := by
  simp only [search, h]

theorem search_cons_none (lits : List (List Char)) (c : Char) (cs : List Char)
    (h : matchAt lits (c :: cs) = none) : search lits (c :: cs) = search lits cs := by
  simp only [search, h]

theorem search_of_matchAt (lits : List (List Char)) (t r : List Char)
    (h : matchAt lits t = some r) : search lits t = some r := by
  cases t with
  | nil => simpa [search] using h
  | cons c cs => exact search_cons_some lits c cs r h

theorem search_append_some (lits : List (List Char)) (pre rest r : List Char)
    (h : matchAt lits rest = some r) : ∃ r2, search lits (pre ++ rest) = some r2 := by
  induction pre with
  | nil => exact ⟨r, search_of_matchAt lits rest r h⟩
  | cons c pre ih =>
    cases hm : matchAt lits (c :: (pre ++ rest)) with
    | some r2 => exact ⟨r2, search_cons_some lits c _ r2 hm⟩
    | none =>
      obtain ⟨r2, hr2⟩ := ih
      exact ⟨r2, by rw [List.cons_append, search_cons_none lits c _ hm, hr2]⟩

theorem search_any_of_run (t : List Char) (h : hasRun t) : ∃ r, search anyLits t = some r := by
  obtain ⟨pre, run, post, rfl, hlen, hall⟩ := h
  have hm : matchAt anyLits (run ++ post) = some run := by
    simp [matchAt, anyLits, idAt_append run post hlen hall]
  rw [List.append_assoc]
  exact search_append_some anyLits pre (run ++ post) run hm

theorem matchAt_none_of_first (lits : List (List Char)) (s : List Char)
    (h : ∀ lit ∈ lits, ∃ a rest, lit = a :: rest ∧ a ∉ s) : matchAt lits s = none := by
  unfold matchAt
  rw [List.findSome?_eq_none_iff]
  intro lit hlit
  obtain ⟨a, rest, rfl, ha⟩ := h lit hlit
  cases s with
  | nil => simp [List.isPrefixOf]
  | cons b bs =>
    have hab : (a == b) = false := by
      simp only [beq_eq_false_iff_ne, ne_eq]
      rintro rfl
      exact ha (List.mem_cons_self _ _)
    simp [List.isPrefixOf, hab]

theorem search_none_of_first (lits : List (List Char)) (s : List Char)
    (h : ∀ lit ∈ lits, ∃ a rest, lit = a :: rest ∧ a ∉ s) : search lits s = none := by
  induction s with
  | nil => simpa [search] using matchAt_none_of_first lits [] h
  | cons c cs ih =>
    have h2 : ∀ lit ∈ lits, ∃ a rest, lit = a :: rest ∧ a ∉ cs := by
      intro lit hlit
      obtain ⟨a, rest, hl, ha⟩ := h lit hlit
      exact ⟨a, rest, hl, fun hmem => ha (List.mem_cons_of_mem _ hmem)⟩
    simp [search, matchAt_none_of_first lits (c :: cs) h, ih h2]

/-- No literal that holds a character outside the class matches inside a text
of class characters. -/
theorem search_none_of_class (lits : List (List Char)) (s : List Char)
    (hs : ∀ c ∈ s, isIdChar c = true)
    (h : ∀ lit ∈ lits, ∃ a ∈ lit, isIdChar a = false) : search lits s = none := by
  have hm : ∀ t : List Char, (∀ c ∈ t, isIdChar c = true) → matchAt lits t = none := by
    intro t ht
    unfold matchAt
    rw [List.findSome?_eq_none_iff]
    intro lit hlit
    obtain ⟨a, ha, hna⟩ := h lit hlit
    have hnp : lit.isPrefixOf t = false := by
      cases hp : lit.isPrefixOf t with
      | false => rfl
      | true =>
        obtain ⟨u, hu⟩ := List.isPrefixOf_iff_prefix.mp hp
        have : isIdChar a = true := ht a (by rw [← hu]; exact List.mem_append_left _ ha)
        rw [hna] at this
        exact absurd this (by decide)
    simp [hnp]
  induction s with
  | nil => simpa [search] using hm [] (by simp)
  | cons c cs ih =>
    simp [search, hm (c :: cs) hs, ih (fun x hx => hs x (List.mem_cons_of_mem _ hx))]

example (id : List Char) (hlen : id.length = 11) (hall : ∀ c ∈ id, isIdChar c = true) :
    search vLits ("https://www.youtube.com/watch?v=".data ++ id) = some id := by
  have hid := idAt_append id [] hlen hall
  simp only [List.append_nil] at hid
  simp [search, matchAt, vLits, List.isPrefixOf, hid]

theorem dropWhile_space_append (w body : List Char) (hw : ∀ c ∈ w, isJsSpace c = true) :
    (w ++ body).dropWhile isJsSpace = body.dropWhile isJsSpace := by
  induction w with
  | nil => rfl
  | cons c cs ih =>
    have hc := hw c (List.mem_cons_self _ _)
    simp [List.dropWhile, hc, ih (fun x hx => hw x (List.mem_cons_of_mem _ hx))]

theorem dropWhile_of_head {p : Char → Bool} (l : List Char)
    (h : ∀ a ∈ l.head?, p a = false) : l.dropWhile p = l := by
  cases l with
  | nil => rfl
  | cons a as =>
    have := h a (by simp)
    simp [List.dropWhile, this]

/-- Trimming removes the white space around a non-empty text that starts and
ends with characters that are not white space. -/
theorem jsTrim_padded (w1 w2 body : List Char) (hne : body ≠ [])
    (hw1 : ∀ c ∈ w1, isJsSpace c = true) (hw2 : ∀ c ∈ w2, isJsSpace c = true)
    (hfirst : ∀ a ∈ body.head?, isJsSpace a = false)
    (hlast : ∀ b ∈ body.getLast?, isJsSpace b = false) :
    jsTrim (w1 ++ body ++ w2) = body := by
  unfold jsTrim
  rw [List.append_assoc, dropWhile_space_append w1 _ hw1]
  rw [dropWhile_of_head (body ++ w2) (by
    intro a ha
    apply hfirst a
    cases body with
    | nil => exact absurd rfl hne
    | cons b bs => simpa using ha)]
  rw [List.reverse_append, dropWhile_space_append w2.reverse _
    (fun c hc => hw2 c (List.mem_reverse.mp hc))]
  rw [dropWhile_of_head body.reverse (by
    intro a ha
    apply hlast a
    simpa [List.head?_reverse] using ha)]
  exact List.reverse_reverse body

theorem isIdChar_ne (c d : Char) (hc : isIdChar c = true) (hd : isIdChar d = false) :
    d ≠ c := by
  rintro rfl
  rw [hc] at hd
  exact absurd hd (by decide)

/-- The text around a video ID of the three URL forms, trimmed. -/
theorem jsTrim_url (w1 w2 pre id : List Char) (a : Char) (rest : List Char)
    (hpre : pre = a :: rest) (ha : isJsSpace a = false)
    (hlen : id.length = 11) (hall : ∀ c ∈ id, isIdChar c = true)
    (hw1 : ∀ c ∈ w1, isJsSpace c = true) (hw2 : ∀ c ∈ w2, isJsSpace c = true) :
    jsTrim (w1 ++ (pre ++ id) ++ w2) = pre ++ id := by
  apply jsTrim_padded w1 w2 (pre ++ id) (by simp [hpre]) hw1 hw2
  · intro x hx
    simp only [hpre, List.cons_append, List.head?_cons, Option.mem_def,
      Option.some.injEq] at hx
    subst hx
    exact ha
  · intro x hx
    have hid : id ≠ [] := by
      intro h
      simp [h] at hlen
    rw [List.getLast?_append_of_ne_nil _ hid] at hx
    exact isIdChar_not_space x (hall x (List.mem_of_mem_getLast? hx))

theorem extractId_watch (id : List Char) (hlen : id.length = 11)
    (hall : ∀ c ∈ id, isIdChar c = true) :
    extractId ("https://www.youtube.com/watch?v=".data ++ id) = some id := by
  have hid := idAt_append id [] hlen hall
  simp only [List.append_nil] at hid
  have hv : search vLits ("https://www.youtube.com/watch?v=".data ++ id) = some id := by
    simp [search, matchAt, vLits, List.isPrefixOf, hid]
  unfold extractId
  rw [hv]

theorem search_vLits_none (pre id : List Char) (hpre : '?' ∉ pre ∧ '&' ∉ pre)
    (hall : ∀ c ∈ id, isIdChar c = true) : search vLits (pre ++ id) = none := by
  apply search_none_of_first
  intro lit hlit
  simp only [vLits, List.mem_cons, List.mem_singleton, List.not_mem_nil, or_false] at hlit
  rcases hlit with rfl | rfl
  · refine ⟨'?', _, rfl, ?_⟩
    simp only [List.mem_append, not_or]
    exact ⟨hpre.1, fun h => absurd (hall _ h) (by decide)⟩
  · refine ⟨'&', _, rfl, ?_⟩
    simp only [List.mem_append, not_or]
    exact ⟨hpre.2, fun h => absurd (hall _ h) (by decide)⟩

theorem extractId_short (id : List Char) (hlen : id.length = 11)
    (hall : ∀ c ∈ id, isIdChar c = true) :
    extractId ("https://youtu.be/".data ++ id) = some id := by
  have hid := idAt_append id [] hlen hall
  simp only [List.append_nil] at hid
  have hv := search_vLits_none "https://youtu.be/".data id (by decide) hall
  have hs : search shortLits ("https://youtu.be/".data ++ id) = some id := by
    simp [search, matchAt, shortLits, List.isPrefixOf, hid]
  unfold extractId
  rw [hv, hs]

theorem extractId_embed (id : List Char) (hlen : id.length = 11)
    (hall : ∀ c ∈ id, isIdChar c = true) :
    extractId ("https://www.youtube.com/embed/".data ++ id) = some id := by
  have hid := idAt_append id [] hlen hall
  simp only [List.append_nil] at hid
  have hv := search_vLits_none "https://www.youtube.com/embed/".data id (by decide) hall
  have htail : search [['y', 'o', 'u', 't', 'u', '.', 'b', 'e', '/']] id = none := by
    apply search_none_of_class _ _ hall
    intro lit hlit
    simp only [List.mem_singleton] at hlit
    subst hlit
    exact ⟨'.', by decide, by decide⟩
  have hs : search shortLits ("https://www.youtube.com/embed/".data ++ id) = none := by
    simp [search, matchAt, shortLits, List.isPrefixOf, htail]
  have he : search embedLits ("https://www.youtube.com/embed/".data ++ id) = some id := by
    simp [search, matchAt, embedLits, List.isPrefixOf, hid]
  unfold extractId
  rw [hv, hs, he]

theorem getYouTubeVideoId_padded (w1 w2 pre id : String) (a : Char) (rest : List Char)
    (hpre : pre.data = a :: rest) (ha : isJsSpace a = false)
    (hlen : id.length = 11) (hall : ∀ c ∈ id.data, isIdChar c = true)
    (hw1 : ∀ c ∈ w1.data, isJsSpace c = true) (hw2 : ∀ c ∈ w2.data, isJsSpace c = true)
    (hex : extractId (pre.data ++ id.data) = some id.data) :
    getYouTubeVideoId (.str (w1 ++ pre ++ id ++ w2)) = some id := by
  have hdata : (w1 ++ pre ++ id ++ w2).data = w1.data ++ (pre.data ++ id.data) ++ w2.data := by
    simp [String.data_append]
  have hne : (w1 ++ pre ++ id ++ w2) ≠ "" := by
    intro h
    have h2 := congrArg String.data h
    rw [hdata, hpre] at h2
    simp at h2
  simp only [getYouTubeVideoId, hne, if_false, hdata]
  rw [jsTrim_url w1.data w2.data pre.data id.data a rest hpre ha hlen hall hw1 hw2, hex]
  rfl

/-- C26: for an ID of eleven characters of `[A-Za-z0-9_-]`, `getYouTubeVideoId`
returns the ID for the watch, short and embed forms of the URL, also with
white space around the URL, and returns `null` for the empty string, for a
missing argument and for an argument that is not a string. -/
theorem getYouTubeVideoId_urls (id w1 w2 : String) (hlen : id.length = 11)
    (hall : ∀ c ∈ id.data, isIdChar c = true)
    (hw1 : ∀ c ∈ w1.data, isJsSpace c = true) (hw2 : ∀ c ∈ w2.data, isJsSpace c = true) :
    getYouTubeVideoId (.str (w1 ++ "https://www.youtube.com/watch?v=" ++ id ++ w2)) = some id ∧
      getYouTubeVideoId (.str (w1 ++ "https://youtu.be/" ++ id ++ w2)) = some id ∧
      getYouTubeVideoId (.str (w1 ++ "https://www.youtube.com/embed/" ++ id ++ w2)) = some id ∧
      getYouTubeVideoId (.str "") = none ∧
      getYouTubeVideoId .absent = none ∧
      ∀ t, getYouTubeVideoId (.other t) = none := by
  refine ⟨?_, ?_, ?_, rfl, rfl, fun _ => rfl⟩
  · exact getYouTubeVideoId_padded w1 w2 "https://www.youtube.com/watch?v=" id 'h'
      "ttps://www.youtube.com/watch?v=".data rfl (by decide) hlen hall hw1 hw2
      (extractId_watch id.data hlen hall)
  · exact getYouTubeVideoId_padded w1 w2 "https://youtu.be/" id 'h'
      "ttps://youtu.be/".data rfl (by decide) hlen hall hw1 hw2
      (extractId_short id.data hlen hall)
  · exact getYouTubeVideoId_padded w1 w2 "https://www.youtube.com/embed/" id 'h'
      "ttps://www.youtube.com/embed/".data rfl (by decide) hlen hall hw1 hw2
      (extractId_embed id.data hlen hall)

/-- C26 witness: the ID `dQw4w9WgXcQ`, a blank before the URL and two after it. -/
theorem getYouTubeVideoId_urls_witness :
    getYouTubeVideoId (.str (" " ++ "https://www.youtube.com/watch?v=" ++ "dQw4w9WgXcQ" ++ "  "))
        = some "dQw4w9WgXcQ" ∧
      getYouTubeVideoId (.str (" " ++ "https://youtu.be/" ++ "dQw4w9WgXcQ" ++ "  "))
        = some "dQw4w9WgXcQ" ∧
      getYouTubeVideoId (.str (" " ++ "https://www.youtube.com/embed/" ++ "dQw4w9WgXcQ" ++ "  "))
        = some "dQw4w9WgXcQ" ∧
      getYouTubeVideoId (.str "") = none ∧
      getYouTubeVideoId .absent = none ∧
      ∀ t, getYouTubeVideoId (.other t) = none :=
  getYouTubeVideoId_urls "dQw4w9WgXcQ" " " "  " (by decide) (by decide) (by decide) (by decide)

theorem extractId_some (t r : List Char) (h : extractId t = some r) :
    ∃ pre post, t = pre ++ r ++ post ∧ r.length = 11 ∧ ∀ c ∈ r, isIdChar c = true := by
  have key : ∀ lits, search lits t = some r →
      ∃ pre post, t = pre ++ r ++ post ∧ r.length = 11 ∧ ∀ c ∈ r, isIdChar c = true := by
    intro lits hs
    obtain ⟨pre, lit, post, _, ht, hlen, hall⟩ := search_some lits t r hs
    exact ⟨pre ++ lit, post, ht, hlen, hall⟩
  unfold extractId at h
  cases h1 : search vLits t with
  | some r1 =>
    rw [h1] at h
    exact key vLits (by rw [h1]; exact h)
  | none =>
    rw [h1] at h
    cases h2 : search shortLits t with
    | some r2 =>
      rw [h2] at h
      exact key shortLits (by rw [h2]; exact h)
    | none =>
      rw [h2] at h
      cases h3 : search embedLits t with
      | some r3 =>
        rw [h3] at h
        exact key embedLits (by rw [h3]; exact h)
      | none =>
        rw [h3] at h
        exact key anyLits h

theorem extractId_of_run (t : List Char) (h : hasRun t) : ∃ r, extractId t = some r := by
  obtain ⟨r, hr⟩ := search_any_of_run t h
  unfold extractId
  cases h1 : search vLits t with
  | some r1 => exact ⟨r1, rfl⟩
  | none =>
    cases h2 : search shortLits t with
    | some r2 => exact ⟨r2, rfl⟩
    | none =>
      cases h3 : search embedLits t with
      | some r3 => exact ⟨r3, rfl⟩
      | none => exact ⟨r, hr⟩

theorem extractId_none_iff (t : List Char) : extractId t = none ↔ ¬ hasRun t := by
  constructor
  · intro hnone hrun
    obtain ⟨r, hr⟩ := extractId_of_run t hrun
    rw [hnone] at hr
    exact absurd hr (by simp)
  · intro hno
    cases h : extractId t with
    | none => rfl
    | some r =>
      obtain ⟨pre, post, ht, hlen, hall⟩ := extractId_some t r h
      exact absurd ⟨pre, r, post, ht, hlen, hall⟩ hno

theorem mk_ne_empty (r : List Char) (hlen : r.length = 11) : String.mk r ≠ "" := by
  intro h
  have h2 := congrArg String.length h
  simp only [String.length] at h2
  rw [hlen] at h2
  exact absurd h2 (by decide)

/-- C27: for a non-empty string, `getYouTubeVideoId` returns `null` exactly
when the trimmed text holds no eleven consecutive characters of
`[A-Za-z0-9_-]`; `handlePreviewClick` reports `Invalid video ID in URL.`
exactly for such texts, and for any text that holds such a run it sets the
player to the ID returned. -/
theorem getYouTubeVideoId_null_iff (s : String) (hs : s ≠ "") :
    (getYouTubeVideoId (.str s) = none ↔ ¬ hasRun (jsTrim s.data)) ∧
      (handlePreviewClick (.str s) = .invalidId ↔ ¬ hasRun (jsTrim s.data)) ∧
      (hasRun (jsTrim s.data) →
        ∃ v, getYouTubeVideoId (.str s) = some v ∧ handlePreviewClick (.str s) = .play v) := by
  have hget : getYouTubeVideoId (.str s) = (extractId (jsTrim s.data)).map String.mk := by
    simp [getYouTubeVideoId, hs]
  have htruthy : (UrlArg.str s).truthy = true := by
    simp [UrlArg.truthy, hs]
  have hiff : getYouTubeVideoId (.str s) = none ↔ ¬ hasRun (jsTrim s.data) := by
    rw [hget, Option.map_eq_none', extractId_none_iff]
  have hplay : hasRun (jsTrim s.data) →
      ∃ v, getYouTubeVideoId (.str s) = some v ∧ handlePreviewClick (.str s) = .play v := by
    intro hrun
    obtain ⟨r, hr⟩ := extractId_of_run _ hrun
    obtain ⟨_, _, _, hlen, _⟩ := extractId_some _ r hr
    have hv : getYouTubeVideoId (.str s) = some (String.mk r) := by
      rw [hget, hr]
      rfl
    refine ⟨String.mk r, hv, ?_⟩
    simp [handlePreviewClick, htruthy, hv, mk_ne_empty r hlen]
  refine ⟨hiff, ?_, hplay⟩
  constructor
  · intro hinv hrun
    obtain ⟨v, _, hp⟩ := hplay hrun
    rw [hp] at hinv
    exact absurd hinv (by simp)
  · intro hno
    have hnone := hiff.mpr hno
    simp [handlePreviewClick, htruthy, hnone]

/-- C27 witness: a text that is not a YouTube link but holds an eleven
character run. -/
theorem getYouTubeVideoId_null_iff_witness :
    (getYouTubeVideoId (.str "see example.com/introduction") = none ↔
        ¬ hasRun (jsTrim "see example.com/introduction".data)) ∧
      (handlePreviewClick (.str "see example.com/introduction") = .invalidId ↔
        ¬ hasRun (jsTrim "see example.com/introduction".data)) ∧
      (hasRun (jsTrim "see example.com/introduction".data) →
        ∃ v, getYouTubeVideoId (.str "see example.com/introduction") = some v ∧
          handlePreviewClick (.str "see example.com/introduction") = .play v) :=
  getYouTubeVideoId_null_iff "see example.com/introduction" (by decide)

/-- C28: a value returned by `getYouTubeVideoId` is a contiguous part of the
trimmed argument, eleven characters long, all of `[A-Za-z0-9_-]`; hence the
guard `id && id.length === 11` of `handleWatchClick` holds exactly when the
result is not `null`: the handler sets the video ID to the result. -/
theorem getYouTubeVideoId_result (url : UrlArg) (v : String)
    (h : getYouTubeVideoId url = some v) :
    (∃ s pre post, url = .str s ∧ jsTrim s.data = pre ++ v.data ++ post) ∧
      v.length = 11 ∧
      (∀ c ∈ v.data, isIdChar c = true) ∧
      (∀ lectureUrl, handleWatchClick lectureUrl
        = getYouTubeVideoId (if lectureUrl.truthy then lectureUrl else .str "")) := by
  have hshape : ∀ (u : UrlArg) (w : String), getYouTubeVideoId u = some w →
      (∃ s pre post, u = .str s ∧ jsTrim s.data = pre ++ w.data ++ post) ∧
        w.length = 11 ∧ (∀ c ∈ w.data, isIdChar c = true) := by
    intro u w hu
    cases u with
    | absent => simp [getYouTubeVideoId] at hu
    | other t => simp [getYouTubeVideoId] at hu
    | str s =>
      by_cases hs : s = ""
      · simp [getYouTubeVideoId, hs] at hu
      · simp only [getYouTubeVideoId, hs, if_false, Option.map_eq_some'] at hu
        obtain ⟨r, hr, rfl⟩ := hu
        obtain ⟨pre, post, ht, hlen, hall⟩ := extractId_some _ r hr
        exact ⟨⟨s, pre, post, rfl, ht⟩, hlen, hall⟩
  obtain ⟨h1, h2, h3⟩ := hshape url v h
  refine ⟨h1, h2, h3, ?_⟩
  intro lectureUrl
  unfold handleWatchClick
  cases hg : getYouTubeVideoId (if lectureUrl.truthy then lectureUrl else .str "") with
  | none => rfl
  | some w =>
    obtain ⟨_, hw, _⟩ := hshape _ w hg
    have hne : w ≠ "" := by
      intro he
      rw [he] at hw
      exact absurd hw (by decide)
    simp [hw, hne]

/-- C28 witness: the short form of a URL. -/
theorem getYouTubeVideoId_result_witness :
    (∃ s pre post, UrlArg.str ("" ++ "https://youtu.be/" ++ "dQw4w9WgXcQ" ++ "") = .str s ∧
        jsTrim s.data = pre ++ "dQw4w9WgXcQ".data ++ post) ∧
      "dQw4w9WgXcQ".length = 11 ∧
      (∀ c ∈ "dQw4w9WgXcQ".data, isIdChar c = true) ∧
      (∀ lectureUrl, handleWatchClick lectureUrl
        = getYouTubeVideoId (if lectureUrl.truthy then lectureUrl else .str "")) :=
  getYouTubeVideoId_result (.str ("" ++ "https://youtu.be/" ++ "dQw4w9WgXcQ" ++ ""))
    "dQw4w9WgXcQ"
    (getYouTubeVideoId_padded "" "" "https://youtu.be/" "dQw4w9WgXcQ" 'h'
      "ttps://youtu.be/".data rfl (by decide) (by decide) (by decide) (by decide) (by decide)
      (extractId_short "dQw4w9WgXcQ".data (by decide) (by decide)))

/-! ## Bounds of the completion percentage -/

theorem lectureTotal_eq_length (course : ClientCourse) :
    lectureTotal course = (lectureIds course).length := by
  unfold lectureTotal lectureIds
  induction course.courseContent with
  | nil => rfl
  | cons ch chs ih => simp [List.flatMap_cons, ih]

/-- With a count function that returns the lecture total, the percentage of a
course with distinct lecture IDs and a duplicate-free completed list drawn
from them lies between `0` and `100`, and is `100` exactly when every lecture
is completed. -/
theorem shownPercent_countAll_bounds (enrolled : List (ClientCourse × ProgressReply))
    (i : Nat) (course : ClientCourse) (success : Bool) (message : String)
    (completed : List String)
    (hid : course.id ≠ none ∧ course.id ≠ some "")
    (hpos : 1 ≤ lectureTotal course)
    (hdistinct : (lectureIds course).Nodup) (hnodup : completed.Nodup)
    (hsub : ∀ l ∈ completed, l ∈ lectureIds course)
    (hok : success = true ∨ message = "Progress Not Found")
    (hrow : enrolled[i]? = some (course, .data success message (some completed))) :
    ∃ q : ℚ, shownPercent countAll .token enrolled i = JsVal.num q ∧ 0 ≤ q ∧ q ≤ 100 ∧
      (isCompleted (JsVal.num q) = true ↔ ∀ l ∈ lectureIds course, l ∈ completed) := by
  have hp := shownPercent_countAll enrolled i course success message (some completed)
    hid hpos hok hrow
  have htot := lectureTotal_eq_length course
  have hsp : completed.Subperm (lectureIds course) := hnodup.subperm hsub
  have hle : completed.length ≤ lectureTotal course := by
    rw [htot]
    exact hsp.length_le
  have hposq : (0 : ℚ) < lectureTotal course := by exact_mod_cast hpos
  have hleq : (completed.length : ℚ) ≤ lectureTotal course := by exact_mod_cast hle
  refine ⟨completedOf (some completed) * 100 / lectureTotal course, hp, ?_, ?_, ?_⟩
  · apply div_nonneg
    · simp only [completedOf]
      positivity
    · exact le_of_lt hposq
  · rw [div_le_iff₀ hposq]
    simp only [completedOf]
    nlinarith
  · have h100 : isCompleted (JsVal.num (completedOf (some completed) * 100
        / lectureTotal course)) = true ↔ completed.length = lectureTotal course := by
      simp only [isCompleted, beq_iff_eq, JsVal.num.injEq, completedOf]
      rw [div_eq_iff (ne_of_gt hposq)]
      constructor
      · intro h
        have h2 : (completed.length : ℚ) = lectureTotal course := by linarith
        exact_mod_cast h2
      · intro h
        rw [h]
        ring
    rw [h100]
    constructor
    · intro heq l hl
      have hperm := hsp.perm_of_length_le (by rw [← htot, heq])
      exact hperm.mem_iff.mpr hl
    · intro hall
      have hsp2 : (lectureIds course).Subperm completed := hdistinct.subperm hall
      have := hsp2.length_le
      omega

/-- C29 at a course with five distinct lectures: with the
`calculateNoOfLectures` of the context, which returns `undefined`, the page
shows `300` for three completed lectures, above `100`, and shows `100`, the
status `Completed`, for one completed lecture although lecture `l2` is not
completed; with a count function that returns the lecture total the same
code shows `60` and `20`. -/
theorem percent_bounds_scenario :
    lectureIds course32 = ["l1", "l2", "l3", "l4", "l5"] ∧
      shownPercent calculateNoOfLectures .token rows32 0 = JsVal.num 300 ∧
      (100 : ℚ) < 300 ∧
      shownPercent calculateNoOfLectures .token rowsOne 0 = JsVal.num 100 ∧
      isCompleted (shownPercent calculateNoOfLectures .token rowsOne 0) = true ∧
      "l2" ∈ lectureIds course32 ∧ "l2" ∉ ["l1"] ∧
      shownPercent countAll .token rows32 0 = JsVal.num 60 ∧
      shownPercent countAll .token rowsOne 0 = JsVal.num 20 := by
  have h300 : shownPercent calculateNoOfLectures .token rows32 0 = JsVal.num 300 := by
    rw [shownPercent_unit calculateNoOfLectures rows32 0 course32 true ""
      (some ["l1", "l2", "l3"]) (by simp [course32]) (Or.inr rfl) (Or.inl rfl) rfl]
    simp [completedOf]
    norm_num
  have h100 : shownPercent calculateNoOfLectures .token rowsOne 0 = JsVal.num 100 := by
    rw [shownPercent_unit calculateNoOfLectures rowsOne 0 course32 true ""
      (some ["l1"]) (by simp [course32]) (Or.inr rfl) (Or.inl rfl) rfl]
    simp [completedOf]
  have h60 : shownPercent countAll .token rows32 0 = JsVal.num 60 := by
    rw [shownPercent_countAll rows32 0 course32 true ""
      (some ["l1", "l2", "l3"]) (by simp [course32]) (by decide) (Or.inl rfl) rfl]
    simp [completedOf, lectureTotal, course32]
    norm_num
  have h20 : shownPercent countAll .token rowsOne 0 = JsVal.num 20 := by
    rw [shownPercent_countAll rowsOne 0 course32 true ""
      (some ["l1"]) (by simp [course32]) (by decide) (Or.inl rfl) rfl]
    simp [completedOf, lectureTotal, course32]
    norm_num
  refine ⟨rfl, h300, by norm_num, h100, ?_, by decide, by decide, h60, h20⟩
  rw [h100]
  simp [isCompleted]

end Learnifyy
